import Mathlib

/-!
# Solar_System: procedural meshes, orbital state and turntable camera

A shallow embedding of `453-skeleton/ShapeGenerator.cpp`, `453-skeleton/TurnTableCamera.cpp`
and `.hpp`, and of `SolarSystem::Update` and `SolarSystem::Render` of
`453-skeleton/SolarSystem.cpp`.

* C++ `float` is a type parameter `α` carrying field arithmetic and the
  `<cmath>` functions the source calls (`FloatMath`).  Statements made "in exact
  real arithmetic" instantiate `α` with `ℝ`; statements about list sizes and
  index values hold for every `α`.
* C++ `int` is `Int`.  Signed overflow is undefined behaviour in C++ and is not
  part of the model: a loop `for (int i = 0; i < n; ++i)` runs `n` times for
  `n ≥ 0` and never for `n < 0`.
* Division follows the field convention `x / 0 = 0`, whereas `float` division by
  zero gives an infinity or a NaN; no statement below speaks about a coordinate
  computed with `slices = 0`, `stacks = 0` or `segments = 0`, only about sizes.
* `std::vector` is `List`; `emplace_back` / `push_back` append at the end.
* A function mutating a `CPU_Geometry &` is a function from the old value to
  the new one; a member function is a function from the object before the call
  to the object after it, and what it reads from a collaborator that is not
  modelled (cursor, mouse button, clock) is an argument.
* Code that compares scalars takes `α` to be a linearly ordered field.
* Where the rounding of one `float` addition decides a statement, `glm::vec3` addition is
  taken at `Binary32`: rational values with round-to-nearest-even addition.
-/

namespace SolarSystem

/-! ## Scalars and vectors -/

/-- The `<cmath>` / glm scalar functions used by the source, for a scalar type `α`. -/
class FloatMath (α : Type) where
  /-- The functions `cosf` and `cos`. -/
  cos : α → α
  /-- The functions `sinf` and `sin`. -/
  sin : α → α
  /-- The function `sqrt`, used by `glm::normalize`. -/
  sqrt : α → α
  /-- The constant `glm::pi<float>()`. -/
  pi : α
  /-- The function `pow(base, exponent)`. -/
  pow : α → α → α

/-- Exact real arithmetic: the interpretation of `float` over `ℝ`. -/
noncomputable instance instFloatMathReal : FloatMath ℝ where
  cos := Real.cos
  sin := Real.sin
  sqrt := Real.sqrt
  pi := Real.pi
  pow := Real.rpow

/-- The type `glm::vec2`. -/
structure Vec2 (α : Type) where
  x : α
  y : α
deriving DecidableEq, Repr

/-- The type `glm::vec3`. -/
structure Vec3 (α : Type) where
  x : α
  y : α
  z : α
deriving DecidableEq, Repr

/-- The type `glm::vec4`. -/
structure Vec4 (α : Type) where
  x : α
  y : α
  z : α
  w : α
deriving DecidableEq, Repr

/-- The type `glm::mat4`, stored column by column as glm does (`m[0]` .. `m[3]`). -/
structure Mat4 (α : Type) where
  c0 : Vec4 α
  c1 : Vec4 α
  c2 : Vec4 α
  c3 : Vec4 α
deriving DecidableEq, Repr

/-- Modelled from the spec: `CPU_Geometry` is declared in `Geometry.h`, which is not among the
sources; the spec's Mesh has ordered positions, normals, texture coordinates, colors and triangle
indices, and `ShapeGenerator.cpp` uses exactly the members `positions`, `normals`, `uvs`, `colors`
and `indices`.  An index is kept as the `int` value the source pushes. -/
structure CPU_Geometry (α : Type) where
  positions : List (Vec3 α) := []
  normals : List (Vec3 α) := []
  uvs : List (Vec2 α) := []
  colors : List (Vec3 α) := []
  indices : List Int := []

/-! ## Counting loops -/

/-- The loop `for (int i = 0; i < n; ++i) body(i)`, threading the state through the body. -/
def forLt {σ : Type} (n : Int) (body : Int → σ → σ) (s : σ) : σ :=
  (List.range n.toNat).foldl (fun acc k => body (Int.ofNat k) acc) s

/-- The loop `for (int i = 0; i <= n; ++i) body(i)`. -/
def forLe {σ : Type} (n : Int) (body : Int → σ → σ) (s : σ) : σ :=
  (List.range (n + 1).toNat).foldl (fun acc k => body (Int.ofNat k) acc) s

/-! ## ShapeGenerator::Sphere -/

namespace ShapeGenerator

/-- `CPU_Geometry ShapeGenerator::Sphere(float radius, int slices, int stacks)`; the parameter
`stacks` is written `nstacks`, as `stacks` is a reserved word of the library. -/
def Sphere {α : Type} [Field α] [FloatMath α] (radius : α) (slices nstacks : Int) :
    CPU_Geometry α :=
  let geom : CPU_Geometry α := {}
  -- Generate vertices
  let geom := forLe nstacks (fun i geom =>
    let v : α := (i : α) / (nstacks : α)
    let phi : α := v * FloatMath.pi
    forLe slices (fun j geom =>
      let u : α := (j : α) / (slices : α)
      let theta : α := u * (FloatMath.pi * 2)
      let x : α := FloatMath.cos theta * FloatMath.sin phi
      let y : α := FloatMath.cos phi
      let z : α := FloatMath.sin theta * FloatMath.sin phi
      { geom with
        positions := geom.positions ++ [⟨x * radius, y * radius, z * radius⟩]
        normals := geom.normals ++ [⟨x, y, z⟩]
        uvs := geom.uvs ++ [⟨u, 1 - v⟩]
        colors := geom.colors ++ [⟨u, v, 0.5⟩] }) geom) geom
  -- Generate indices
  let geom := forLt nstacks (fun i geom =>
    forLt slices (fun j geom =>
      let first : Int := (i * (slices + 1)) + j
      let second : Int := first + slices + 1
      { geom with
        indices := geom.indices ++ [first, second, first + 1, second, second + 1, first + 1] })
      geom) geom
  geom

/-! ## ShapeGenerator::Ring -/

/-- `CPU_Geometry ShapeGenerator::Ring(float innerRadius, float outerRadius, int segments)`. -/
def Ring {α : Type} [Field α] [FloatMath α] (innerRadius outerRadius : α) (segments : Int) :
    CPU_Geometry α :=
  let geom : CPU_Geometry α := {}
  -- Generate vertices
  let geom := forLe segments (fun i geom =>
    let angle : α := 2.0 * FloatMath.pi * (i : α) / (segments : α)
    let x : α := FloatMath.cos angle
    let z : α := FloatMath.sin angle
    { geom with
      -- Outer vertex, then inner vertex
      positions := geom.positions ++
        [⟨x * outerRadius, 0.0, z * outerRadius⟩, ⟨x * innerRadius, 0.0, z * innerRadius⟩]
      normals := geom.normals ++ [⟨0.0, 1.0, 0.0⟩, ⟨0.0, 1.0, 0.0⟩]
      uvs := geom.uvs ++
        [⟨1.0, angle / (2.0 * FloatMath.pi)⟩, ⟨0.0, angle / (2.0 * FloatMath.pi)⟩]
      colors := geom.colors ++ [⟨1.0, 1.0, 1.0⟩, ⟨1.0, 1.0, 1.0⟩] }) geom
  -- Generate indices
  let geom := forLt segments (fun i geom =>
    let outer1 : Int := i * 2
    let inner1 : Int := i * 2 + 1
    let outer2 : Int := (i + 1) * 2
    let inner2 : Int := (i + 1) * 2 + 1
    { geom with
      indices := geom.indices ++ [outer1, inner1, outer2, inner1, inner2, outer2] }) geom
  geom

end ShapeGenerator

/-! ## The glm functions used by the cube faces

glm is a third-party library; the definitions below follow its reference (non-SIMD)
implementation, with `float` read as `α`. -/

namespace glm

variable {α : Type}

/-- Component-wise sum of two `vec4`. -/
def Vec4.add [Add α] (a b : Vec4 α) : Vec4 α :=
  ⟨a.x + b.x, a.y + b.y, a.z + b.z, a.w + b.w⟩

/-- The product `vec4 * scalar`. -/
def Vec4.scale [Mul α] (a : Vec4 α) (k : α) : Vec4 α :=
  ⟨a.x * k, a.y * k, a.z * k, a.w * k⟩

/-- The constructor `glm::vec4(vec3, w)`. -/
def vec4 (v : Vec3 α) (w : α) : Vec4 α :=
  ⟨v.x, v.y, v.z, w⟩

/-- The conversion `glm::vec3(vec4)`, which drops `w`. -/
def vec3 (v : Vec4 α) : Vec3 α :=
  ⟨v.x, v.y, v.z⟩

/-- The identity matrix `glm::mat4(1.0f)`. -/
def mat4_one [Zero α] [One α] : Mat4 α :=
  ⟨⟨1, 0, 0, 0⟩, ⟨0, 1, 0, 0⟩, ⟨0, 0, 1, 0⟩, ⟨0, 0, 0, 1⟩⟩

/-- The product `mat4 * vec4`: the combination of the columns of `m` weighted by `v`. -/
def mulVec [Add α] [Mul α] (m : Mat4 α) (v : Vec4 α) : Vec4 α :=
  Vec4.add (Vec4.add (Vec4.scale m.c0 v.x) (Vec4.scale m.c1 v.y))
    (Vec4.add (Vec4.scale m.c2 v.z) (Vec4.scale m.c3 v.w))

/-- The product `mat4 * mat4`: column `j` of the result is `a * b[j]`. -/
def mul [Add α] [Mul α] (a b : Mat4 α) : Mat4 α :=
  let col (v : Vec4 α) : Vec4 α :=
    Vec4.add (Vec4.add (Vec4.add (Vec4.scale a.c0 v.x) (Vec4.scale a.c1 v.y))
      (Vec4.scale a.c2 v.z)) (Vec4.scale a.c3 v.w)
  ⟨col b.c0, col b.c1, col b.c2, col b.c3⟩

/-- The function `glm::translate(m, v)`. -/
def translate [Add α] [Mul α] (m : Mat4 α) (v : Vec3 α) : Mat4 α :=
  { m with
    c3 := Vec4.add (Vec4.add (Vec4.add (Vec4.scale m.c0 v.x) (Vec4.scale m.c1 v.y))
      (Vec4.scale m.c2 v.z)) m.c3 }

/-- The function `glm::radians(degrees)`; glm multiplies by the constant `pi / 180`. -/
def radians [Field α] [FloatMath α] (degrees : α) : α :=
  degrees * (FloatMath.pi / 180)

/-- The function `glm::normalize(v)` on `vec3`: `v * inversesqrt(dot(v, v))`. -/
def normalize [Field α] [FloatMath α] (v : Vec3 α) : Vec3 α :=
  let k : α := 1 / FloatMath.sqrt (v.x * v.x + v.y * v.y + v.z * v.z)
  ⟨v.x * k, v.y * k, v.z * k⟩

/-- The function `glm::length(v)` on `vec3`: `sqrt(dot(v, v))`, the Euclidean length. -/
def length [Field α] [FloatMath α] (v : Vec3 α) : α :=
  FloatMath.sqrt (v.x * v.x + v.y * v.y + v.z * v.z)

/-- The function `glm::rotate(m, angle, v)`. -/
def rotate [Field α] [FloatMath α] (m : Mat4 α) (angle : α) (v : Vec3 α) : Mat4 α :=
  let c : α := FloatMath.cos angle
  let s : α := FloatMath.sin angle
  let axis : Vec3 α := normalize v
  let temp : Vec3 α := ⟨(1 - c) * axis.x, (1 - c) * axis.y, (1 - c) * axis.z⟩
  let r00 : α := c + temp.x * axis.x
  let r01 : α := temp.x * axis.y + s * axis.z
  let r02 : α := temp.x * axis.z - s * axis.y
  let r10 : α := temp.y * axis.x - s * axis.z
  let r11 : α := c + temp.y * axis.y
  let r12 : α := temp.y * axis.z + s * axis.x
  let r20 : α := temp.z * axis.x + s * axis.y
  let r21 : α := temp.z * axis.y - s * axis.x
  let r22 : α := c + temp.z * axis.z
  { c0 := Vec4.add (Vec4.add (Vec4.scale m.c0 r00) (Vec4.scale m.c1 r01)) (Vec4.scale m.c2 r02)
    c1 := Vec4.add (Vec4.add (Vec4.scale m.c0 r10) (Vec4.scale m.c1 r11)) (Vec4.scale m.c2 r12)
    c2 := Vec4.add (Vec4.add (Vec4.scale m.c0 r20) (Vec4.scale m.c1 r21)) (Vec4.scale m.c2 r22)
    c3 := m.c3 }

end glm

/-! ## ShapeGenerator::UnitCube -/

namespace ShapeGenerator

variable {α : Type} [Field α] [FloatMath α]

/-- The helper `colouredTriangles(geom, col)`: six `emplace_back(col)` on `colors`. -/
def colouredTriangles (geom : CPU_Geometry α) (col : Vec3 α) : CPU_Geometry α :=
  { geom with colors := geom.colors ++ [col, col, col, col, col, col] }

/-- The body shared by the six face helpers: every point of `originQuad`, in order, is
transformed by `M` and appended to `positions`; then the face normal `n` is appended six times
to `normals`. -/
def emitFace (M : Mat4 α) (n : Vec3 α) (originQuad : List (Vec3 α)) (geom : CPU_Geometry α) :
    CPU_Geometry α :=
  let geom := originQuad.foldl (fun geom p =>
    { geom with positions := geom.positions ++ [glm.vec3 (glm.mulVec M (glm.vec4 p 1.0))] }) geom
  { geom with normals := geom.normals ++ [n, n, n, n, n, n] }

/-- The helper `positiveZFace(originQuad, geom)`. -/
def positiveZFace (originQuad : List (Vec3 α)) (geom : CPU_Geometry α) : CPU_Geometry α :=
  let T : Mat4 α := glm.translate glm.mat4_one ⟨0.0, 0.0, 0.5⟩
  emitFace T ⟨0.0, 0.0, 1.0⟩ originQuad geom

/-- The helper `positiveXFace(originQuad, geom)`. -/
def positiveXFace (originQuad : List (Vec3 α)) (geom : CPU_Geometry α) : CPU_Geometry α :=
  let R : Mat4 α := glm.rotate glm.mat4_one (glm.radians 90.0) ⟨0.0, 1.0, 0.0⟩
  let T : Mat4 α := glm.translate glm.mat4_one ⟨0.5, 0.0, 0.0⟩
  emitFace (glm.mul T R) ⟨1.0, 0.0, 0.0⟩ originQuad geom

/-- The helper `negativeZFace(originQuad, geom)`. -/
def negativeZFace (originQuad : List (Vec3 α)) (geom : CPU_Geometry α) : CPU_Geometry α :=
  let R : Mat4 α := glm.rotate glm.mat4_one (glm.radians 180.0) ⟨0.0, 1.0, 0.0⟩
  let T : Mat4 α := glm.translate glm.mat4_one ⟨0.0, 0.0, -0.5⟩
  emitFace (glm.mul T R) ⟨0.0, 0.0, -1.0⟩ originQuad geom

/-- The helper `negativeXFace(originQuad, geom)`. -/
def negativeXFace (originQuad : List (Vec3 α)) (geom : CPU_Geometry α) : CPU_Geometry α :=
  let R : Mat4 α := glm.rotate glm.mat4_one (glm.radians (-90.0)) ⟨0.0, 1.0, 0.0⟩
  let T : Mat4 α := glm.translate glm.mat4_one ⟨-0.5, 0.0, 0.0⟩
  emitFace (glm.mul T R) ⟨-1.0, 0.0, 0.0⟩ originQuad geom

/-- The helper `positiveYFace(originQuad, geom)`. -/
def positiveYFace (originQuad : List (Vec3 α)) (geom : CPU_Geometry α) : CPU_Geometry α :=
  let R : Mat4 α := glm.rotate glm.mat4_one (glm.radians (-90.0)) ⟨1.0, 0.0, 0.0⟩
  let T : Mat4 α := glm.translate glm.mat4_one ⟨0.0, 0.5, 0.0⟩
  emitFace (glm.mul T R) ⟨0.0, 1.0, 0.0⟩ originQuad geom

/-- The helper `negativeYFace(originQuad, geom)`. -/
def negativeYFace (originQuad : List (Vec3 α)) (geom : CPU_Geometry α) : CPU_Geometry α :=
  let R : Mat4 α := glm.rotate glm.mat4_one (glm.radians 90.0) ⟨1.0, 0.0, 0.0⟩
  let T : Mat4 α := glm.translate glm.mat4_one ⟨0.0, -0.5, 0.0⟩
  emitFace (glm.mul T R) ⟨0.0, -1.0, 0.0⟩ originQuad geom

/-- `CPU_Geometry ShapeGenerator::UnitCube()`. -/
def UnitCube : CPU_Geometry α :=
  let originQuad : List (Vec3 α) :=
    [ ⟨-0.5, 0.5, 0.0⟩,   -- top-left
      ⟨-0.5, -0.5, 0.0⟩,  -- bottom-left
      ⟨0.5, 0.5, 0.0⟩,    -- top-right
      ⟨-0.5, -0.5, 0.0⟩,  -- bottom-left
      ⟨0.5, -0.5, 0.0⟩,   -- bottom-right
      ⟨0.5, 0.5, 0.0⟩ ]   -- top-right
  let square : CPU_Geometry α := {}
  let square := positiveZFace originQuad square
  let square := colouredTriangles square ⟨1, 1, 0⟩
  let square := positiveXFace originQuad square
  let square := colouredTriangles square ⟨1, 0, 0⟩
  let square := negativeZFace originQuad square
  let square := colouredTriangles square ⟨0, 1, 0⟩
  let square := negativeXFace originQuad square
  let square := colouredTriangles square ⟨0, 0, 1⟩
  let square := positiveYFace originQuad square
  let square := colouredTriangles square ⟨1, 0, 1⟩
  let square := negativeYFace originQuad square
  let square := colouredTriangles square ⟨0, 1, 1⟩
  square

end ShapeGenerator

/-! ## The values pushed by one iteration of the generator loops

Names for the loop bodies of `Sphere` and `Ring`, used to state what the loops build. -/

namespace ShapeGenerator

section LoopBodies

variable {α : Type} [Field α] [FloatMath α]

/-- Vertex `(i, j)` of the sphere: the normal pushed by the inner loop body. -/
def sphereNormal (slices nstacks : Int) (i j : Int) : Vec3 α :=
  let v : α := (i : α) / (nstacks : α)
  let phi : α := v * FloatMath.pi
  let u : α := (j : α) / (slices : α)
  let theta : α := u * (FloatMath.pi * 2)
  ⟨FloatMath.cos theta * FloatMath.sin phi, FloatMath.cos phi,
    FloatMath.sin theta * FloatMath.sin phi⟩

/-- Vertex `(i, j)` of the sphere: the position pushed by the inner loop body. -/
def spherePosition (radius : α) (slices nstacks : Int) (i j : Int) : Vec3 α :=
  let n : Vec3 α := sphereNormal slices nstacks i j
  ⟨n.x * radius, n.y * radius, n.z * radius⟩

/-- Vertex `(i, j)` of the sphere: the texture coordinate pushed by the inner loop body. -/
def sphereUV (slices nstacks : Int) (i j : Int) : Vec2 α :=
  ⟨(j : α) / (slices : α), 1 - (i : α) / (nstacks : α)⟩

/-- Vertex `(i, j)` of the sphere: the color pushed by the inner loop body. -/
def sphereColor (slices nstacks : Int) (i j : Int) : Vec3 α :=
  ⟨(j : α) / (slices : α), (i : α) / (nstacks : α), 0.5⟩

/-- Quad `(i, j)` of the sphere: the six indices pushed by the inner loop body. -/
def sphereQuad (slices : Int) (i j : Int) : List Int :=
  [i * (slices + 1) + j, i * (slices + 1) + j + slices + 1, i * (slices + 1) + j + 1,
    i * (slices + 1) + j + slices + 1, i * (slices + 1) + j + slices + 1 + 1,
    i * (slices + 1) + j + 1]

/-- Row-major enumeration of an `n` by `m` grid. -/
def grid {β : Type} (n m : Int) (f : Int → Int → List β) : List β :=
  (List.range n.toNat).flatMap (fun i =>
    (List.range m.toNat).flatMap (fun j => f (Int.ofNat i) (Int.ofNat j)))

/-- Angular step `i` of the ring: the value of the local `angle`. -/
def ringAngle (segments : Int) (i : Int) : α :=
  2.0 * FloatMath.pi * (i : α) / (segments : α)

/-- Angular step `i` of the ring: the vertex pushed with the given radius. -/
def ringPosition (r : α) (segments : Int) (i : Int) : Vec3 α :=
  ⟨FloatMath.cos (ringAngle segments i) * r, 0.0, FloatMath.sin (ringAngle segments i) * r⟩

/-- Segment `i` of the ring: the six indices pushed by the index loop body. -/
def ringQuad (i : Int) : List Int :=
  [i * 2, i * 2 + 1, (i + 1) * 2, i * 2 + 1, (i + 1) * 2 + 1, (i + 1) * 2]

end LoopBodies

end ShapeGenerator

/-! ## Mesh-level notions used by the statements -/

/-- Component-wise sum of two `vec3`. -/
def Vec3.add {α : Type} [Add α] (a b : Vec3 α) : Vec3 α :=
  ⟨a.x + b.x, a.y + b.y, a.z + b.z⟩

/-- The centroid (arithmetic mean) of a list of points. -/
def centroid {α : Type} [Field α] (ps : List (Vec3 α)) : Vec3 α :=
  let s : Vec3 α := ps.foldl Vec3.add ⟨0, 0, 0⟩
  ⟨s.x / (ps.length : α), s.y / (ps.length : α), s.z / (ps.length : α)⟩

/-- The positions of face `k` of an unindexed mesh of six-vertex faces: vertices `6k .. 6k+5`. -/
def facePositions {α : Type} (g : CPU_Geometry α) (k : Nat) : List (Vec3 α) :=
  (g.positions.drop (6 * k)).take 6

/-- The normals of face `k` of an unindexed mesh of six-vertex faces: vertices `6k .. 6k+5`. -/
def faceNormals {α : Type} (g : CPU_Geometry α) (k : Nat) : List (Vec3 α) :=
  (g.normals.drop (6 * k)).take 6

/-- Modelled from the spec: the Mesh invariant of the data model,
`len(positions) == len(normals) == len(uvs) == len(colors)`, which no source file states. -/
def MeshInvariant {α : Type} (g : CPU_Geometry α) : Prop :=
  g.positions.length = g.normals.length ∧ g.normals.length = g.uvs.length ∧
    g.uvs.length = g.colors.length

instance instDecidableMeshInvariant {α : Type} (g : CPU_Geometry α) :
    Decidable (MeshInvariant g) :=
  inferInstanceAs (Decidable (_ ∧ _ ∧ _))

/-! ## glm functions used by the camera -/

namespace glm

variable {α : Type}

/-- The sum `vec3 + vec3`. -/
def add3 [Add α] (a b : Vec3 α) : Vec3 α :=
  ⟨a.x + b.x, a.y + b.y, a.z + b.z⟩

/-- The difference `vec3 - vec3`. -/
def sub3 [Sub α] (a b : Vec3 α) : Vec3 α :=
  ⟨a.x - b.x, a.y - b.y, a.z - b.z⟩

/-- The product `vec3 * scalar`. -/
def scale3 [Mul α] (a : Vec3 α) (k : α) : Vec3 α :=
  ⟨a.x * k, a.y * k, a.z * k⟩

/-- The function `glm::dot` on `vec3`. -/
def dot [Add α] [Mul α] (a b : Vec3 α) : α :=
  a.x * b.x + a.y * b.y + a.z * b.z

/-- The function `glm::cross`. -/
def cross [Sub α] [Mul α] (a b : Vec3 α) : Vec3 α :=
  ⟨a.y * b.z - b.y * a.z, a.z * b.x - b.z * a.x, a.x * b.y - b.x * a.y⟩

/-- The function `glm::lookAt(eye, center, up)` (right-handed, the glm default). -/
def lookAt [Field α] [FloatMath α] (eye center up : Vec3 α) : Mat4 α :=
  let f : Vec3 α := normalize (sub3 center eye)
  let s : Vec3 α := normalize (cross f up)
  let u : Vec3 α := cross s f
  ⟨⟨s.x, u.x, -f.x, 0⟩, ⟨s.y, u.y, -f.y, 0⟩, ⟨s.z, u.z, -f.z, 0⟩,
    ⟨-dot s eye, -dot u eye, dot f eye, 1⟩⟩

end glm

/-! ## std::clamp and Math.hpp -/

/-- The function `std::clamp(v, lo, hi)`: `(v < lo) ? lo : (hi < v) ? hi : v`. -/
def std.clamp {α : Type} [LinearOrder α] (v lo hi : α) : α :=
  if v < lo then lo else if hi < v then hi else v

/-- The constants `Math::UpVec3`, `Math::RightVec3` and `Math::ForwardVec3` of `Math.hpp`, which
is not among the sources.  They are a parameter of the code that reads them. -/
structure Math (α : Type) where
  UpVec3 : Vec3 α
  RightVec3 : Vec3 α
  ForwardVec3 : Vec3 α

/-! ## TurnTableCamera -/

/-- The enumeration `TurnTableCamera::TargetBody`. -/
inductive TurnTableCamera.TargetBody where
  | SUN
  | EARTH
  | MOON
  | NONE
deriving DecidableEq, Repr

/-- The structure `TurnTableCamera::Params` with its default member initialisers. -/
structure TurnTableCamera.Params (α : Type) [Field α] where
  defaultRadius : α := 0.0
  defaultTheta : α := 0.0
  defaultPhi : α := 0.0
  defaultDistance : α := 5.0
  minDistance : α := 1.0
  maxDistance : α := 20.0

/-- The data members of `class TurnTableCamera`, with their default member initialisers (`{}` is
zero). -/
structure TurnTableCamera (α : Type) [Field α] where
  m_targetPosition : Vec3 α := ⟨0.0, 0.0, 0.0⟩
  m_targetBody : TurnTableCamera.TargetBody := TurnTableCamera.TargetBody.NONE
  m_lastTargetPosition : Vec3 α := ⟨0.0, 0.0, 0.0⟩
  _distance : α := 0
  _minDistance : α := 0
  _maxDistance : α := 0
  _theta : α := 0
  _phi : α := 0
  _isDirty : Bool := true
  _viewMatrix : Mat4 α := ⟨⟨0, 0, 0, 0⟩, ⟨0, 0, 0, 0⟩, ⟨0, 0, 0, 0⟩, ⟨0, 0, 0, 0⟩⟩
  _position : Vec3 α := ⟨0, 0, 0⟩

namespace TurnTableCamera

variable {α : Type} [LinearOrderedField α] [FloatMath α]

/-- The constructor `TurnTableCamera::TurnTableCamera(Params const &params)`. -/
def ctor (params : Params α) : TurnTableCamera α :=
  { _distance := params.defaultDistance
    _minDistance := params.minDistance
    _maxDistance := params.maxDistance }

/-- The default constructor `TurnTableCamera::TurnTableCamera()`, which delegates to
`TurnTableCamera(Params{})`. -/
def ctor_default : TurnTableCamera α :=
  ctor {}

/-- The member `void SetTargetPosition(const glm::vec3 &position)`. -/
def SetTargetPosition (c : TurnTableCamera α) (position : Vec3 α) : TurnTableCamera α :=
  { c with m_targetPosition := position, _isDirty := true }

/-- The member `void SetTargetBody(TargetBody body)`. -/
def SetTargetBody (c : TurnTableCamera α) (body : TargetBody) : TurnTableCamera α :=
  { c with m_targetBody := body }

/-- The member `TargetBody GetTargetBody() const`. -/
def GetTargetBody (c : TurnTableCamera α) : TargetBody :=
  c.m_targetBody

/-- The member `void UpdateViewMatrix()`. -/
def UpdateViewMatrix (M : Math α) (c : TurnTableCamera α) : TurnTableCamera α :=
  if c._isDirty == true then
    let hRot : Mat4 α := glm.rotate glm.mat4_one c._theta M.UpVec3
    let vRot : Mat4 α := glm.rotate glm.mat4_one c._phi M.RightVec3
    let position : Vec3 α := glm.add3 c.m_lastTargetPosition
      (glm.scale3 (glm.vec3 (glm.mulVec (glm.mul hRot vRot) (glm.vec4 M.ForwardVec3 0.0)))
        c._distance)
    { c with
      _isDirty := false
      _position := position
      _viewMatrix := glm.lookAt position c.m_lastTargetPosition M.UpVec3 }
  else c

/-- The member `glm::mat4 ViewMatrix()`: the camera after the call and the returned matrix. -/
def ViewMatrix (M : Math α) (c : TurnTableCamera α) : TurnTableCamera α × Mat4 α :=
  let c := UpdateViewMatrix M c
  (c, c._viewMatrix)

/-- The member `glm::vec3 Position()`: the camera after the call and the returned point. -/
def Position (M : Math α) (c : TurnTableCamera α) : TurnTableCamera α × Vec3 α :=
  let c := UpdateViewMatrix M c
  (c, c._position)

/-- The member `glm::vec3 GetPosition() const`. -/
def GetPosition (c : TurnTableCamera α) : Vec3 α :=
  let x : α := c._distance * FloatMath.sin c._phi * FloatMath.cos c._theta
  let y : α := c._distance * FloatMath.cos c._phi
  let z : α := c._distance * FloatMath.sin c._phi * FloatMath.sin c._theta
  ⟨x, y, z⟩

/-- The member `void ChangeTheta(float deltaTheta)`. -/
def ChangeTheta (c : TurnTableCamera α) (deltaTheta : α) : TurnTableCamera α :=
  let newTheta : α := c._theta + deltaTheta
  if newTheta ≠ c._theta then
    { c with _theta := newTheta, _isDirty := true }
  else c

/-- The member `void ChangePhi(float deltaPhi)`. -/
def ChangePhi (c : TurnTableCamera α) (deltaPhi : α) : TurnTableCamera α :=
  let newPhi : α := std.clamp (c._phi + deltaPhi) (-FloatMath.pi * 0.49) (FloatMath.pi * 0.49)
  if newPhi ≠ c._phi then
    { c with _isDirty := true, _phi := newPhi }
  else c

/-- The member `void ChangeRadius(float deltaRadius)`. -/
def ChangeRadius (c : TurnTableCamera α) (deltaRadius : α) : TurnTableCamera α :=
  let newDistance : α := std.clamp (c._distance + deltaRadius) c._minDistance c._maxDistance
  if newDistance ≠ c._distance then
    { c with _isDirty := true, _distance := newDistance }
  else c

/-- The member `void UpdateTargetPosition(const glm::vec3 &position)`. -/
def UpdateTargetPosition (c : TurnTableCamera α) (position : Vec3 α) : TurnTableCamera α :=
  if c.m_targetBody ≠ TargetBody.NONE then
    { c with m_lastTargetPosition := position, _isDirty := true }
  else c

/-- One call of a public member function of the camera, with its arguments. -/
inductive Call (α : Type) where
  | ChangeTheta (deltaTheta : α)
  | ChangePhi (deltaPhi : α)
  | ChangeRadius (deltaRadius : α)
  | SetTargetBody (body : TargetBody)
  | SetTargetPosition (position : Vec3 α)
  | UpdateTargetPosition (position : Vec3 α)
  | ViewMatrix
  | Position

/-- The camera after one call. -/
def call (M : Math α) (c : TurnTableCamera α) : Call α → TurnTableCamera α
  | Call.ChangeTheta d => c.ChangeTheta d
  | Call.ChangePhi d => c.ChangePhi d
  | Call.ChangeRadius d => c.ChangeRadius d
  | Call.SetTargetBody b => c.SetTargetBody b
  | Call.SetTargetPosition p => c.SetTargetPosition p
  | Call.UpdateTargetPosition p => c.UpdateTargetPosition p
  | Call.ViewMatrix => (c.ViewMatrix M).1
  | Call.Position => (c.Position M).1

/-- The camera after a sequence of calls, first call first. -/
def calls (M : Math α) (c : TurnTableCamera α) (cs : List (Call α)) : TurnTableCamera α :=
  cs.foldl (call M) c

/-- The value that the body of `UpdateViewMatrix` assigns to `_position`, as a function of the
members it reads: `m_lastTargetPosition`, `_theta`, `_phi` and `_distance`. -/
def computedPosition (M : Math α) (c : TurnTableCamera α) : Vec3 α :=
  let hRot : Mat4 α := glm.rotate glm.mat4_one c._theta M.UpVec3
  let vRot : Mat4 α := glm.rotate glm.mat4_one c._phi M.RightVec3
  glm.add3 c.m_lastTargetPosition
    (glm.scale3 (glm.vec3 (glm.mulVec (glm.mul hRot vRot) (glm.vec4 M.ForwardVec3 0.0)))
      c._distance)

/-- The value that the body of `UpdateViewMatrix` assigns to `_viewMatrix`: the look-at matrix
from the computed position to `m_lastTargetPosition`. -/
def computedViewMatrix (M : Math α) (c : TurnTableCamera α) : Mat4 α :=
  glm.lookAt (computedPosition M c) c.m_lastTargetPosition M.UpVec3

/-- The cache is not stale: when the dirty flag is false, the stored view matrix and position
are the values computed from the current members. -/
def CacheValid (M : Math α) (c : TurnTableCamera α) : Prop :=
  c._isDirty = false →
    c._viewMatrix = computedViewMatrix M c ∧ c._position = computedPosition M c

/-- The condition of the `if` in `UpdateViewMatrix`: a `ViewMatrix()` or `Position()` query on
`c` recomputes the view matrix. -/
def Recomputes (c : TurnTableCamera α) : Prop :=
  c._isDirty = true

instance instDecidableRecomputes (c : TurnTableCamera α) : Decidable (Recomputes c) :=
  inferInstanceAs (Decidable (c._isDirty = true))

/-- Whether the call is one of the six mutators, as opposed to the queries `ViewMatrix()` and
`Position()`. -/
def Call.isMutator : Call α → Bool
  | Call.ViewMatrix => false
  | Call.Position => false
  | _ => true

/-- Whether the call, made on camera `c`, executes the statement `_isDirty = true`: the
condition of the `if` that guards it in the member function, `true` where it is unguarded. -/
def setsDirty (c : TurnTableCamera α) : Call α → Bool
  | Call.ChangeTheta deltaTheta => decide (c._theta + deltaTheta ≠ c._theta)
  | Call.ChangePhi deltaPhi =>
    decide (std.clamp (c._phi + deltaPhi) (-FloatMath.pi * 0.49) (FloatMath.pi * 0.49) ≠ c._phi)
  | Call.ChangeRadius deltaRadius =>
    decide (std.clamp (c._distance + deltaRadius) c._minDistance c._maxDistance ≠ c._distance)
  | Call.SetTargetBody _ => false
  | Call.SetTargetPosition _ => true
  | Call.UpdateTargetPosition _ => decide (c.m_targetBody ≠ TargetBody.NONE)
  | Call.ViewMatrix => false
  | Call.Position => false

end TurnTableCamera

/-! ## SolarSystem: orbital state, Update and Render -/

set_option linter.dupNamespace false

/-- The structure `SolarSystem::PlanetData` with its default member initialisers. -/
structure PlanetData (α : Type) [Field α] where
  orbitAngle : α := 0.0
  rotationAngle : α := 0.0
  orbitRadius : α := 0.0
  size : α := 0.0
  orbitSpeed : α := 0.0
  rotationSpeed : α := 0.0
  axialTilt : α := 0.0
  orbitInclination : α := 0.0
  eccentricity : α := 0.0

/-- The data members of `class SolarSystem` that `Update` and `Render` read or write, with their
default member initialisers.  Window, shader, texture and GPU-buffer members are left out. -/
structure SolarSystem (α : Type) [Field α] where
  mTurnTableCamera : TurnTableCamera α := {}
  mPreviousCursorPosition : Vec2 α := ⟨0, 0⟩
  mCursorPositionIsSetOnce : Bool := false
  mZoomSpeed : α := 20.0
  mRotationSpeed : α := 0.25
  mIsAnimating : Bool := true
  mAnimationSpeed : α := 1.0
  mLastAnimationTime : α := 0.0
  mShowClouds : Bool := false
  mCloudRotationAngle : α := 0.0
  mCloudRotationSpeed : α := 0.1
  mSunRotationAngle : α := 0.0
  mEarthOrbitAngle : α := 0.0
  mEarthRotationAngle : α := 0.0
  mMoonOrbitAngle : α := 0.0
  mMoonRotationAngle : α := 0.0
  mEarthOrbitRadius : α := 5.0
  mMoonOrbitRadius : α := 1.5
  mEarthAxialTilt : α := 23.5
  mMoonAxialTilt : α := 6.68
  mEarthOrbitInclination : α := 5.0
  mPlanets : List (PlanetData α) := []
  mMoons : List (List (PlanetData α)) := []
  mEarthOrbitEccentricity : α := 0.0
  mMoonOrbitEccentricity : α := 0.0
  mEarthOrbitSemiMajorAxis : α := 5.0
  mMoonOrbitSemiMajorAxis : α := 1.5

namespace SolarSystem

variable {α : Type} [LinearOrderedField α] [FloatMath α]

/-- The constructor `SolarSystem::SolarSystem()`: planet data, moon data and the camera. -/
def ctor : SolarSystem α :=
  let s : SolarSystem α := {}
  { s with
    mPlanets :=
      [ ⟨0.0, 0.0, 3.0, 0.4, 0.5, 0.1, 2.0, 7.0, 0.2⟩,          -- Mercury
        ⟨0.0, 0.0, 4.0, 0.6, 0.4, 0.01, 177.4, 3.4, 0.01⟩,      -- Venus
        ⟨s.mEarthOrbitAngle, s.mEarthRotationAngle, s.mEarthOrbitRadius, 0.5, 0.2, 2.0,
          s.mEarthAxialTilt, s.mEarthOrbitInclination, s.mEarthOrbitEccentricity⟩,  -- Earth
        ⟨0.0, 0.0, 6.0, 0.4, 0.15, 1.0, 25.2, 1.9, 0.09⟩,       -- Mars
        ⟨0.0, 0.0, 8.0, 1.2, 0.05, 1.5, 3.1, 1.3, 0.05⟩,        -- Jupiter
        ⟨0.0, 0.0, 10.0, 1.0, 0.03, 1.2, 26.7, 2.5, 0.06⟩,      -- Saturn
        ⟨0.0, 0.0, 12.0, 0.8, 0.02, 0.8, 97.8, 0.8, 0.05⟩,      -- Uranus
        ⟨0.0, 0.0, 14.0, 0.7, 0.01, 0.7, 28.3, 1.8, 0.01⟩ ]     -- Neptune
    mMoons :=
      [ [], [],
        [ ⟨s.mMoonOrbitAngle, s.mMoonRotationAngle, s.mMoonOrbitRadius, 0.2, 0.5, 0.1,
            s.mMoonAxialTilt, 0.0, s.mMoonOrbitEccentricity⟩ ],  -- Earth's moon
        [],
        [ ⟨0.0, 0.0, 1.5, 0.15, 0.8, 0.05, 0.0, 0.0, 0.0⟩,      -- Io
          ⟨0.0, 0.0, 2.0, 0.2, 0.6, 0.05, 0.0, 0.0, 0.0⟩,       -- Europa
          ⟨0.0, 0.0, 2.5, 0.25, 0.4, 0.05, 0.0, 0.0, 0.0⟩,      -- Ganymede
          ⟨0.0, 0.0, 3.0, 0.2, 0.3, 0.05, 0.0, 0.0, 0.0⟩ ],     -- Callisto
        [], [], [] ]
    mTurnTableCamera :=
      (TurnTableCamera.ctor_default : TurnTableCamera α).SetTargetBody
        TurnTableCamera.TargetBody.SUN }

/-- The expression `orbitSpeed * pow(1.0f + e * cos(orbitAngle), 2) / pow(1.0f - e * e, 1.5f)`,
which `Update` evaluates for the Earth (speed `0.2f`), the Moon (speed `0.5f`), every planet and
every moon. -/
def angularVelocity (orbitSpeed eccentricity orbitAngle : α) : α :=
  orbitSpeed * FloatMath.pow (1.0 + eccentricity * FloatMath.cos orbitAngle) 2 /
    FloatMath.pow (1.0 - eccentricity * eccentricity) 1.5

/-- The body of the loops over `mPlanets` and over the moons in `Update`. -/
def advanceBody (timeDelta : α) (planet : PlanetData α) : PlanetData α :=
  let angularVelocity : α :=
    angularVelocity planet.orbitSpeed planet.eccentricity planet.orbitAngle
  let planet := { planet with orbitAngle := planet.orbitAngle + timeDelta * angularVelocity }
  { planet with rotationAngle := planet.rotationAngle + timeDelta * planet.rotationSpeed }

/-- The member `void SolarSystem::Update(float deltaTime)`.  `cursorPosition` is what
`mInputManager->CursorPosition()` returns and `leftButtonDown` what
`mInputManager->IsMouseButtonDown(GLFW_MOUSE_BUTTON_LEFT)` returns. -/
def Update (s : SolarSystem α) (deltaTime : α) (cursorPosition : Vec2 α)
    (leftButtonDown : Bool) : SolarSystem α :=
  let s :=
    if s.mCursorPositionIsSetOnce == true then
      if leftButtonDown == true then
        let deltaPosition : Vec2 α :=
          ⟨cursorPosition.x - s.mPreviousCursorPosition.x,
            cursorPosition.y - s.mPreviousCursorPosition.y⟩
        let camera := s.mTurnTableCamera.ChangeTheta
          (-deltaPosition.x * s.mRotationSpeed * deltaTime)
        let camera := camera.ChangePhi (-deltaPosition.y * s.mRotationSpeed * deltaTime)
        { s with mTurnTableCamera := camera }
      else s
    else s
  let s :=
    if s.mIsAnimating then
      -- Clouds are moving
      let s := { s with
        mCloudRotationAngle :=
          s.mCloudRotationAngle + deltaTime * s.mCloudRotationSpeed * s.mAnimationSpeed }
      let timeDelta : α := deltaTime * s.mAnimationSpeed
      -- Earth moves faster when closer to sun
      let earthAngularVelocity : α :=
        angularVelocity 0.2 s.mEarthOrbitEccentricity s.mEarthOrbitAngle
      let s := { s with mEarthOrbitAngle := s.mEarthOrbitAngle + timeDelta * earthAngularVelocity }
      let s := { s with mEarthRotationAngle := s.mEarthRotationAngle + timeDelta * 2.0 }
      -- Moon does the same thing around earth
      let moonAngularVelocity : α :=
        angularVelocity 0.5 s.mMoonOrbitEccentricity s.mMoonOrbitAngle
      let s := { s with mMoonOrbitAngle := s.mMoonOrbitAngle + timeDelta * moonAngularVelocity }
      -- Sun rotation
      { s with mSunRotationAngle := s.mSunRotationAngle + timeDelta * 0.5 }
    else s
  let s := { s with mCursorPositionIsSetOnce := true, mPreviousCursorPosition := cursorPosition }
  if s.mIsAnimating then
    let timeDelta : α := deltaTime * s.mAnimationSpeed
    -- Update all planets
    let s := { s with mPlanets := s.mPlanets.map (advanceBody timeDelta) }
    -- Update all moons
    let s := { s with
      mMoons := s.mMoons.map
        (fun (moons : List (PlanetData α)) => moons.map (advanceBody timeDelta)) }
    -- Update clouds (existing)
    { s with
      mCloudRotationAngle :=
        s.mCloudRotationAngle + deltaTime * s.mCloudRotationSpeed * s.mAnimationSpeed }
  else s

/-- The orbital transform that `Render` builds four times for the Earth (Earth model, Moon model,
EARTH target, MOON target), as a function of the four members it reads: tilt of the orbit plane
about z, rotation about y by the orbit angle, translation along x to the current distance
`a * (1 - e*e) / (1 + e * cos(orbitAngle))`. -/
def orbitTransform (orbitInclination semiMajorAxis eccentricity orbitAngle : α) : Mat4 α :=
  let orbit : Mat4 α := glm.rotate glm.mat4_one (glm.radians orbitInclination) ⟨0.0, 0.0, 1.0⟩
  let distance : α := semiMajorAxis * (1.0 - eccentricity * eccentricity) /
    (1.0 + eccentricity * FloatMath.cos orbitAngle)
  let orbit : Mat4 α := glm.rotate orbit orbitAngle ⟨0.0, 1.0, 0.0⟩
  glm.translate orbit ⟨distance, 0.0, 0.0⟩

/-- The point `glm::vec3(orbit * glm::vec4(0.0f, 0.0f, 0.0f, 1.0f))` of an orbital transform. -/
def orbitPosition (orbitInclination semiMajorAxis eccentricity orbitAngle : α) : Vec3 α :=
  glm.vec3 (glm.mulVec (orbitTransform orbitInclination semiMajorAxis eccentricity orbitAngle)
    ⟨0.0, 0.0, 0.0, 1.0⟩)

/-- The local `earthOrbitModel` / `earthOrbit` of `Render`. -/
def earthOrbitModel (s : SolarSystem α) : Mat4 α :=
  orbitTransform s.mEarthOrbitInclination s.mEarthOrbitSemiMajorAxis s.mEarthOrbitEccentricity
    s.mEarthOrbitAngle

/-- The local `earthDistance` of `Render`. -/
def earthDistance (s : SolarSystem α) : α :=
  s.mEarthOrbitSemiMajorAxis * (1.0 - s.mEarthOrbitEccentricity * s.mEarthOrbitEccentricity) /
    (1.0 + s.mEarthOrbitEccentricity * FloatMath.cos s.mEarthOrbitAngle)

/-- The local `moonDistance` of `Render`. -/
def moonDistance (s : SolarSystem α) : α :=
  s.mMoonOrbitSemiMajorAxis * (1.0 - s.mMoonOrbitEccentricity * s.mMoonOrbitEccentricity) /
    (1.0 + s.mMoonOrbitEccentricity * FloatMath.cos s.mMoonOrbitAngle)

/-- The model matrix `Render` uploads for the Sun. -/
def sunModel (s : SolarSystem α) : Mat4 α :=
  glm.rotate glm.mat4_one s.mSunRotationAngle ⟨0.0, 1.0, 0.0⟩

/-- The model matrix `earthModel = earthOrbitModel * earthRotation` that `Render` uploads for
the Earth. -/
def earthModel (s : SolarSystem α) : Mat4 α :=
  let earthRotation : Mat4 α :=
    glm.rotate glm.mat4_one (glm.radians s.mEarthAxialTilt) ⟨0.0, 0.0, 1.0⟩
  let earthRotation : Mat4 α := glm.rotate earthRotation s.mEarthRotationAngle ⟨0.0, 1.0, 0.0⟩
  glm.mul (earthOrbitModel s) earthRotation

/-- The model matrix that `Render` uploads for the Moon. -/
def moonModel (s : SolarSystem α) : Mat4 α :=
  let model : Mat4 α := earthOrbitModel s
  -- Moon's orbit around Earth
  let model : Mat4 α := glm.rotate model s.mMoonOrbitAngle ⟨0.0, 1.0, 0.0⟩
  let model : Mat4 α := glm.translate model ⟨moonDistance s, 0.0, 0.0⟩
  -- Moon's axial tilt and rotation
  let model : Mat4 α := glm.rotate model (glm.radians s.mMoonAxialTilt) ⟨0.0, 0.0, 1.0⟩
  glm.rotate model s.mMoonRotationAngle ⟨0.0, 1.0, 0.0⟩

/-- The `switch` of `Render` that computes `targetPos` for the followed body.  There is no case
for `NONE`, which the enclosing `if` excludes: `targetPos` is then left unset. -/
def targetPos (s : SolarSystem α) : TurnTableCamera.TargetBody → Option (Vec3 α)
  | TurnTableCamera.TargetBody.SUN => some ⟨0.0, 0.0, 0.0⟩
  | TurnTableCamera.TargetBody.EARTH =>
    let earthOrbit : Mat4 α := earthOrbitModel s
    some (glm.vec3 (glm.mulVec earthOrbit ⟨0.0, 0.0, 0.0, 1.0⟩))
  | TurnTableCamera.TargetBody.MOON =>
    let earthOrbit : Mat4 α := earthOrbitModel s
    let moonOrbit : Mat4 α := glm.rotate earthOrbit s.mMoonOrbitAngle ⟨0.0, 1.0, 0.0⟩
    let moonOrbit : Mat4 α := glm.translate moonOrbit ⟨moonDistance s, 0.0, 0.0⟩
    some (glm.vec3 (glm.mulVec moonOrbit ⟨0.0, 0.0, 0.0, 1.0⟩))
  | TurnTableCamera.TargetBody.NONE => none

/-- The member `void SolarSystem::Render()`, as far as it changes the object: the block that
advances the angles, `mLastAnimationTime`, the `ViewMatrix()` call and the camera-follow update.
`currentTime` is what `glfwGetTime()` returns.  The matrices it uploads are `sunModel`,
`earthModel` and `moonModel` of the object after the angle block. -/
def Render (M : Math α) (s : SolarSystem α) (currentTime : α) : SolarSystem α :=
  -- Only update animation if it's playing and we have a previous time
  let s :=
    if s.mIsAnimating && decide (s.mLastAnimationTime > 0.0) then
      let deltaTime : α := (currentTime - s.mLastAnimationTime) * s.mAnimationSpeed
      { s with
        mSunRotationAngle := s.mSunRotationAngle + deltaTime * 0.5
        mEarthOrbitAngle := s.mEarthOrbitAngle + deltaTime * 0.2
        mEarthRotationAngle := s.mEarthRotationAngle + deltaTime * 2.0
        mMoonOrbitAngle := s.mMoonOrbitAngle + deltaTime * 0.5
        mMoonRotationAngle := s.mMoonRotationAngle + deltaTime * 0.1 }
    else s
  let s := { s with mLastAnimationTime := currentTime }
  -- Get camera view matrix from turntable camera
  let s := { s with mTurnTableCamera := (s.mTurnTableCamera.ViewMatrix M).1 }
  -- Update camera target if following a sphere
  if s.mTurnTableCamera.GetTargetBody ≠ TurnTableCamera.TargetBody.NONE ∧ s.mIsAnimating then
    match targetPos s s.mTurnTableCamera.GetTargetBody with
    | some p => { s with mTurnTableCamera := s.mTurnTableCamera.UpdateTargetPosition p }
    | none => s
  else s

/-- Everything `Update` and `Render` animate: the planets, the moons, and the Sun rotation,
Earth orbit, Earth rotation, Moon orbit, Moon rotation and cloud rotation angles. -/
def angles (s : SolarSystem α) :
    List (PlanetData α) × List (List (PlanetData α)) × α × α × α × α × α × α :=
  (s.mPlanets, s.mMoons, s.mSunRotationAngle, s.mEarthOrbitAngle, s.mEarthRotationAngle,
    s.mMoonOrbitAngle, s.mMoonRotationAngle, s.mCloudRotationAngle)

/-- One call of `Update` or `Render`, with what it reads from its collaborators. -/
inductive Frame (α : Type) where
  | Update (deltaTime : α) (cursorPosition : Vec2 α) (leftButtonDown : Bool)
  | Render (currentTime : α)

/-- The object after one call. -/
def frame (M : Math α) (s : SolarSystem α) : Frame α → SolarSystem α
  | Frame.Update deltaTime cursorPosition leftButtonDown =>
    s.Update deltaTime cursorPosition leftButtonDown
  | Frame.Render currentTime => s.Render M currentTime

/-- The object after a sequence of calls, first call first. -/
def frames (M : Math α) (s : SolarSystem α) (fs : List (Frame α)) : SolarSystem α :=
  fs.foldl (frame M) s

end SolarSystem

/-! ## Rounded `float` arithmetic

The development above takes `float` as a field. Where the rounding of a single `float` addition
decides a claim, the addition is modelled on the values themselves: a finite `float` is the
rational number it stands for, and `a + b` is the exact sum rounded to the nearest number with a
24-bit significand, ties to the even significand (IEEE-754 binary32, round to nearest even). The
exponent range is not modelled: no overflow and no subnormal numbers. -/

/-- A finite value of the C++ type `float`, as the rational number it stands for. -/
structure Binary32 where
  val : ℚ
deriving DecidableEq

/-- Rounding of an exact result to `float`: with `2^e <= |x| < 2^(e+1)`, the nearest multiple of
`2^(e-23)`, the even multiple when two are equally near. -/
def Binary32.round (x : ℚ) : ℚ :=
  let e : ℤ := Int.log 2 |x|
  let ulp : ℚ := 2 ^ (e - 23)
  let q : ℚ := x / ulp
  let f : ℤ := ⌊q⌋
  let n : ℤ :=
    if q - f < 1 / 2 then f
    else if 1 / 2 < q - f then f + 1
    else if f % 2 = 0 then f
    else f + 1
  n * ulp

/-- The operator `+` on `float`. -/
instance instAddBinary32 : Add Binary32 :=
  ⟨fun a b => ⟨Binary32.round (a.val + b.val)⟩⟩

/-! ## Exact real arithmetic -/

theorem cos_real (x : ℝ) : FloatMath.cos x = Real.cos x := rfl

theorem sin_real (x : ℝ) : FloatMath.sin x = Real.sin x := rfl

theorem sqrt_real (x : ℝ) : FloatMath.sqrt x = Real.sqrt x := rfl

theorem pi_real : (FloatMath.pi : ℝ) = Real.pi := rfl

theorem pow_real (x y : ℝ) : FloatMath.pow x y = x ^ y := rfl

/-! ## Loop lemmas -/

section LoopLemmas

variable {σ β : Type}

theorem foldl_range_proj (proj : σ → List β) (body : Int → σ → σ) (P : Int → List β)
    (h : ∀ k s, proj (body k s) = proj s ++ P k) (n : Nat) (s : σ) :
    proj ((List.range n).foldl (fun acc k => body (Int.ofNat k) acc) s)
      = proj s ++ (List.range n).flatMap (fun k => P (Int.ofNat k)) := by
  induction n with
  | zero => simp
  | succ n ih =>
    rw [List.range_succ, List.foldl_append, List.flatMap_append]
    simp only [List.foldl_cons, List.foldl_nil, List.flatMap_cons, List.flatMap_nil,
      List.append_nil]
    rw [h, ih, List.append_assoc]

theorem forLt_proj (proj : σ → List β) (body : Int → σ → σ) (P : Int → List β)
    (h : ∀ k s, proj (body k s) = proj s ++ P k) (n : Int) (s : σ) :
    proj (forLt n body s)
      = proj s ++ (List.range n.toNat).flatMap (fun k => P (Int.ofNat k)) :=
  foldl_range_proj proj body P h n.toNat s

theorem forLe_proj (proj : σ → List β) (body : Int → σ → σ) (P : Int → List β)
    (h : ∀ k s, proj (body k s) = proj s ++ P k) (n : Int) (s : σ) :
    proj (forLe n body s)
      = proj s ++ (List.range (n + 1).toNat).flatMap (fun k => P (Int.ofNat k)) :=
  foldl_range_proj proj body P h (n + 1).toNat s

theorem foldl_range_keep {γ : Type} (proj : σ → γ) (body : Int → σ → σ)
    (h : ∀ k s, proj (body k s) = proj s) (n : Nat) (s : σ) :
    proj ((List.range n).foldl (fun acc k => body (Int.ofNat k) acc) s) = proj s := by
  induction n with
  | zero => simp
  | succ n ih =>
    rw [List.range_succ, List.foldl_append]
    simp only [List.foldl_cons, List.foldl_nil]
    rw [h, ih]

theorem forLt_keep {γ : Type} (proj : σ → γ) (body : Int → σ → σ)
    (h : ∀ k s, proj (body k s) = proj s) (n : Int) (s : σ) :
    proj (forLt n body s) = proj s :=
  foldl_range_keep proj body h n.toNat s

theorem forLe_keep {γ : Type} (proj : σ → γ) (body : Int → σ → σ)
    (h : ∀ k s, proj (body k s) = proj s) (n : Int) (s : σ) :
    proj (forLe n body s) = proj s :=
  foldl_range_keep proj body h (n + 1).toNat s

theorem length_flatMap_range (f : Nat → List β) (c : Nat) (hc : ∀ k, (f k).length = c)
    (n : Nat) : ((List.range n).flatMap f).length = n * c := by
  induction n with
  | zero => simp
  | succ n ih =>
    rw [List.range_succ, List.flatMap_append, List.length_append, ih]
    simp only [List.flatMap_cons, List.flatMap_nil, List.append_nil, hc]
    ring

theorem getElem?_flatMap_range (f : Nat → List β) (c : Nat) (hc : ∀ k, (f k).length = c)
    (n k t : Nat) (hk : k < n) (ht : t < c) :
    ((List.range n).flatMap f)[k * c + t]? = (f k)[t]? := by
  induction n with
  | zero => omega
  | succ n ih =>
    rw [List.range_succ, List.flatMap_append]
    simp only [List.flatMap_cons, List.flatMap_nil, List.append_nil]
    have hlen := length_flatMap_range f c hc n
    by_cases hkn : k < n
    · have hlt : k * c + t < ((List.range n).flatMap f).length := by
        rw [hlen]
        calc k * c + t < k * c + c := by omega
          _ = (k + 1) * c := by ring
          _ ≤ n * c := Nat.mul_le_mul_right c hkn
      rw [List.getElem?_append_left hlt]
      exact ih hkn
    · have hkeq : k = n := by omega
      subst hkeq
      have hge : ((List.range k).flatMap f).length ≤ k * c + t := by
        rw [hlen]; omega
      rw [List.getElem?_append_right hge, hlen]
      congr 1
      omega

end LoopLemmas

/-! ## The lists built by Sphere -/

namespace ShapeGenerator

section SphereLists

variable {α : Type} [Field α] [FloatMath α]

theorem Sphere_positions (radius : α) (slices nstacks : Int) :
    (Sphere radius slices nstacks).positions
      = grid (nstacks + 1) (slices + 1) (fun i j => [spherePosition radius slices nstacks i j]) := by
  unfold Sphere
  simp only []
  refine (forLt_keep CPU_Geometry.positions _ ?_ _ _).trans ?_
  · intro i s
    refine forLt_keep CPU_Geometry.positions _ ?_ _ _
    intro j s
    rfl
  refine (forLe_proj CPU_Geometry.positions _
    (fun i => (List.range (slices + 1).toNat).flatMap
      (fun j => [spherePosition radius slices nstacks i (Int.ofNat j)])) ?_ _ _).trans ?_
  · intro i s
    refine forLe_proj CPU_Geometry.positions _
      (fun j => [spherePosition radius slices nstacks i j]) ?_ _ _
    intro j s
    rfl
  rfl

theorem Sphere_normals (radius : α) (slices nstacks : Int) :
    (Sphere radius slices nstacks).normals
      = grid (nstacks + 1) (slices + 1) (fun i j => [sphereNormal slices nstacks i j]) := by
  unfold Sphere
  simp only []
  refine (forLt_keep CPU_Geometry.normals _ ?_ _ _).trans ?_
  · intro i s
    refine forLt_keep CPU_Geometry.normals _ ?_ _ _
    intro j s
    rfl
  refine (forLe_proj CPU_Geometry.normals _
    (fun i => (List.range (slices + 1).toNat).flatMap
      (fun j => [sphereNormal slices nstacks i (Int.ofNat j)])) ?_ _ _).trans ?_
  · intro i s
    refine forLe_proj CPU_Geometry.normals _
      (fun j => [sphereNormal slices nstacks i j]) ?_ _ _
    intro j s
    rfl
  rfl

theorem Sphere_uvs (radius : α) (slices nstacks : Int) :
    (Sphere radius slices nstacks).uvs
      = grid (nstacks + 1) (slices + 1) (fun i j => [sphereUV slices nstacks i j]) := by
  unfold Sphere
  simp only []
  refine (forLt_keep CPU_Geometry.uvs _ ?_ _ _).trans ?_
  · intro i s
    refine forLt_keep CPU_Geometry.uvs _ ?_ _ _
    intro j s
    rfl
  refine (forLe_proj CPU_Geometry.uvs _
    (fun i => (List.range (slices + 1).toNat).flatMap
      (fun j => [sphereUV slices nstacks i (Int.ofNat j)])) ?_ _ _).trans ?_
  · intro i s
    refine forLe_proj CPU_Geometry.uvs _
      (fun j => [sphereUV slices nstacks i j]) ?_ _ _
    intro j s
    rfl
  rfl

theorem Sphere_colors (radius : α) (slices nstacks : Int) :
    (Sphere radius slices nstacks).colors
      = grid (nstacks + 1) (slices + 1) (fun i j => [sphereColor slices nstacks i j]) := by
  unfold Sphere
  simp only []
  refine (forLt_keep CPU_Geometry.colors _ ?_ _ _).trans ?_
  · intro i s
    refine forLt_keep CPU_Geometry.colors _ ?_ _ _
    intro j s
    rfl
  refine (forLe_proj CPU_Geometry.colors _
    (fun i => (List.range (slices + 1).toNat).flatMap
      (fun j => [sphereColor slices nstacks i (Int.ofNat j)])) ?_ _ _).trans ?_
  · intro i s
    refine forLe_proj CPU_Geometry.colors _
      (fun j => [sphereColor slices nstacks i j]) ?_ _ _
    intro j s
    rfl
  rfl

theorem Sphere_indices (radius : α) (slices nstacks : Int) :
    (Sphere radius slices nstacks).indices
      = grid nstacks slices (fun i j => sphereQuad slices i j) := by
  unfold Sphere
  simp only []
  refine (forLt_proj CPU_Geometry.indices _
    (fun i => (List.range slices.toNat).flatMap
      (fun j => sphereQuad slices i (Int.ofNat j))) ?_ _ _).trans ?_
  · intro i s
    refine forLt_proj CPU_Geometry.indices _ (fun j => sphereQuad slices i j) ?_ _ _
    intro j s
    rfl
  have hnil : (forLe nstacks (fun i geom =>
      forLe slices (fun j geom =>
        ({ geom with
          positions := geom.positions ++ [spherePosition radius slices nstacks i j]
          normals := geom.normals ++ [sphereNormal slices nstacks i j]
          uvs := geom.uvs ++ [sphereUV slices nstacks i j]
          colors := geom.colors ++ [sphereColor slices nstacks i j] } : CPU_Geometry α)) geom)
      ({} : CPU_Geometry α)).indices = [] := by
    refine (forLe_keep CPU_Geometry.indices _ ?_ _ _).trans rfl
    intro i s
    refine forLe_keep CPU_Geometry.indices _ ?_ _ _
    intro j s
    rfl
  exact (congrArg (fun l => l ++ _) hnil).trans (List.nil_append _)

/-! ### Sizes and entries of a grid -/

theorem grid_length {β : Type} (n m : Int) (f : Int → Int → List β) (c : Nat)
    (hc : ∀ i j, (f i j).length = c) : (grid n m f).length = n.toNat * (m.toNat * c) := by
  unfold grid
  exact length_flatMap_range _ _
    (fun i => length_flatMap_range _ c (fun j => hc _ _) m.toNat) n.toNat

theorem grid_getElem? {β : Type} (n m : Int) (f : Int → Int → List β) (c : Nat)
    (hc : ∀ i j, (f i j).length = c) (i j t : Nat) (hi : i < n.toNat) (hj : j < m.toNat)
    (ht : t < c) :
    (grid n m f)[i * (m.toNat * c) + (j * c + t)]? = (f (Int.ofNat i) (Int.ofNat j))[t]? := by
  unfold grid
  have hlt : j * c + t < m.toNat * c := by
    calc j * c + t < j * c + c := by omega
      _ = (j + 1) * c := by ring
      _ ≤ m.toNat * c := Nat.mul_le_mul_right c hj
  rw [getElem?_flatMap_range _ (m.toNat * c)
    (fun i => length_flatMap_range _ c (fun j => hc _ _) m.toNat) n.toNat i _ hi hlt]
  exact getElem?_flatMap_range _ c (fun j => hc _ _) m.toNat j t hj ht

theorem mem_grid {β : Type} (n m : Int) (f : Int → Int → List β) (x : β)
    (hx : x ∈ grid n m f) : ∃ i j : Int, 0 ≤ i ∧ i < n ∧ 0 ≤ j ∧ j < m ∧ x ∈ f i j := by
  unfold grid at hx
  rw [List.mem_flatMap] at hx
  obtain ⟨i, hi, hx⟩ := hx
  rw [List.mem_flatMap] at hx
  obtain ⟨j, hj, hx⟩ := hx
  rw [List.mem_range] at hi hj
  refine ⟨Int.ofNat i, Int.ofNat j, Int.ofNat_nonneg i, ?_, Int.ofNat_nonneg j, ?_, hx⟩
  · have := Int.lt_toNat.mp hi
    simpa using this
  · have := Int.lt_toNat.mp hj
    simpa using this

theorem Sphere_positions_length (radius : α) (slices nstacks : Int) :
    (Sphere radius slices nstacks).positions.length = (nstacks + 1).toNat * (slices + 1).toNat := by
  rw [Sphere_positions, grid_length _ _ _ 1, Nat.mul_one]
  intro i j
  rfl

theorem Sphere_normals_length (radius : α) (slices nstacks : Int) :
    (Sphere radius slices nstacks).normals.length = (nstacks + 1).toNat * (slices + 1).toNat := by
  rw [Sphere_normals, grid_length _ _ _ 1, Nat.mul_one]
  intro i j
  rfl

theorem Sphere_uvs_length (radius : α) (slices nstacks : Int) :
    (Sphere radius slices nstacks).uvs.length = (nstacks + 1).toNat * (slices + 1).toNat := by
  rw [Sphere_uvs, grid_length _ _ _ 1, Nat.mul_one]
  intro i j
  rfl

theorem Sphere_colors_length (radius : α) (slices nstacks : Int) :
    (Sphere radius slices nstacks).colors.length = (nstacks + 1).toNat * (slices + 1).toNat := by
  rw [Sphere_colors, grid_length _ _ _ 1, Nat.mul_one]
  intro i j
  rfl

theorem Sphere_indices_length (radius : α) (slices nstacks : Int) :
    (Sphere radius slices nstacks).indices.length = nstacks.toNat * slices.toNat * 6 := by
  rw [Sphere_indices, grid_length _ _ _ 6, Nat.mul_assoc]
  intro i j
  rfl

theorem grid_cell {β : Type} (n m : Int) (f : Int → Int → β) (i j : Int)
    (hi0 : 0 ≤ i) (hi : i < n) (hj0 : 0 ≤ j) (hj : j < m) :
    (grid n m (fun i j => [f i j]))[(i * m + j).toNat]? = some (f i j) := by
  obtain ⟨a, rfl⟩ := Int.eq_ofNat_of_zero_le hi0
  obtain ⟨b, rfl⟩ := Int.eq_ofNat_of_zero_le hj0
  obtain ⟨c, rfl⟩ := Int.eq_ofNat_of_zero_le (le_trans hj0 (le_of_lt hj))
  have hidx : ((a : Int) * (c : Int) + (b : Int)).toNat
      = a * ((c : Int).toNat * 1) + (b * 1 + 0) := by
    rw [← Nat.cast_mul, ← Nat.cast_add, Int.toNat_natCast, Int.toNat_natCast]
    ring
  rw [hidx, grid_getElem? n (c : Int) (fun i j => [f i j]) 1 (fun _ _ => rfl) a b 0
    (by omega) (by omega) (by omega)]
  rfl

theorem grid_index (n m : Int) (k : Nat) (hk : k < n.toNat * m.toNat) :
    ∃ i j : Int, ∀ (β : Type) (f : Int → Int → β),
      (grid n m (fun i j => [f i j]))[k]? = some (f i j) := by
  have hm : 0 < m.toNat := by
    rcases Nat.eq_zero_or_pos m.toNat with h | h
    · rw [h] at hk
      omega
    · exact h
  refine ⟨Int.ofNat (k / m.toNat), Int.ofNat (k % m.toNat), ?_⟩
  intro β f
  have hrow : k / m.toNat < n.toNat := by
    rw [Nat.div_lt_iff_lt_mul hm]
    exact hk
  have hidx : k = k / m.toNat * (m.toNat * 1) + (k % m.toNat * 1 + 0) := by
    rw [Nat.mul_one, Nat.mul_one, Nat.add_zero, Nat.mul_comm]
    exact (Nat.div_add_mod k m.toNat).symm
  conv_lhs => rw [hidx]
  rw [grid_getElem? n m (fun i j => [f i j]) 1 (fun _ _ => rfl) _ _ 0 hrow
    (Nat.mod_lt k hm) (by omega)]
  rfl

end SphereLists

end ShapeGenerator

/-! ## Claims about ShapeGenerator::Sphere -/

namespace ShapeGenerator

theorem toNat_mul_toNat_cast (a b : Int) (ha : 0 ≤ a) (hb : 0 ≤ b) :
    ((a.toNat * b.toNat : Nat) : Int) = a * b := by
  rw [Nat.cast_mul, Int.toNat_of_nonneg ha, Int.toNat_of_nonneg hb]

/-- C1: for every radius and all integers slices >= 3 and stacks >= 2, the mesh returned by
`Sphere(radius, slices, stacks)` has exactly `(stacks+1)*(slices+1)` positions, normals, uvs and
colors, and exactly `stacks*slices*6` indices. -/
theorem Sphere_sizes {α : Type} [Field α] [FloatMath α] (radius : α) (slices nstacks : Int)
    (hs : 3 ≤ slices) (ht : 2 ≤ nstacks) :
    ((Sphere radius slices nstacks).positions.length : Int) = (nstacks + 1) * (slices + 1) ∧
    ((Sphere radius slices nstacks).normals.length : Int) = (nstacks + 1) * (slices + 1) ∧
    ((Sphere radius slices nstacks).uvs.length : Int) = (nstacks + 1) * (slices + 1) ∧
    ((Sphere radius slices nstacks).colors.length : Int) = (nstacks + 1) * (slices + 1) ∧
    ((Sphere radius slices nstacks).indices.length : Int) = nstacks * slices * 6 := by
  have hv := toNat_mul_toNat_cast (nstacks + 1) (slices + 1) (by omega) (by omega)
  have hq := toNat_mul_toNat_cast nstacks slices (by omega) (by omega)
  rw [Sphere_positions_length, Sphere_normals_length, Sphere_uvs_length, Sphere_colors_length,
    Sphere_indices_length, hv, Nat.cast_mul, hq]
  exact ⟨rfl, rfl, rfl, rfl, rfl⟩

/-- C1 at `Sphere(1, 3, 2)`: 12 vertices and 36 indices. -/
theorem Sphere_sizes_witness :
    ((Sphere (1 : ℝ) 3 2).positions.length : Int) = (2 + 1) * (3 + 1) ∧
    ((Sphere (1 : ℝ) 3 2).normals.length : Int) = (2 + 1) * (3 + 1) ∧
    ((Sphere (1 : ℝ) 3 2).uvs.length : Int) = (2 + 1) * (3 + 1) ∧
    ((Sphere (1 : ℝ) 3 2).colors.length : Int) = (2 + 1) * (3 + 1) ∧
    ((Sphere (1 : ℝ) 3 2).indices.length : Int) = 2 * 3 * 6 :=
  Sphere_sizes (1 : ℝ) 3 2 (by decide) (by decide)

/-- C2: for all integers slices >= 1 and stacks >= 1, every entry of the indices list returned by
`Sphere(radius, slices, stacks)` is non-negative and strictly less than the number of positions,
which is `(stacks+1)*(slices+1)`. -/
theorem Sphere_indices_in_bounds {α : Type} [Field α] [FloatMath α] (radius : α)
    (slices nstacks : Int) (hs : 1 ≤ slices) (ht : 1 ≤ nstacks) :
    (∀ x ∈ (Sphere radius slices nstacks).indices,
      0 ≤ x ∧ x < ((Sphere radius slices nstacks).positions.length : Int)) ∧
    ((Sphere radius slices nstacks).positions.length : Int) = (nstacks + 1) * (slices + 1) := by
  have hlen : ((Sphere radius slices nstacks).positions.length : Int)
      = (nstacks + 1) * (slices + 1) := by
    rw [Sphere_positions_length]
    exact toNat_mul_toNat_cast (nstacks + 1) (slices + 1) (by omega) (by omega)
  refine ⟨?_, hlen⟩
  intro x hx
  rw [hlen]
  rw [Sphere_indices] at hx
  obtain ⟨i, j, hi0, hi, hj0, hj, hmem⟩ := mem_grid _ _ _ x hx
  have hrow : 0 ≤ i * (slices + 1) := mul_nonneg hi0 (by omega)
  have hmul : (i + 2) * (slices + 1) ≤ (nstacks + 1) * (slices + 1) :=
    mul_le_mul_of_nonneg_right (by omega) (by omega)
  have hexp : (i + 2) * (slices + 1) = i * (slices + 1) + 2 * slices + 2 := by ring
  simp only [sphereQuad, List.mem_cons, List.mem_singleton, List.mem_nil_iff, or_false] at hmem
  rcases hmem with h | h | h | h | h | h <;> subst h <;> constructor <;> omega

/-- C2 at `Sphere(1, 3, 2)`: every index lies in `[0, 12)`. -/
theorem Sphere_indices_in_bounds_witness :
    (∀ x ∈ (Sphere (1 : ℝ) 3 2).indices,
      0 ≤ x ∧ x < ((Sphere (1 : ℝ) 3 2).positions.length : Int)) ∧
    ((Sphere (1 : ℝ) 3 2).positions.length : Int) = (2 + 1) * (3 + 1) :=
  Sphere_indices_in_bounds (1 : ℝ) 3 2 (by decide) (by decide)

/-- C4: for slices >= 1, stacks >= 1, `0 <= i <= stacks` and `0 <= j <= slices`, the vertex stored
at list index `i*(slices+1)+j` has, with `v = i/stacks`, `u = j/slices`, `phi = v*pi`,
`theta = u*2*pi`: position `radius*(cos theta*sin phi, cos phi, sin theta*sin phi)`, normal
`(cos theta*sin phi, cos phi, sin theta*sin phi)`, uv `(u, 1-v)` and color `(u, v, 0.5)`.
Stated for every commutative field of scalars, in particular for exact real arithmetic. -/
theorem Sphere_vertex_at {α : Type} [Field α] [FloatMath α] (radius : α) (slices nstacks : Int)
    (_hs : 1 ≤ slices) (_ht : 1 ≤ nstacks) (i j : Int)
    (hi0 : 0 ≤ i) (hi : i ≤ nstacks) (hj0 : 0 ≤ j) (hj : j ≤ slices) :
    let v : α := (i : α) / (nstacks : α)
    let u : α := (j : α) / (slices : α)
    let phi : α := v * FloatMath.pi
    let theta : α := u * 2 * FloatMath.pi
    let k : Nat := (i * (slices + 1) + j).toNat
    (Sphere radius slices nstacks).positions[k]?
      = some ⟨radius * (FloatMath.cos theta * FloatMath.sin phi), radius * FloatMath.cos phi,
          radius * (FloatMath.sin theta * FloatMath.sin phi)⟩ ∧
    (Sphere radius slices nstacks).normals[k]?
      = some ⟨FloatMath.cos theta * FloatMath.sin phi, FloatMath.cos phi,
          FloatMath.sin theta * FloatMath.sin phi⟩ ∧
    (Sphere radius slices nstacks).uvs[k]? = some ⟨u, 1 - v⟩ ∧
    (Sphere radius slices nstacks).colors[k]? = some ⟨u, v, 0.5⟩ := by
  intro v u phi theta k
  have htheta : (j : α) / (slices : α) * (FloatMath.pi * 2) = theta := by
    simp only [theta, u]
    ring
  rw [Sphere_positions, Sphere_normals, Sphere_uvs, Sphere_colors]
  refine ⟨?_, ?_, ?_, ?_⟩
  · rw [grid_cell _ _ _ i j hi0 (by omega) hj0 (by omega)]
    simp only [spherePosition, sphereNormal, htheta]
    simp only [mul_comm radius, phi, v]
  · rw [grid_cell _ _ _ i j hi0 (by omega) hj0 (by omega)]
    simp only [sphereNormal, htheta]
  · rw [grid_cell _ _ _ i j hi0 (by omega) hj0 (by omega)]
    rfl
  · rw [grid_cell _ _ _ i j hi0 (by omega) hj0 (by omega)]
    rfl

/-- C4 at `Sphere(2, 4, 2)`, `i = 1`, `j = 2` (list index 7): `phi = pi/2`, `theta = pi`, so the
position is `(-2, 0, 0)`, the normal `(-1, 0, 0)`, the uv `(1/2, 1/2)` and the color
`(1/2, 1/2, 0.5)`. -/
theorem Sphere_vertex_at_witness :
    (Sphere (2 : ℝ) 4 2).positions[7]? = some ⟨-2, 0, 0⟩ ∧
    (Sphere (2 : ℝ) 4 2).normals[7]? = some ⟨-1, 0, 0⟩ ∧
    (Sphere (2 : ℝ) 4 2).uvs[7]? = some ⟨1 / 2, 1 / 2⟩ ∧
    (Sphere (2 : ℝ) 4 2).colors[7]? = some ⟨1 / 2, 1 / 2, 0.5⟩ := by
  have h := Sphere_vertex_at (2 : ℝ) 4 2 (by decide) (by decide) 1 2
    (by decide) (by decide) (by decide) (by decide)
  have hk : ((1 : Int) * (4 + 1) + 2).toNat = 7 := by decide
  have hphi : ((1 : Int) : ℝ) / ((2 : Int) : ℝ) * Real.pi = Real.pi / 2 := by
    push_cast
    ring
  have htheta : ((2 : Int) : ℝ) / ((4 : Int) : ℝ) * 2 * Real.pi = Real.pi := by
    push_cast
    ring
  simp only [hk, cos_real, sin_real, pi_real, hphi, htheta, Real.cos_pi, Real.sin_pi,
    Real.cos_pi_div_two, Real.sin_pi_div_two] at h
  norm_num at h
  norm_num
  exact h

theorem sphereNormal_dot (slices nstacks i j : Int) :
    (sphereNormal slices nstacks i j : Vec3 ℝ).x * (sphereNormal slices nstacks i j : Vec3 ℝ).x
      + (sphereNormal slices nstacks i j : Vec3 ℝ).y * (sphereNormal slices nstacks i j : Vec3 ℝ).y
      + (sphereNormal slices nstacks i j : Vec3 ℝ).z * (sphereNormal slices nstacks i j : Vec3 ℝ).z
      = 1 := by
  simp only [sphereNormal, cos_real, sin_real, pi_real]
  have h1 := Real.cos_sq_add_sin_sq ((j : ℝ) / (slices : ℝ) * (Real.pi * 2))
  have h2 := Real.sin_sq_add_cos_sq ((i : ℝ) / (nstacks : ℝ) * Real.pi)
  linear_combination (Real.sin ((i : ℝ) / (nstacks : ℝ) * Real.pi)) ^ 2 * h1 + h2

theorem sphereNormal_length (slices nstacks i j : Int) :
    glm.length (sphereNormal slices nstacks i j : Vec3 ℝ) = 1 := by
  rw [glm.length, sphereNormal_dot, sqrt_real, Real.sqrt_one]

theorem spherePosition_length (radius : ℝ) (hr : 0 < radius) (slices nstacks i j : Int) :
    glm.length (spherePosition radius slices nstacks i j) = radius := by
  have hdot := sphereNormal_dot slices nstacks i j
  rw [glm.length, sqrt_real]
  simp only [spherePosition]
  rw [show ∀ a b c r : ℝ, a * r * (a * r) + b * r * (b * r) + c * r * (c * r)
      = r ^ 2 * (a * a + b * b + c * c) from fun a b c r => by ring, hdot, mul_one]
  exact Real.sqrt_sq (le_of_lt hr)

/-- C3: in exact real arithmetic, for every radius > 0, slices >= 3 and stacks >= 2, every vertex
of `Sphere(radius, slices, stacks)` (entry `k` of the positions list with entry `k` of the normals
list) has a normal of Euclidean length exactly 1 and a position of Euclidean length exactly
radius, the position being radius times the normal. -/
theorem Sphere_normal_unit_position_radius (radius : ℝ) (slices nstacks : Int)
    (hr : 0 < radius) (_hs : 3 ≤ slices) (_ht : 2 ≤ nstacks) (k : Nat) (p n : Vec3 ℝ)
    (hp : (Sphere radius slices nstacks).positions[k]? = some p)
    (hn : (Sphere radius slices nstacks).normals[k]? = some n) :
    glm.length n = 1 ∧ glm.length p = radius ∧
      p = ⟨radius * n.x, radius * n.y, radius * n.z⟩ := by
  have hk : k < (nstacks + 1).toNat * (slices + 1).toNat := by
    rw [← Sphere_positions_length radius slices nstacks]
    by_contra hge
    rw [List.getElem?_eq_none (Nat.le_of_not_lt hge)] at hp
    exact Option.noConfusion hp
  obtain ⟨i, j, hcell⟩ := grid_index (nstacks + 1) (slices + 1) k hk
  rw [Sphere_positions, hcell] at hp
  rw [Sphere_normals, hcell] at hn
  have hp2 : spherePosition radius slices nstacks i j = p := Option.some.inj hp
  have hn2 : sphereNormal slices nstacks i j = n := Option.some.inj hn
  subst hp2
  subst hn2
  refine ⟨sphereNormal_length slices nstacks i j,
    spherePosition_length radius hr slices nstacks i j, ?_⟩
  simp only [spherePosition, mul_comm radius]

/-- C3 at vertex 0 (the north pole) of `Sphere(2, 4, 2)`: normal `(0, 1, 0)` of length 1 and
position `(0, 2, 0)` of length 2. -/
theorem Sphere_normal_unit_position_radius_witness :
    (Sphere (2 : ℝ) 4 2).positions[0]? = some ⟨0, 2, 0⟩ ∧
    (Sphere (2 : ℝ) 4 2).normals[0]? = some ⟨0, 1, 0⟩ ∧
    (glm.length (⟨0, 1, 0⟩ : Vec3 ℝ) = 1 ∧ glm.length (⟨0, 2, 0⟩ : Vec3 ℝ) = 2 ∧
      (⟨0, 2, 0⟩ : Vec3 ℝ) = ⟨2 * 0, 2 * 1, 2 * 0⟩) := by
  have hcell := grid_cell (2 + 1) (4 + 1) (fun i j => spherePosition (2 : ℝ) 4 2 i j) 0 0
    (by decide) (by decide) (by decide) (by decide)
  have hcelln := grid_cell (2 + 1) (4 + 1) (fun i j => (sphereNormal 4 2 i j : Vec3 ℝ)) 0 0
    (by decide) (by decide) (by decide) (by decide)
  have hk : ((0 : Int) * (4 + 1) + 0).toNat = 0 := by decide
  rw [hk] at hcell hcelln
  have hp : (Sphere (2 : ℝ) 4 2).positions[0]? = some ⟨0, 2, 0⟩ := by
    rw [Sphere_positions, hcell]
    simp [spherePosition, sphereNormal, cos_real, sin_real]
  have hn : (Sphere (2 : ℝ) 4 2).normals[0]? = some ⟨0, 1, 0⟩ := by
    rw [Sphere_normals, hcelln]
    simp [sphereNormal, cos_real, sin_real]
  exact ⟨hp, hn, Sphere_normal_unit_position_radius 2 4 2 (by norm_num) (by decide)
    (by decide) 0 _ _ hp hn⟩

/-! ## The lists built by Ring -/

section RingLists

variable {α : Type} [Field α] [FloatMath α]

theorem Ring_positions (innerRadius outerRadius : α) (segments : Int) :
    (Ring innerRadius outerRadius segments).positions
      = (List.range (segments + 1).toNat).flatMap (fun i =>
          [ringPosition outerRadius segments (Int.ofNat i),
            ringPosition innerRadius segments (Int.ofNat i)]) := by
  unfold Ring
  simp only []
  refine (forLt_keep CPU_Geometry.positions _ ?_ _ _).trans ?_
  · intro i s
    rfl
  refine (forLe_proj CPU_Geometry.positions _
    (fun i => [ringPosition outerRadius segments i, ringPosition innerRadius segments i])
    ?_ _ _).trans ?_
  · intro i s
    rfl
  rfl

theorem Ring_normals (innerRadius outerRadius : α) (segments : Int) :
    (Ring innerRadius outerRadius segments).normals
      = (List.range (segments + 1).toNat).flatMap (fun _ =>
          [(⟨0.0, 1.0, 0.0⟩ : Vec3 α), ⟨0.0, 1.0, 0.0⟩]) := by
  unfold Ring
  simp only []
  refine (forLt_keep CPU_Geometry.normals _ ?_ _ _).trans ?_
  · intro i s
    rfl
  refine (forLe_proj CPU_Geometry.normals _
    (fun _ => [(⟨0.0, 1.0, 0.0⟩ : Vec3 α), ⟨0.0, 1.0, 0.0⟩]) ?_ _ _).trans ?_
  · intro i s
    rfl
  rfl

theorem Ring_uvs (innerRadius outerRadius : α) (segments : Int) :
    (Ring innerRadius outerRadius segments).uvs
      = (List.range (segments + 1).toNat).flatMap (fun i =>
          [(⟨1.0, ringAngle segments (Int.ofNat i) / (2.0 * FloatMath.pi)⟩ : Vec2 α),
            ⟨0.0, ringAngle segments (Int.ofNat i) / (2.0 * FloatMath.pi)⟩]) := by
  unfold Ring
  simp only []
  refine (forLt_keep CPU_Geometry.uvs _ ?_ _ _).trans ?_
  · intro i s
    rfl
  refine (forLe_proj CPU_Geometry.uvs _
    (fun i => [(⟨1.0, ringAngle segments i / (2.0 * FloatMath.pi)⟩ : Vec2 α),
      ⟨0.0, ringAngle segments i / (2.0 * FloatMath.pi)⟩]) ?_ _ _).trans ?_
  · intro i s
    rfl
  rfl

theorem Ring_colors (innerRadius outerRadius : α) (segments : Int) :
    (Ring innerRadius outerRadius segments).colors
      = (List.range (segments + 1).toNat).flatMap (fun _ =>
          [(⟨1.0, 1.0, 1.0⟩ : Vec3 α), ⟨1.0, 1.0, 1.0⟩]) := by
  unfold Ring
  simp only []
  refine (forLt_keep CPU_Geometry.colors _ ?_ _ _).trans ?_
  · intro i s
    rfl
  refine (forLe_proj CPU_Geometry.colors _
    (fun _ => [(⟨1.0, 1.0, 1.0⟩ : Vec3 α), ⟨1.0, 1.0, 1.0⟩]) ?_ _ _).trans ?_
  · intro i s
    rfl
  rfl

theorem Ring_indices (innerRadius outerRadius : α) (segments : Int) :
    (Ring innerRadius outerRadius segments).indices
      = (List.range segments.toNat).flatMap (fun i => ringQuad (Int.ofNat i)) := by
  unfold Ring
  simp only []
  refine (forLt_proj CPU_Geometry.indices _ (fun i => ringQuad i) ?_ _ _).trans ?_
  · intro i s
    rfl
  have hnil : (forLe segments (fun i geom =>
      ({ geom with
        positions := geom.positions ++
          [ringPosition outerRadius segments i, ringPosition innerRadius segments i]
        normals := geom.normals ++ [⟨0.0, 1.0, 0.0⟩, ⟨0.0, 1.0, 0.0⟩]
        uvs := geom.uvs ++
          [⟨1.0, ringAngle segments i / (2.0 * FloatMath.pi)⟩,
            ⟨0.0, ringAngle segments i / (2.0 * FloatMath.pi)⟩]
        colors := geom.colors ++ [⟨1.0, 1.0, 1.0⟩, ⟨1.0, 1.0, 1.0⟩] } : CPU_Geometry α))
      ({} : CPU_Geometry α)).indices = [] := by
    refine (forLe_keep CPU_Geometry.indices _ ?_ _ _).trans rfl
    intro i s
    rfl
  exact (congrArg (fun l => l ++ _) hnil).trans (List.nil_append _)

theorem Ring_positions_length (innerRadius outerRadius : α) (segments : Int) :
    (Ring innerRadius outerRadius segments).positions.length = (segments + 1).toNat * 2 := by
  rw [Ring_positions, length_flatMap_range _ 2]
  intro k
  rfl

theorem Ring_normals_length (innerRadius outerRadius : α) (segments : Int) :
    (Ring innerRadius outerRadius segments).normals.length = (segments + 1).toNat * 2 := by
  rw [Ring_normals, length_flatMap_range _ 2]
  intro k
  rfl

theorem Ring_uvs_length (innerRadius outerRadius : α) (segments : Int) :
    (Ring innerRadius outerRadius segments).uvs.length = (segments + 1).toNat * 2 := by
  rw [Ring_uvs, length_flatMap_range _ 2]
  intro k
  rfl

theorem Ring_colors_length (innerRadius outerRadius : α) (segments : Int) :
    (Ring innerRadius outerRadius segments).colors.length = (segments + 1).toNat * 2 := by
  rw [Ring_colors, length_flatMap_range _ 2]
  intro k
  rfl

theorem Ring_indices_length (innerRadius outerRadius : α) (segments : Int) :
    (Ring innerRadius outerRadius segments).indices.length = segments.toNat * 6 := by
  rw [Ring_indices, length_flatMap_range _ 6]
  intro k
  rfl

end RingLists

/-! ## Claims about ShapeGenerator::Ring -/

/-- C5: for every innerRadius, outerRadius and every integer segments >= 1, the mesh returned by
`Ring(innerRadius, outerRadius, segments)` has exactly `2*(segments+1)` positions, normals, uvs
and colors and exactly `6*segments` indices; in particular `Ring(1.0, 2.0, 4)` has 10 vertices and
24 indices. -/
theorem Ring_sizes {α : Type} [Field α] [FloatMath α] (innerRadius outerRadius : α)
    (segments : Int) (hseg : 1 ≤ segments) :
    (((Ring innerRadius outerRadius segments).positions.length : Int) = 2 * (segments + 1) ∧
      ((Ring innerRadius outerRadius segments).normals.length : Int) = 2 * (segments + 1) ∧
      ((Ring innerRadius outerRadius segments).uvs.length : Int) = 2 * (segments + 1) ∧
      ((Ring innerRadius outerRadius segments).colors.length : Int) = 2 * (segments + 1) ∧
      ((Ring innerRadius outerRadius segments).indices.length : Int) = 6 * segments) ∧
    ((Ring (1.0 : α) 2.0 4).positions.length = 10 ∧ (Ring (1.0 : α) 2.0 4).normals.length = 10 ∧
      (Ring (1.0 : α) 2.0 4).uvs.length = 10 ∧ (Ring (1.0 : α) 2.0 4).colors.length = 10 ∧
      (Ring (1.0 : α) 2.0 4).indices.length = 24) := by
  refine ⟨?_, rfl, rfl, rfl, rfl, rfl⟩
  rw [Ring_positions_length, Ring_normals_length, Ring_uvs_length, Ring_colors_length,
    Ring_indices_length]
  refine ⟨?_, ?_, ?_, ?_, ?_⟩ <;> omega

/-- C5 at `Ring(1.0, 2.0, 4)` in exact real arithmetic: 10 vertices and 24 indices. -/
theorem Ring_sizes_witness :
    (((Ring (1.0 : ℝ) 2.0 4).positions.length : Int) = 2 * (4 + 1) ∧
      ((Ring (1.0 : ℝ) 2.0 4).normals.length : Int) = 2 * (4 + 1) ∧
      ((Ring (1.0 : ℝ) 2.0 4).uvs.length : Int) = 2 * (4 + 1) ∧
      ((Ring (1.0 : ℝ) 2.0 4).colors.length : Int) = 2 * (4 + 1) ∧
      ((Ring (1.0 : ℝ) 2.0 4).indices.length : Int) = 6 * 4) ∧
    ((Ring (1.0 : ℝ) 2.0 4).positions.length = 10 ∧ (Ring (1.0 : ℝ) 2.0 4).normals.length = 10 ∧
      (Ring (1.0 : ℝ) 2.0 4).uvs.length = 10 ∧ (Ring (1.0 : ℝ) 2.0 4).colors.length = 10 ∧
      (Ring (1.0 : ℝ) 2.0 4).indices.length = 24) :=
  Ring_sizes (1.0 : ℝ) 2.0 4 (by decide)

/-- C6: for segments >= 1 and `0 <= i < segments`, the six indices that Ring stores at offsets
`6i .. 6i+5` are `(2i, 2i+1, 2i+2, 2i+1, 2i+3, 2i+2)`; each is non-negative and strictly less than
the vertex count `2*(segments+1)`; and for every angular step `0 <= k <= segments`, vertex `2k` is
the one emitted with outerRadius and vertex `2k+1` the one emitted with innerRadius, both at the
angle `2*pi*k/segments`. -/
theorem Ring_quad_indices {α : Type} [Field α] [FloatMath α] (innerRadius outerRadius : α)
    (segments : Int) (_hseg : 1 ≤ segments) (i : Int) (hi0 : 0 ≤ i) (hi : i < segments) :
    ((Ring innerRadius outerRadius segments).indices[(6 * i).toNat]? = some (2 * i) ∧
      (Ring innerRadius outerRadius segments).indices[(6 * i).toNat + 1]? = some (2 * i + 1) ∧
      (Ring innerRadius outerRadius segments).indices[(6 * i).toNat + 2]? = some (2 * i + 2) ∧
      (Ring innerRadius outerRadius segments).indices[(6 * i).toNat + 3]? = some (2 * i + 1) ∧
      (Ring innerRadius outerRadius segments).indices[(6 * i).toNat + 4]? = some (2 * i + 3) ∧
      (Ring innerRadius outerRadius segments).indices[(6 * i).toNat + 5]? = some (2 * i + 2)) ∧
    (∀ x ∈ [2 * i, 2 * i + 1, 2 * i + 2, 2 * i + 1, 2 * i + 3, 2 * i + 2],
      0 ≤ x ∧ x < ((Ring innerRadius outerRadius segments).positions.length : Int)) ∧
    ((Ring innerRadius outerRadius segments).positions.length : Int) = 2 * (segments + 1) ∧
    (∀ k : Int, 0 ≤ k → k ≤ segments →
      (Ring innerRadius outerRadius segments).positions[(2 * k).toNat]?
        = some ⟨FloatMath.cos (2.0 * FloatMath.pi * (k : α) / (segments : α)) * outerRadius, 0.0,
            FloatMath.sin (2.0 * FloatMath.pi * (k : α) / (segments : α)) * outerRadius⟩ ∧
      (Ring innerRadius outerRadius segments).positions[(2 * k + 1).toNat]?
        = some ⟨FloatMath.cos (2.0 * FloatMath.pi * (k : α) / (segments : α)) * innerRadius, 0.0,
            FloatMath.sin (2.0 * FloatMath.pi * (k : α) / (segments : α)) * innerRadius⟩) := by
  have hlen : ((Ring innerRadius outerRadius segments).positions.length : Int)
      = 2 * (segments + 1) := by
    rw [Ring_positions_length]
    omega
  refine ⟨?_, ?_, hlen, ?_⟩
  · obtain ⟨a, rfl⟩ := Int.eq_ofNat_of_zero_le hi0
    have ha : a < segments.toNat := by omega
    have hoff : (6 * (a : Int)).toNat = a * 6 := by omega
    have hget : ∀ t, t < 6 → (Ring innerRadius outerRadius segments).indices[a * 6 + t]?
        = (ringQuad (Int.ofNat a))[t]? := by
      intro t ht
      rw [Ring_indices]
      exact getElem?_flatMap_range (fun i => ringQuad (Int.ofNat i)) 6 (fun _ => rfl)
        segments.toNat a t ha ht
    rw [hoff]
    refine ⟨?_, ?_, ?_, ?_, ?_, ?_⟩
    · refine (hget 0 (by omega)).trans ?_
      simp only [ringQuad, List.getElem?_cons_succ, List.getElem?_cons_zero, Int.ofNat_eq_coe,
        Option.some.injEq]
      ring
    · refine (hget 1 (by omega)).trans ?_
      simp only [ringQuad, List.getElem?_cons_succ, List.getElem?_cons_zero, Int.ofNat_eq_coe,
        Option.some.injEq]
      ring
    · refine (hget 2 (by omega)).trans ?_
      simp only [ringQuad, List.getElem?_cons_succ, List.getElem?_cons_zero, Int.ofNat_eq_coe,
        Option.some.injEq]
      ring
    · refine (hget 3 (by omega)).trans ?_
      simp only [ringQuad, List.getElem?_cons_succ, List.getElem?_cons_zero, Int.ofNat_eq_coe,
        Option.some.injEq]
      ring
    · refine (hget 4 (by omega)).trans ?_
      simp only [ringQuad, List.getElem?_cons_succ, List.getElem?_cons_zero, Int.ofNat_eq_coe,
        Option.some.injEq]
      ring
    · refine (hget 5 (by omega)).trans ?_
      simp only [ringQuad, List.getElem?_cons_succ, List.getElem?_cons_zero, Int.ofNat_eq_coe,
        Option.some.injEq]
      ring
  · intro x hx
    rw [hlen]
    simp only [List.mem_cons, List.mem_singleton, List.mem_nil_iff, or_false] at hx
    rcases hx with h | h | h | h | h | h <;> subst h <;> constructor <;> omega
  · intro k hk0 hk
    obtain ⟨b, rfl⟩ := Int.eq_ofNat_of_zero_le hk0
    have hb : b < (segments + 1).toNat := by omega
    have h0 : (2 * (b : Int)).toNat = b * 2 + 0 := by omega
    have h1 : (2 * (b : Int) + 1).toNat = b * 2 + 1 := by omega
    rw [h0, h1, Ring_positions]
    have hcell : ∀ t, t < 2 →
        ((List.range (segments + 1).toNat).flatMap (fun i =>
          [ringPosition outerRadius segments (Int.ofNat i),
            ringPosition innerRadius segments (Int.ofNat i)]))[b * 2 + t]?
        = [ringPosition outerRadius segments (Int.ofNat b),
            ringPosition innerRadius segments (Int.ofNat b)][t]? := by
      intro t ht
      exact getElem?_flatMap_range (fun i =>
        [ringPosition outerRadius segments (Int.ofNat i),
          ringPosition innerRadius segments (Int.ofNat i)]) 2 (fun _ => rfl)
        (segments + 1).toNat b t hb ht
    exact ⟨(hcell 0 (by omega)).trans rfl, (hcell 1 (by omega)).trans rfl⟩

/-- C6 at `Ring(1.0, 2.0, 4)`, segment `i = 3` (the last one): offsets 18..23 hold
`(6, 7, 8, 7, 9, 8)`, all below the vertex count 10. -/
theorem Ring_quad_indices_witness :
    ((Ring (1.0 : ℝ) 2.0 4).indices[18]? = some 6 ∧
      (Ring (1.0 : ℝ) 2.0 4).indices[19]? = some 7 ∧
      (Ring (1.0 : ℝ) 2.0 4).indices[20]? = some 8 ∧
      (Ring (1.0 : ℝ) 2.0 4).indices[21]? = some 7 ∧
      (Ring (1.0 : ℝ) 2.0 4).indices[22]? = some 9 ∧
      (Ring (1.0 : ℝ) 2.0 4).indices[23]? = some 8) ∧
    (∀ x ∈ [(6 : Int), 7, 8, 7, 9, 8],
      0 ≤ x ∧ x < ((Ring (1.0 : ℝ) 2.0 4).positions.length : Int)) ∧
    ((Ring (1.0 : ℝ) 2.0 4).positions.length : Int) = 10 :=
  have h := Ring_quad_indices (1.0 : ℝ) 2.0 4 (by decide) 3 (by decide) (by decide)
  ⟨h.1, h.2.1, h.2.2.1⟩

end ShapeGenerator

/-! ## The glm transforms in exact real arithmetic -/

namespace glm

theorem normalize_Y_real : glm.normalize (⟨0.0, 1.0, 0.0⟩ : Vec3 ℝ) = ⟨0, 1, 0⟩ := by
  norm_num [glm.normalize, sqrt_real]

theorem normalize_X_real : glm.normalize (⟨1.0, 0.0, 0.0⟩ : Vec3 ℝ) = ⟨1, 0, 0⟩ := by
  norm_num [glm.normalize, sqrt_real]

theorem rotate_one_Y_real (angle : ℝ) :
    glm.rotate glm.mat4_one angle ⟨0.0, 1.0, 0.0⟩
      = ⟨⟨Real.cos angle, 0, -Real.sin angle, 0⟩, ⟨0, 1, 0, 0⟩,
          ⟨Real.sin angle, 0, Real.cos angle, 0⟩, ⟨0, 0, 0, 1⟩⟩ := by
  simp [glm.rotate, normalize_Y_real, glm.mat4_one, Vec4.add, Vec4.scale, cos_real, sin_real]

theorem rotate_one_X_real (angle : ℝ) :
    glm.rotate glm.mat4_one angle ⟨1.0, 0.0, 0.0⟩
      = ⟨⟨1, 0, 0, 0⟩, ⟨0, Real.cos angle, Real.sin angle, 0⟩,
          ⟨0, -Real.sin angle, Real.cos angle, 0⟩, ⟨0, 0, 0, 1⟩⟩ := by
  simp [glm.rotate, normalize_X_real, glm.mat4_one, Vec4.add, Vec4.scale, cos_real, sin_real]

theorem translate_one_real (v : Vec3 ℝ) :
    glm.translate glm.mat4_one v
      = ⟨⟨1, 0, 0, 0⟩, ⟨0, 1, 0, 0⟩, ⟨0, 0, 1, 0⟩, ⟨v.x, v.y, v.z, 1⟩⟩ := by
  simp [glm.translate, glm.mat4_one, Vec4.add, Vec4.scale]

theorem radians_90_real : glm.radians (90.0 : ℝ) = Real.pi / 2 := by
  simp only [glm.radians, pi_real]
  ring

theorem radians_neg_90_real : glm.radians (-90.0 : ℝ) = -(Real.pi / 2) := by
  simp only [glm.radians, pi_real]
  ring

theorem radians_180_real : glm.radians (180.0 : ℝ) = Real.pi := by
  simp only [glm.radians, pi_real]
  ring

theorem length_X_real (a : ℝ) : glm.length (⟨a, 0, 0⟩ : Vec3 ℝ) = |a| := by
  simp only [glm.length, sqrt_real, mul_zero, add_zero]
  exact Real.sqrt_mul_self_eq_abs a

theorem length_Y_real (a : ℝ) : glm.length (⟨0, a, 0⟩ : Vec3 ℝ) = |a| := by
  simp only [glm.length, sqrt_real, mul_zero, add_zero, zero_add]
  exact Real.sqrt_mul_self_eq_abs a

theorem length_Z_real (a : ℝ) : glm.length (⟨0, 0, a⟩ : Vec3 ℝ) = |a| := by
  simp only [glm.length, sqrt_real, mul_zero, add_zero, zero_add]
  exact Real.sqrt_mul_self_eq_abs a

theorem normalize_axis_X_real (a : ℝ) :
    glm.normalize (⟨a, 0, 0⟩ : Vec3 ℝ) = ⟨a * (1 / |a|), 0, 0⟩ := by
  simp only [glm.normalize, sqrt_real, mul_zero, zero_mul, add_zero,
    Real.sqrt_mul_self_eq_abs]

theorem normalize_axis_Y_real (a : ℝ) :
    glm.normalize (⟨0, a, 0⟩ : Vec3 ℝ) = ⟨0, a * (1 / |a|), 0⟩ := by
  simp only [glm.normalize, sqrt_real, mul_zero, zero_mul, add_zero, zero_add,
    Real.sqrt_mul_self_eq_abs]

theorem normalize_axis_Z_real (a : ℝ) :
    glm.normalize (⟨0, 0, a⟩ : Vec3 ℝ) = ⟨0, 0, a * (1 / |a|)⟩ := by
  simp only [glm.normalize, sqrt_real, mul_zero, zero_mul, add_zero, zero_add,
    Real.sqrt_mul_self_eq_abs]

end glm

/-! ## Claims about ShapeGenerator::UnitCube -/

namespace ShapeGenerator

theorem UnitCube_positions_real : (UnitCube : CPU_Geometry ℝ).positions =
    [ ⟨-0.5, 0.5, 0.5⟩, ⟨-0.5, -0.5, 0.5⟩, ⟨0.5, 0.5, 0.5⟩, ⟨-0.5, -0.5, 0.5⟩, ⟨0.5, -0.5, 0.5⟩, ⟨0.5, 0.5, 0.5⟩,
      ⟨0.5, 0.5, 0.5⟩, ⟨0.5, -0.5, 0.5⟩, ⟨0.5, 0.5, -0.5⟩, ⟨0.5, -0.5, 0.5⟩, ⟨0.5, -0.5, -0.5⟩, ⟨0.5, 0.5, -0.5⟩,
      ⟨0.5, 0.5, -0.5⟩, ⟨0.5, -0.5, -0.5⟩, ⟨-0.5, 0.5, -0.5⟩, ⟨0.5, -0.5, -0.5⟩, ⟨-0.5, -0.5, -0.5⟩, ⟨-0.5, 0.5, -0.5⟩,
      ⟨-0.5, 0.5, -0.5⟩, ⟨-0.5, -0.5, -0.5⟩, ⟨-0.5, 0.5, 0.5⟩, ⟨-0.5, -0.5, -0.5⟩, ⟨-0.5, -0.5, 0.5⟩, ⟨-0.5, 0.5, 0.5⟩,
      ⟨-0.5, 0.5, -0.5⟩, ⟨-0.5, 0.5, 0.5⟩, ⟨0.5, 0.5, -0.5⟩, ⟨-0.5, 0.5, 0.5⟩, ⟨0.5, 0.5, 0.5⟩, ⟨0.5, 0.5, -0.5⟩,
      ⟨-0.5, -0.5, 0.5⟩, ⟨-0.5, -0.5, -0.5⟩, ⟨0.5, -0.5, 0.5⟩, ⟨-0.5, -0.5, -0.5⟩, ⟨0.5, -0.5, -0.5⟩, ⟨0.5, -0.5, 0.5⟩ ] := by
  simp only [UnitCube, positiveZFace, positiveXFace, negativeZFace, negativeXFace, positiveYFace,
    negativeYFace, emitFace, colouredTriangles, glm.rotate_one_Y_real, glm.rotate_one_X_real,
    glm.translate_one_real, glm.radians_90_real, glm.radians_neg_90_real, glm.radians_180_real,
    glm.mul, glm.mulVec, glm.vec3, glm.vec4, glm.Vec4.add, glm.Vec4.scale, List.foldl_cons,
    List.foldl_nil, List.nil_append, List.cons_append, Real.cos_pi, Real.sin_pi,
    Real.cos_pi_div_two, Real.sin_pi_div_two, Real.cos_neg, Real.sin_neg]
  norm_num

theorem UnitCube_normals_real : (UnitCube : CPU_Geometry ℝ).normals =
    [ ⟨0, 0, 1⟩, ⟨0, 0, 1⟩, ⟨0, 0, 1⟩, ⟨0, 0, 1⟩, ⟨0, 0, 1⟩, ⟨0, 0, 1⟩,
      ⟨1, 0, 0⟩, ⟨1, 0, 0⟩, ⟨1, 0, 0⟩, ⟨1, 0, 0⟩, ⟨1, 0, 0⟩, ⟨1, 0, 0⟩,
      ⟨0, 0, -1⟩, ⟨0, 0, -1⟩, ⟨0, 0, -1⟩, ⟨0, 0, -1⟩, ⟨0, 0, -1⟩, ⟨0, 0, -1⟩,
      ⟨-1, 0, 0⟩, ⟨-1, 0, 0⟩, ⟨-1, 0, 0⟩, ⟨-1, 0, 0⟩, ⟨-1, 0, 0⟩, ⟨-1, 0, 0⟩,
      ⟨0, 1, 0⟩, ⟨0, 1, 0⟩, ⟨0, 1, 0⟩, ⟨0, 1, 0⟩, ⟨0, 1, 0⟩, ⟨0, 1, 0⟩,
      ⟨0, -1, 0⟩, ⟨0, -1, 0⟩, ⟨0, -1, 0⟩, ⟨0, -1, 0⟩, ⟨0, -1, 0⟩, ⟨0, -1, 0⟩ ] := by
  simp only [UnitCube, positiveZFace, positiveXFace, negativeZFace, negativeXFace, positiveYFace,
    negativeYFace, emitFace, colouredTriangles, List.foldl_cons, List.foldl_nil, List.nil_append,
    List.cons_append]
  norm_num

/-- C7: `UnitCube()` returns a mesh with exactly 36 positions, 36 normals and 36 colors (six
faces of six vertices each) and an empty indices list. -/
theorem UnitCube_sizes {α : Type} [Field α] [FloatMath α] :
    (UnitCube : CPU_Geometry α).positions.length = 36 ∧
    (UnitCube : CPU_Geometry α).normals.length = 36 ∧
    (UnitCube : CPU_Geometry α).colors.length = 36 ∧
    (UnitCube : CPU_Geometry α).indices = [] := by
  simp only [UnitCube, positiveZFace, positiveXFace, negativeZFace, negativeXFace, positiveYFace,
    negativeYFace, emitFace, colouredTriangles, List.foldl_cons, List.foldl_nil, List.nil_append,
    List.cons_append, List.length_cons, List.length_nil, and_self]

theorem UnitCube_centroids_real :
    [0, 1, 2, 3, 4, 5].map (fun k => centroid (facePositions (UnitCube : CPU_Geometry ℝ) k))
      = [⟨0, 0, 0.5⟩, ⟨0.5, 0, 0⟩, ⟨0, 0, -0.5⟩, ⟨-0.5, 0, 0⟩, ⟨0, 0.5, 0⟩, ⟨0, -0.5, 0⟩] := by
  simp only [facePositions, UnitCube_positions_real, List.map_cons, List.map_nil, centroid,
    List.foldl_cons, List.foldl_nil, Vec3.add, List.length_cons, List.length_nil, Nat.reduceMul,
    List.drop, List.take]
  norm_num

/-- C8: in exact real arithmetic, the centroids of the six faces of `UnitCube()` (vertices
`6k .. 6k+5`, `k = 0..5`) are, in order, `(0,0,0.5)`, `(0.5,0,0)`, `(0,0,-0.5)`, `(-0.5,0,0)`,
`(0,0.5,0)`, `(0,-0.5,0)`; these six points are distinct; each centroid has exactly one non-zero
coordinate, equal to `+0.5` or `-0.5`; the six normals stored for a face all equal the unit
vector from the origin to the face's centroid; and every stored normal has length 1. -/
theorem UnitCube_face_centroids :
    [0, 1, 2, 3, 4, 5].map (fun k => centroid (facePositions (UnitCube : CPU_Geometry ℝ) k))
      = [⟨0, 0, 0.5⟩, ⟨0.5, 0, 0⟩, ⟨0, 0, -0.5⟩, ⟨-0.5, 0, 0⟩, ⟨0, 0.5, 0⟩, ⟨0, -0.5, 0⟩] ∧
    ([0, 1, 2, 3, 4, 5].map
      (fun k => centroid (facePositions (UnitCube : CPU_Geometry ℝ) k))).Nodup ∧
    (∀ c ∈ [0, 1, 2, 3, 4, 5].map
        (fun k => centroid (facePositions (UnitCube : CPU_Geometry ℝ) k)),
      ((c.x = 0.5 ∨ c.x = -0.5) ∧ c.y = 0 ∧ c.z = 0) ∨
      (c.x = 0 ∧ (c.y = 0.5 ∨ c.y = -0.5) ∧ c.z = 0) ∨
      (c.x = 0 ∧ c.y = 0 ∧ (c.z = 0.5 ∨ c.z = -0.5))) ∧
    (∀ k, k < 6 → faceNormals (UnitCube : CPU_Geometry ℝ) k
      = List.replicate 6
          (glm.normalize (centroid (facePositions (UnitCube : CPU_Geometry ℝ) k)))) ∧
    (∀ n ∈ (UnitCube : CPU_Geometry ℝ).normals, glm.length n = 1) := by
  have hc := UnitCube_centroids_real
  have habs : |(0.5 : ℝ)| = 0.5 := abs_of_pos (by norm_num)
  have habs2 : |(-0.5 : ℝ)| = 0.5 := by rw [abs_neg]; exact habs
  refine ⟨hc, ?_, ?_, ?_, ?_⟩
  · rw [hc]
    simp only [List.nodup_cons, List.mem_cons, List.mem_singleton, Vec3.mk.injEq,
      List.not_mem_nil, List.nodup_nil]
    norm_num
  · rw [hc]
    intro c hmem
    simp only [List.mem_cons, List.mem_singleton, List.mem_nil_iff, or_false] at hmem
    rcases hmem with h | h | h | h | h | h <;> subst h <;> norm_num
  · simp only [List.map_cons, List.map_nil, List.cons.injEq, and_true] at hc
    obtain ⟨h0, h1, h2, h3, h4, h5⟩ := hc
    intro k hk
    interval_cases k
    · rw [h0, glm.normalize_axis_Z_real, habs]
      simp only [faceNormals, UnitCube_normals_real, List.drop, List.take, List.replicate]
      norm_num
    · rw [h1, glm.normalize_axis_X_real, habs]
      simp only [faceNormals, UnitCube_normals_real, List.drop, List.take, List.replicate]
      norm_num
    · rw [h2, glm.normalize_axis_Z_real, habs2]
      simp only [faceNormals, UnitCube_normals_real, List.drop, List.take, List.replicate]
      norm_num
    · rw [h3, glm.normalize_axis_X_real, habs2]
      simp only [faceNormals, UnitCube_normals_real, List.drop, List.take, List.replicate]
      norm_num
    · rw [h4, glm.normalize_axis_Y_real, habs]
      simp only [faceNormals, UnitCube_normals_real, List.drop, List.take, List.replicate]
      norm_num
    · rw [h5, glm.normalize_axis_Y_real, habs2]
      simp only [faceNormals, UnitCube_normals_real, List.drop, List.take, List.replicate]
      norm_num
  · intro n hn
    rw [UnitCube_normals_real] at hn
    simp only [List.mem_cons, List.mem_singleton, List.mem_nil_iff, or_false] at hn
    rcases hn with h | h | h | h | h | h | h | h | h | h | h | h | h | h | h | h | h | h |
      h | h | h | h | h | h | h | h | h | h | h | h | h | h | h | h | h | h <;> subst h <;>
      simp [glm.length_X_real, glm.length_Y_real, glm.length_Z_real]

/-! ## The Mesh invariant and invalid resolutions -/

/-- C9, as stated, fails: the mesh returned by `UnitCube()` has 36 positions and no uvs, so it
does not satisfy `len(positions) == len(normals) == len(uvs) == len(colors)`. -/
theorem UnitCube_not_MeshInvariant :
    (UnitCube : CPU_Geometry ℝ).positions.length = 36 ∧
    (UnitCube : CPU_Geometry ℝ).uvs.length = 0 ∧
    ¬ MeshInvariant (UnitCube : CPU_Geometry ℝ) := by
  have hp : (UnitCube : CPU_Geometry ℝ).positions.length = 36 := by
    rw [UnitCube_positions_real]
    rfl
  have hn : (UnitCube : CPU_Geometry ℝ).normals.length = 36 := by
    rw [UnitCube_normals_real]
    rfl
  have hu : (UnitCube : CPU_Geometry ℝ).uvs.length = 0 := rfl
  refine ⟨hp, hu, ?_⟩
  intro h
  have h2 := h.2.1
  rw [hn, hu] at h2
  exact absurd h2 (by decide)

/-- C9 amended: every mesh built by `Sphere` or `Ring`, for all arguments, satisfies
`len(positions) == len(normals) == len(uvs) == len(colors)`; the mesh returned by `UnitCube()`
has `len(positions) == len(normals) == len(colors) == 36` and an empty uvs list. -/
theorem generators_MeshInvariant {α : Type} [Field α] [FloatMath α] :
    (∀ (radius : α) (slices nstacks : Int), MeshInvariant (Sphere radius slices nstacks)) ∧
    (∀ (innerRadius outerRadius : α) (segments : Int),
      MeshInvariant (Ring innerRadius outerRadius segments)) ∧
    ((UnitCube : CPU_Geometry α).positions.length = 36 ∧
      (UnitCube : CPU_Geometry α).normals.length = 36 ∧
      (UnitCube : CPU_Geometry α).colors.length = 36 ∧
      (UnitCube : CPU_Geometry α).uvs = []) := by
  refine ⟨?_, ?_, ?_⟩
  · intro radius slices nstacks
    unfold MeshInvariant
    rw [Sphere_positions_length, Sphere_normals_length, Sphere_uvs_length, Sphere_colors_length]
    exact ⟨rfl, rfl, rfl⟩
  · intro innerRadius outerRadius segments
    unfold MeshInvariant
    rw [Ring_positions_length, Ring_normals_length, Ring_uvs_length, Ring_colors_length]
    exact ⟨rfl, rfl, rfl⟩
  · simp only [UnitCube, positiveZFace, positiveXFace, negativeZFace, negativeXFace,
      positiveYFace, negativeYFace, emitFace, colouredTriangles, List.foldl_cons, List.foldl_nil,
      List.nil_append, List.cons_append, List.length_cons, List.length_nil, and_self]

/-- C10, as stated, fails: the source validates nothing. `Sphere(1, 0, 0)` returns a mesh of one
vertex and no indices, `Sphere(1, -1, 5)` returns the empty mesh, and `Ring(1, 2, 0)` returns a
mesh of two vertices and no indices. -/
theorem generators_accept_invalid_resolution :
    ((Sphere (1 : ℝ) 0 0).positions.length = 1 ∧ (Sphere (1 : ℝ) 0 0).indices = []) ∧
    ((Sphere (1 : ℝ) (-1) 5).positions = [] ∧ (Sphere (1 : ℝ) (-1) 5).indices = []) ∧
    ((Ring (1 : ℝ) 2 0).positions.length = 2 ∧ (Ring (1 : ℝ) 2 0).indices = []) := by
  refine ⟨⟨?_, ?_⟩, ⟨?_, ?_⟩, ⟨?_, ?_⟩⟩
  · rw [Sphere_positions_length]
    rfl
  · rw [Sphere_indices]
    rfl
  · rw [Sphere_positions]
    rfl
  · rw [Sphere_indices]
    rfl
  · rw [Ring_positions_length]
    rfl
  · rw [Ring_indices]
    rfl

/-- C10 amended: `Sphere` and `Ring` validate nothing and always return a mesh. When
`slices < 1` or `stacks < 1`, `Sphere` returns a mesh without indices whose four vertex lists have
`max(stacks+1, 0) * max(slices+1, 0)` entries; when `segments < 1`, `Ring` returns a mesh without
indices whose four vertex lists have `2 * max(segments+1, 0)` entries. -/
theorem generators_invalid_resolution {α : Type} [Field α] [FloatMath α]
    (radius : α) (slices nstacks : Int) (h : slices < 1 ∨ nstacks < 1)
    (innerRadius outerRadius : α) (segments : Int) (hseg : segments < 1) :
    ((Sphere radius slices nstacks).indices = [] ∧
      (Sphere radius slices nstacks).positions.length
        = (nstacks + 1).toNat * (slices + 1).toNat ∧
      MeshInvariant (Sphere radius slices nstacks)) ∧
    ((Ring innerRadius outerRadius segments).indices = [] ∧
      (Ring innerRadius outerRadius segments).positions.length = 2 * (segments + 1).toNat ∧
      MeshInvariant (Ring innerRadius outerRadius segments)) := by
  refine ⟨⟨?_, Sphere_positions_length radius slices nstacks, ?_⟩, ⟨?_, ?_, ?_⟩⟩
  · apply List.eq_nil_of_length_eq_zero
    rw [Sphere_indices_length]
    rcases h with h | h
    · have h0 : slices.toNat = 0 := by omega
      rw [h0, Nat.mul_zero, Nat.zero_mul]
    · have h0 : nstacks.toNat = 0 := by omega
      rw [h0, Nat.zero_mul, Nat.zero_mul]
  · unfold MeshInvariant
    rw [Sphere_positions_length, Sphere_normals_length, Sphere_uvs_length, Sphere_colors_length]
    exact ⟨rfl, rfl, rfl⟩
  · apply List.eq_nil_of_length_eq_zero
    rw [Ring_indices_length]
    omega
  · rw [Ring_positions_length, Nat.mul_comm]
  · unfold MeshInvariant
    rw [Ring_positions_length, Ring_normals_length, Ring_uvs_length, Ring_colors_length]
    exact ⟨rfl, rfl, rfl⟩

/-- C10 amended, at `Sphere(1, 0, 0)` and `Ring(1, 2, 0)`: one vertex and two vertices, no
indices. -/
theorem generators_invalid_resolution_witness :
    ((Sphere (1 : ℝ) 0 0).indices = [] ∧
      (Sphere (1 : ℝ) 0 0).positions.length = ((0 : Int) + 1).toNat * ((0 : Int) + 1).toNat ∧
      MeshInvariant (Sphere (1 : ℝ) 0 0)) ∧
    ((Ring (1 : ℝ) 2 0).indices = [] ∧
      (Ring (1 : ℝ) 2 0).positions.length = 2 * ((0 : Int) + 1).toNat ∧
      MeshInvariant (Ring (1 : ℝ) 2 0)) :=
  generators_invalid_resolution (1 : ℝ) 0 0 (Or.inl (by decide)) 1 2 0 (by decide)

end ShapeGenerator

/-! ## std::clamp -/

theorem std.clamp_mem {α : Type} [LinearOrder α] (v lo hi : α) (h : lo ≤ hi) :
    lo ≤ std.clamp v lo hi ∧ std.clamp v lo hi ≤ hi := by
  unfold std.clamp
  split_ifs with h1 h2
  · exact ⟨le_refl lo, h⟩
  · exact ⟨h, le_refl hi⟩
  · exact ⟨not_lt.mp h1, not_lt.mp h2⟩

theorem std.clamp_of_ge {α : Type} [LinearOrder α] (v lo hi : α) (h : lo ≤ hi) (hv : hi ≤ v) :
    std.clamp v lo hi = hi := by
  unfold std.clamp
  split_ifs with h1 h2
  · exact absurd (lt_of_le_of_lt hv h1) (not_lt.mpr h)
  · rfl
  · exact le_antisymm (not_lt.mp h2) hv

/-! ## Claims about TurnTableCamera -/

namespace TurnTableCamera

section CameraInvariants

variable {α : Type} [LinearOrderedField α] [FloatMath α]

theorem UpdateViewMatrix_fields (M : Math α) (c : TurnTableCamera α) :
    (UpdateViewMatrix M c)._phi = c._phi ∧ (UpdateViewMatrix M c)._theta = c._theta ∧
    (UpdateViewMatrix M c)._distance = c._distance ∧
    (UpdateViewMatrix M c)._minDistance = c._minDistance ∧
    (UpdateViewMatrix M c)._maxDistance = c._maxDistance ∧
    (UpdateViewMatrix M c).m_targetBody = c.m_targetBody ∧
    (UpdateViewMatrix M c).m_targetPosition = c.m_targetPosition ∧
    (UpdateViewMatrix M c).m_lastTargetPosition = c.m_lastTargetPosition := by
  unfold UpdateViewMatrix
  split_ifs <;> exact ⟨rfl, rfl, rfl, rfl, rfl, rfl, rfl, rfl⟩

theorem ChangePhi_phi (c : TurnTableCamera α) (d : α) :
    (c.ChangePhi d)._phi
      = std.clamp (c._phi + d) (-FloatMath.pi * 0.49) (FloatMath.pi * 0.49) := by
  unfold ChangePhi
  simp only []
  split_ifs with h
  · rfl
  · exact (not_not.mp h).symm

theorem ChangeRadius_distance {β : Type} [LinearOrderedField β] (c : TurnTableCamera β) (d : β) :
    (c.ChangeRadius d)._distance
      = std.clamp (c._distance + d) c._minDistance c._maxDistance := by
  unfold ChangeRadius
  simp only []
  split_ifs with h
  · rfl
  · exact (not_not.mp h).symm

theorem call_bounds (M : Math α) (c : TurnTableCamera α) (k : Call α) :
    (call M c k)._minDistance = c._minDistance ∧ (call M c k)._maxDistance = c._maxDistance := by
  cases k with
  | ChangeTheta d => unfold call ChangeTheta; simp only []; split_ifs <;> exact ⟨rfl, rfl⟩
  | ChangePhi d => unfold call ChangePhi; simp only []; split_ifs <;> exact ⟨rfl, rfl⟩
  | ChangeRadius d => unfold call ChangeRadius; simp only []; split_ifs <;> exact ⟨rfl, rfl⟩
  | SetTargetBody b => exact ⟨rfl, rfl⟩
  | SetTargetPosition p => exact ⟨rfl, rfl⟩
  | UpdateTargetPosition p =>
    unfold call UpdateTargetPosition; split_ifs <;> exact ⟨rfl, rfl⟩
  | ViewMatrix =>
    exact ⟨(UpdateViewMatrix_fields M c).2.2.2.1, (UpdateViewMatrix_fields M c).2.2.2.2.1⟩
  | Position =>
    exact ⟨(UpdateViewMatrix_fields M c).2.2.2.1, (UpdateViewMatrix_fields M c).2.2.2.2.1⟩

theorem calls_bounds (M : Math α) (cs : List (Call α)) (c : TurnTableCamera α) :
    (calls M c cs)._minDistance = c._minDistance ∧
      (calls M c cs)._maxDistance = c._maxDistance := by
  induction cs generalizing c with
  | nil => exact ⟨rfl, rfl⟩
  | cons k cs ih =>
    have h1 := ih (call M c k)
    have h2 := call_bounds M c k
    exact ⟨h1.1.trans h2.1, h1.2.trans h2.2⟩

theorem call_phi_range (M : Math α) (c : TurnTableCamera α) (k : Call α)
    (hpi : (-FloatMath.pi * 0.49 : α) ≤ FloatMath.pi * 0.49)
    (h : -FloatMath.pi * 0.49 ≤ c._phi ∧ c._phi ≤ FloatMath.pi * 0.49) :
    -FloatMath.pi * 0.49 ≤ (call M c k)._phi ∧ (call M c k)._phi ≤ FloatMath.pi * 0.49 := by
  cases k with
  | ChangeTheta d => unfold call ChangeTheta; simp only []; split_ifs <;> exact h
  | ChangePhi d =>
    show _ ≤ (c.ChangePhi d)._phi ∧ (c.ChangePhi d)._phi ≤ _
    rw [ChangePhi_phi]
    exact std.clamp_mem _ _ _ hpi
  | ChangeRadius d => unfold call ChangeRadius; simp only []; split_ifs <;> exact h
  | SetTargetBody b => exact h
  | SetTargetPosition p => exact h
  | UpdateTargetPosition p => unfold call UpdateTargetPosition; split_ifs <;> exact h
  | ViewMatrix =>
    show _ ≤ (UpdateViewMatrix M c)._phi ∧ (UpdateViewMatrix M c)._phi ≤ _
    rw [(UpdateViewMatrix_fields M c).1]
    exact h
  | Position =>
    show _ ≤ (UpdateViewMatrix M c)._phi ∧ (UpdateViewMatrix M c)._phi ≤ _
    rw [(UpdateViewMatrix_fields M c).1]
    exact h

theorem calls_phi_range (M : Math α) (cs : List (Call α)) (c : TurnTableCamera α)
    (hpi : (-FloatMath.pi * 0.49 : α) ≤ FloatMath.pi * 0.49)
    (h : -FloatMath.pi * 0.49 ≤ c._phi ∧ c._phi ≤ FloatMath.pi * 0.49) :
    -FloatMath.pi * 0.49 ≤ (calls M c cs)._phi ∧ (calls M c cs)._phi ≤ FloatMath.pi * 0.49 := by
  induction cs generalizing c with
  | nil => exact h
  | cons k cs ih => exact ih (call M c k) (call_phi_range M c k hpi h)

end CameraInvariants

theorem phi_bounds_real :
    (-FloatMath.pi * 0.49 : ℝ) = -(0.49 * Real.pi) ∧ (FloatMath.pi * 0.49 : ℝ) = 0.49 * Real.pi ∧
      (-(0.49 * Real.pi) : ℝ) ≤ 0.49 * Real.pi := by
  have hpi := Real.pi_pos
  refine ⟨?_, ?_, ?_⟩
  · rw [pi_real]; ring
  · rw [pi_real]; ring
  · nlinarith

/-- C19: in exact real arithmetic, `ChangePhi(d)` sets phi to
`clamp(phi + d, -0.49*pi, 0.49*pi)`; starting from a freshly constructed camera (any `Params`),
after any sequence of calls of the public member functions phi lies in `[-0.49*pi, 0.49*pi]`;
whenever `phi + d >= 0.49*pi` the new phi is exactly `0.49*pi`; and once phi is `0.49*pi`, a
further `ChangePhi(d')` with `d' >= 0` leaves the camera as it is, in particular phi and the dirty
flag. -/
theorem ChangePhi_clamps :
    (∀ (c : TurnTableCamera ℝ) (d : ℝ),
      (c.ChangePhi d)._phi = std.clamp (c._phi + d) (-(0.49 * Real.pi)) (0.49 * Real.pi)) ∧
    (∀ (M : Math ℝ) (params : Params ℝ) (cs : List (Call ℝ)),
      -(0.49 * Real.pi) ≤ (calls M (ctor params) cs)._phi ∧
        (calls M (ctor params) cs)._phi ≤ 0.49 * Real.pi) ∧
    (∀ (c : TurnTableCamera ℝ) (d : ℝ), 0.49 * Real.pi ≤ c._phi + d →
      (c.ChangePhi d)._phi = 0.49 * Real.pi) ∧
    (∀ (c : TurnTableCamera ℝ) (d' : ℝ), c._phi = 0.49 * Real.pi → 0 ≤ d' →
      (c.ChangePhi d')._phi = c._phi ∧ (c.ChangePhi d')._isDirty = c._isDirty ∧
        c.ChangePhi d' = c) := by
  obtain ⟨hlo, hhi, hle⟩ := phi_bounds_real
  have hset : ∀ (c : TurnTableCamera ℝ) (d : ℝ),
      (c.ChangePhi d)._phi = std.clamp (c._phi + d) (-(0.49 * Real.pi)) (0.49 * Real.pi) := by
    intro c d
    rw [ChangePhi_phi, hlo, hhi]
  refine ⟨hset, ?_, ?_, ?_⟩
  · intro M params cs
    have h := calls_phi_range M cs (ctor params) (by rw [hlo, hhi]; exact hle)
      (by
        rw [hlo, hhi]
        show -(0.49 * Real.pi) ≤ (0 : ℝ) ∧ (0 : ℝ) ≤ 0.49 * Real.pi
        have hpi := Real.pi_pos
        constructor <;> nlinarith)
    rw [hlo, hhi] at h
    exact h
  · intro c d hd
    rw [hset]
    exact std.clamp_of_ge _ _ _ hle hd
  · intro c d' hc hd'
    have hphi : (c.ChangePhi d')._phi = c._phi := by
      rw [hset, hc]
      exact std.clamp_of_ge _ _ _ hle (by linarith)
    have hsame : c.ChangePhi d' = c := by
      have hnew : std.clamp (c._phi + d') (-FloatMath.pi * 0.49) (FloatMath.pi * 0.49)
          = c._phi := by
        rw [← ChangePhi_phi]
        exact hphi
      unfold ChangePhi
      simp only []
      rw [if_neg (not_not.mpr hnew)]
    exact ⟨hphi, by rw [hsame], hsame⟩

/-- C19 on the default camera: `ChangePhi(100)` leaves phi at exactly `0.49*pi`, and a second
`ChangePhi(100)` changes nothing. -/
theorem ChangePhi_clamps_witness :
    ((ctor_default : TurnTableCamera ℝ).ChangePhi 100)._phi = 0.49 * Real.pi ∧
    (((ctor_default : TurnTableCamera ℝ).ChangePhi 100).ChangePhi 100)
      = (ctor_default : TurnTableCamera ℝ).ChangePhi 100 := by
  have hpi := Real.pi_le_four
  have h1 : ((ctor_default : TurnTableCamera ℝ).ChangePhi 100)._phi = 0.49 * Real.pi :=
    ChangePhi_clamps.2.2.1 ctor_default 100 (by
      show 0.49 * Real.pi ≤ (0 : ℝ) + 100
      nlinarith)
  exact ⟨h1, (ChangePhi_clamps.2.2.2 _ 100 h1 (by norm_num)).2.2⟩

/-- C20: for a camera constructed with `minDistance <= maxDistance`, after any sequence of calls
of the public member functions, `ChangeRadius(d)` sets distance to
`clamp(distance + d, minDistance, maxDistance)`, which lies in `[minDistance, maxDistance]`; it
leaves theta, phi, both target positions, the target body and the cached matrix and position
unchanged; and the dirty flag afterwards is set exactly when it was set before or distance
changed. -/
theorem ChangeRadius_clamps {α : Type} [LinearOrderedField α] [FloatMath α] (M : Math α)
    (params : Params α) (hparams : params.minDistance ≤ params.maxDistance)
    (cs : List (Call α)) (d : α) :
    ((calls M (ctor params) cs).ChangeRadius d)._distance
      = std.clamp ((calls M (ctor params) cs)._distance + d) params.minDistance
          params.maxDistance ∧
    (params.minDistance ≤ ((calls M (ctor params) cs).ChangeRadius d)._distance ∧
      ((calls M (ctor params) cs).ChangeRadius d)._distance ≤ params.maxDistance) ∧
    (((calls M (ctor params) cs).ChangeRadius d)._theta = (calls M (ctor params) cs)._theta ∧
      ((calls M (ctor params) cs).ChangeRadius d)._phi = (calls M (ctor params) cs)._phi ∧
      ((calls M (ctor params) cs).ChangeRadius d).m_targetPosition
        = (calls M (ctor params) cs).m_targetPosition ∧
      ((calls M (ctor params) cs).ChangeRadius d).m_lastTargetPosition
        = (calls M (ctor params) cs).m_lastTargetPosition ∧
      ((calls M (ctor params) cs).ChangeRadius d).m_targetBody
        = (calls M (ctor params) cs).m_targetBody ∧
      ((calls M (ctor params) cs).ChangeRadius d)._viewMatrix
        = (calls M (ctor params) cs)._viewMatrix ∧
      ((calls M (ctor params) cs).ChangeRadius d)._position
        = (calls M (ctor params) cs)._position) ∧
    (((calls M (ctor params) cs).ChangeRadius d)._isDirty = true ↔
      ((calls M (ctor params) cs)._isDirty = true ∨
        ((calls M (ctor params) cs).ChangeRadius d)._distance
          ≠ (calls M (ctor params) cs)._distance)) := by
  obtain ⟨hmin, hmax⟩ := calls_bounds M cs (ctor params)
  have hmin2 : (calls M (ctor params) cs)._minDistance = params.minDistance := hmin
  have hmax2 : (calls M (ctor params) cs)._maxDistance = params.maxDistance := hmax
  generalize calls M (ctor params) cs = c at hmin2 hmax2
  have hdist := ChangeRadius_distance c d
  rw [hmin2, hmax2] at hdist
  refine ⟨hdist, ?_, ?_, ?_⟩
  · rw [hdist]
    exact std.clamp_mem _ _ _ hparams
  · unfold ChangeRadius
    simp only []
    split_ifs <;> exact ⟨rfl, rfl, rfl, rfl, rfl, rfl, rfl⟩
  · rw [hdist, ← hmin2, ← hmax2]
    unfold ChangeRadius
    simp only []
    split_ifs with h
    · simp only [true_iff]
      exact Or.inr h
    · simp only [ne_eq, h, not_false_eq_true, not_true_eq_false, or_false]

/-- C20 on the default camera (`minDistance = 1`, `maxDistance = 20`): after `ChangeRadius(-100)`,
`ChangeRadius(100)` sets distance to 20 and the dirty flag is set. -/
theorem ChangeRadius_clamps_witness :
    (({} : Params ℝ).minDistance ≤ ({} : Params ℝ).maxDistance) ∧
    ((calls ⟨⟨0, 1, 0⟩, ⟨1, 0, 0⟩, ⟨0, 0, 1⟩⟩ (ctor ({} : Params ℝ))
        [Call.ChangeRadius (-100)]).ChangeRadius 100)._distance = 20 ∧
    ((calls ⟨⟨0, 1, 0⟩, ⟨1, 0, 0⟩, ⟨0, 0, 1⟩⟩ (ctor ({} : Params ℝ))
        [Call.ChangeRadius (-100)]).ChangeRadius 100)._isDirty = true := by
  have hparams : ({} : Params ℝ).minDistance ≤ ({} : Params ℝ).maxDistance := by
    show (1.0 : ℝ) ≤ 20.0
    norm_num
  have h := ChangeRadius_clamps ⟨⟨0, 1, 0⟩, ⟨1, 0, 0⟩, ⟨0, 0, 1⟩⟩ ({} : Params ℝ) hparams
    [Call.ChangeRadius (-100)] 100
  have hd : (calls ⟨⟨0, 1, 0⟩, ⟨1, 0, 0⟩, ⟨0, 0, 1⟩⟩ (ctor ({} : Params ℝ))
      [Call.ChangeRadius (-100)])._distance = 1 := by
    show ((ctor ({} : Params ℝ)).ChangeRadius (-100))._distance = 1
    rw [ChangeRadius_distance]
    show std.clamp ((5.0 : ℝ) + -100) 1.0 20.0 = 1
    unfold std.clamp
    norm_num
  have h20 : ((calls ⟨⟨0, 1, 0⟩, ⟨1, 0, 0⟩, ⟨0, 0, 1⟩⟩ (ctor ({} : Params ℝ))
      [Call.ChangeRadius (-100)]).ChangeRadius 100)._distance = 20 := by
    rw [h.1, hd]
    show std.clamp ((1 : ℝ) + 100) 1.0 20.0 = 20
    unfold std.clamp
    norm_num
  refine ⟨hparams, h20, h.2.2.2.mpr (Or.inr ?_)⟩
  rw [h20, hd]
  norm_num

end TurnTableCamera

/-! ## Claims about SolarSystem::Update and SolarSystem::Render -/

namespace SolarSystem

section Paused

variable {α : Type} [LinearOrderedField α] [FloatMath α]

theorem Update_paused (s : SolarSystem α) (deltaTime : α) (cursorPosition : Vec2 α)
    (leftButtonDown : Bool) (h : s.mIsAnimating = false) :
    angles (s.Update deltaTime cursorPosition leftButtonDown) = angles s ∧
      (s.Update deltaTime cursorPosition leftButtonDown).mIsAnimating = false := by
  unfold Update
  simp only []
  split_ifs <;> simp_all [angles]

theorem Render_paused (M : Math α) (s : SolarSystem α) (currentTime : α)
    (h : s.mIsAnimating = false) :
    angles (s.Render M currentTime) = angles s ∧
      (s.Render M currentTime).mIsAnimating = false := by
  unfold Render
  simp only []
  split_ifs <;> simp_all [angles]

end Paused

theorem frames_paused {α : Type} [LinearOrderedField α] [FloatMath α] (M : Math α)
    (fs : List (Frame α)) (s : SolarSystem α) (h : s.mIsAnimating = false) :
    angles (frames M s fs) = angles s ∧ (frames M s fs).mIsAnimating = false := by
  induction fs generalizing s with
  | nil => exact ⟨rfl, h⟩
  | cons f fs ih =>
    have hstep : angles (frame M s f) = angles s ∧ (frame M s f).mIsAnimating = false := by
      cases f with
      | Update deltaTime cursorPosition leftButtonDown =>
        exact Update_paused s deltaTime cursorPosition leftButtonDown h
      | Render currentTime => exact Render_paused M s currentTime h
    have hrest := ih (frame M s f) hstep.2
    exact ⟨hrest.1.trans hstep.1, hrest.2⟩

/-- C11: when the animating flag is false, any sequence of `Update` and `Render` calls, with any
arguments, leaves every planet and every moon (so their orbitAngle and rotationAngle), the Sun
rotation angle, the Earth orbit and rotation angles, the Moon orbit and rotation angles and the
cloud rotation angle unchanged. -/
theorem paused_keeps_angles {α : Type} [LinearOrderedField α] [FloatMath α] (M : Math α)
    (s : SolarSystem α) (fs : List (Frame α)) (h : s.mIsAnimating = false) :
    (frames M s fs).mPlanets = s.mPlanets ∧
    (frames M s fs).mMoons = s.mMoons ∧
    (frames M s fs).mSunRotationAngle = s.mSunRotationAngle ∧
    (frames M s fs).mEarthOrbitAngle = s.mEarthOrbitAngle ∧
    (frames M s fs).mEarthRotationAngle = s.mEarthRotationAngle ∧
    (frames M s fs).mMoonOrbitAngle = s.mMoonOrbitAngle ∧
    (frames M s fs).mMoonRotationAngle = s.mMoonRotationAngle ∧
    (frames M s fs).mCloudRotationAngle = s.mCloudRotationAngle := by
  have hall := (frames_paused M fs s h).1
  simp only [angles, Prod.mk.injEq] at hall
  exact hall

/-- C11 on the constructed solar system, paused: two `Update` calls (the second one dragging the
mouse) around a `Render` call change no angle. -/
theorem paused_keeps_angles_witness :
    (frames ⟨⟨0, 1, 0⟩, ⟨1, 0, 0⟩, ⟨0, 0, 1⟩⟩ { (ctor : SolarSystem ℝ) with mIsAnimating := false }
      [Frame.Update 1 ⟨0, 0⟩ false, Frame.Render 2, Frame.Update 3 ⟨4, 5⟩ true]).mPlanets
        = (ctor : SolarSystem ℝ).mPlanets ∧
    (frames ⟨⟨0, 1, 0⟩, ⟨1, 0, 0⟩, ⟨0, 0, 1⟩⟩ { (ctor : SolarSystem ℝ) with mIsAnimating := false }
      [Frame.Update 1 ⟨0, 0⟩ false, Frame.Render 2, Frame.Update 3 ⟨4, 5⟩ true]).mEarthOrbitAngle
        = (ctor : SolarSystem ℝ).mEarthOrbitAngle :=
  have h := paused_keeps_angles ⟨⟨0, 1, 0⟩, ⟨1, 0, 0⟩, ⟨0, 0, 1⟩⟩
    { (ctor : SolarSystem ℝ) with mIsAnimating := false }
    [Frame.Update 1 ⟨0, 0⟩ false, Frame.Render 2, Frame.Update 3 ⟨4, 5⟩ true] rfl
  ⟨h.1, h.2.2.2.1⟩

section Animating

theorem Update_animating {α : Type} [LinearOrderedField α] [FloatMath α] (s : SolarSystem α)
    (deltaTime : α) (cursorPosition : Vec2 α) (leftButtonDown : Bool)
    (h : s.mIsAnimating = true) :
    (s.Update deltaTime cursorPosition leftButtonDown).mPlanets
      = s.mPlanets.map (advanceBody (deltaTime * s.mAnimationSpeed)) ∧
    (s.Update deltaTime cursorPosition leftButtonDown).mMoons
      = s.mMoons.map (fun (moons : List (PlanetData α)) =>
          moons.map (advanceBody (deltaTime * s.mAnimationSpeed))) := by
  unfold Update
  simp only []
  split_ifs <;> simp_all

theorem angularVelocity_real (orbitSpeed e a : ℝ) :
    angularVelocity orbitSpeed e a
      = orbitSpeed * (1 + e * Real.cos a) ^ 2 / (1 - e ^ 2) ^ (1.5 : ℝ) := by
  unfold angularVelocity
  rw [pow_real, pow_real, cos_real, Real.rpow_two]
  norm_num
  ring_nf

theorem advanceBody_real (t : ℝ) (b : PlanetData ℝ) :
    advanceBody t b =
      { orbitAngle := b.orbitAngle + t * b.orbitSpeed *
          (1 + b.eccentricity * Real.cos b.orbitAngle) ^ 2 / (1 - b.eccentricity ^ 2) ^ (1.5 : ℝ),
        rotationAngle := b.rotationAngle + t * b.rotationSpeed,
        orbitRadius := b.orbitRadius,
        size := b.size,
        orbitSpeed := b.orbitSpeed,
        rotationSpeed := b.rotationSpeed,
        axialTilt := b.axialTilt,
        orbitInclination := b.orbitInclination,
        eccentricity := b.eccentricity } := by
  unfold advanceBody
  simp only [angularVelocity_real, PlanetData.mk.injEq, and_true, add_right_inj]
  ring

/-- C12: when animating, one call `Update(deltaTime)` with `t = deltaTime*animationSpeed`
replaces every planet `b` and every moon `b` of every planet by the body whose orbitAngle is
`b.orbitAngle + t*orbitSpeed*(1 + e*cos(b.orbitAngle))^2 / (1 - e^2)^1.5`, whose rotationAngle is
`b.rotationAngle + t*rotationSpeed` and whose other seven fields are those of `b`; the number of
planets, of moon lists and of moons in each list is unchanged. Stated in exact real
arithmetic. -/
theorem Update_advances_bodies (s : SolarSystem ℝ) (deltaTime : ℝ) (cursorPosition : Vec2 ℝ)
    (leftButtonDown : Bool) (h : s.mIsAnimating = true) :
    (∀ (i : Nat) (b : PlanetData ℝ), s.mPlanets[i]? = some b →
      (s.Update deltaTime cursorPosition leftButtonDown).mPlanets[i]? = some
        { orbitAngle := b.orbitAngle + (deltaTime * s.mAnimationSpeed) * b.orbitSpeed *
            (1 + b.eccentricity * Real.cos b.orbitAngle) ^ 2 / (1 - b.eccentricity ^ 2) ^ (1.5 : ℝ),
          rotationAngle := b.rotationAngle + (deltaTime * s.mAnimationSpeed) * b.rotationSpeed,
          orbitRadius := b.orbitRadius,
          size := b.size,
          orbitSpeed := b.orbitSpeed,
          rotationSpeed := b.rotationSpeed,
          axialTilt := b.axialTilt,
          orbitInclination := b.orbitInclination,
          eccentricity := b.eccentricity }) ∧
    (∀ (i j : Nat) (moons : List (PlanetData ℝ)) (b : PlanetData ℝ),
      s.mMoons[i]? = some moons → moons[j]? = some b →
      ∃ moons' : List (PlanetData ℝ),
        (s.Update deltaTime cursorPosition leftButtonDown).mMoons[i]? = some moons' ∧
        moons'.length = moons.length ∧
        moons'[j]? = some
          { orbitAngle := b.orbitAngle + (deltaTime * s.mAnimationSpeed) * b.orbitSpeed *
              (1 + b.eccentricity * Real.cos b.orbitAngle) ^ 2 / (1 - b.eccentricity ^ 2) ^ (1.5 : ℝ),
            rotationAngle := b.rotationAngle + (deltaTime * s.mAnimationSpeed) * b.rotationSpeed,
            orbitRadius := b.orbitRadius,
            size := b.size,
            orbitSpeed := b.orbitSpeed,
            rotationSpeed := b.rotationSpeed,
            axialTilt := b.axialTilt,
            orbitInclination := b.orbitInclination,
            eccentricity := b.eccentricity }) ∧
    (s.Update deltaTime cursorPosition leftButtonDown).mPlanets.length = s.mPlanets.length ∧
    (s.Update deltaTime cursorPosition leftButtonDown).mMoons.length = s.mMoons.length := by
  obtain ⟨hp, hm⟩ := Update_animating s deltaTime cursorPosition leftButtonDown h
  refine ⟨?_, ?_, ?_, ?_⟩
  · intro i b hb
    rw [hp, List.getElem?_map, hb, Option.map_some', advanceBody_real]
  · intro i j moons b hmoons hb
    refine ⟨moons.map (advanceBody (deltaTime * s.mAnimationSpeed)), ?_, ?_, ?_⟩
    · rw [hm, List.getElem?_map, hmoons, Option.map_some']
    · exact List.length_map _ _
    · rw [List.getElem?_map, hb, Option.map_some', advanceBody_real]
  · rw [hp, List.length_map]
  · rw [hm, List.length_map]

/-- C12 on a system of one planet (`orbitSpeed = 1`, `rotationSpeed = 2`, `e = 0`) with one moon
(`orbitSpeed = 3`, `rotationSpeed = 4`, `e = 0`), animating at speed 1: `Update(2)` moves the
planet to orbitAngle 2 and rotationAngle 4 and the moon to orbitAngle 6 and rotationAngle 8. -/
theorem Update_advances_bodies_witness :
    (({ mPlanets := [⟨0, 0, 5, 1, 1, 2, 0, 0, 0⟩], mMoons := [[⟨0, 0, 1, 1, 3, 4, 0, 0, 0⟩]] } :
      SolarSystem ℝ).Update 2 ⟨0, 0⟩ false).mPlanets[0]? = some ⟨2, 4, 5, 1, 1, 2, 0, 0, 0⟩ ∧
    (∃ moons' : List (PlanetData ℝ),
      (({ mPlanets := [⟨0, 0, 5, 1, 1, 2, 0, 0, 0⟩], mMoons := [[⟨0, 0, 1, 1, 3, 4, 0, 0, 0⟩]] } :
        SolarSystem ℝ).Update 2 ⟨0, 0⟩ false).mMoons[0]? = some moons' ∧
      moons'.length = 1 ∧ moons'[0]? = some ⟨6, 8, 1, 1, 3, 4, 0, 0, 0⟩) := by
  have h := Update_advances_bodies
    ({ mPlanets := [⟨0, 0, 5, 1, 1, 2, 0, 0, 0⟩], mMoons := [[⟨0, 0, 1, 1, 3, 4, 0, 0, 0⟩]] } :
      SolarSystem ℝ) 2 ⟨0, 0⟩ false rfl
  constructor
  · have h1 := h.1 0 ⟨0, 0, 5, 1, 1, 2, 0, 0, 0⟩ rfl
    rw [h1]
    norm_num
  · obtain ⟨moons', hm, hlen, hj⟩ := h.2.1 0 0 [⟨0, 0, 1, 1, 3, 4, 0, 0, 0⟩]
      ⟨0, 0, 1, 1, 3, 4, 0, 0, 0⟩ rfl rfl
    refine ⟨moons', hm, hlen, ?_⟩
    rw [hj]
    norm_num

/-- C13: in exact real arithmetic, when animating with `deltaTime > 0` and `animationSpeed > 0`,
one call of `Update` makes the orbitAngle of every planet and of every moon that has
eccentricity 0 and `orbitSpeed > 0` strictly greater than it was before the call. -/
theorem Update_orbitAngle_increases (s : SolarSystem ℝ) (deltaTime : ℝ)
    (cursorPosition : Vec2 ℝ) (leftButtonDown : Bool) (h : s.mIsAnimating = true)
    (hdt : 0 < deltaTime) (hspeed : 0 < s.mAnimationSpeed) :
    (∀ (i : Nat) (b : PlanetData ℝ), s.mPlanets[i]? = some b →
      b.eccentricity = 0 → 0 < b.orbitSpeed →
      ∃ b' : PlanetData ℝ,
        (s.Update deltaTime cursorPosition leftButtonDown).mPlanets[i]? = some b' ∧
        b.orbitAngle < b'.orbitAngle) ∧
    (∀ (i j : Nat) (moons : List (PlanetData ℝ)) (b : PlanetData ℝ),
      s.mMoons[i]? = some moons → moons[j]? = some b →
      b.eccentricity = 0 → 0 < b.orbitSpeed →
      ∃ (moons' : List (PlanetData ℝ)) (b' : PlanetData ℝ),
        (s.Update deltaTime cursorPosition leftButtonDown).mMoons[i]? = some moons' ∧
        moons'[j]? = some b' ∧ b.orbitAngle < b'.orbitAngle) := by
  obtain ⟨hp, hm⟩ := Update_animating s deltaTime cursorPosition leftButtonDown h
  have hstep : ∀ b : PlanetData ℝ, b.eccentricity = 0 → 0 < b.orbitSpeed →
      b.orbitAngle < (advanceBody (deltaTime * s.mAnimationSpeed) b).orbitAngle := by
    intro b he hs
    rw [advanceBody_real]
    simp only [he]
    norm_num
    positivity
  constructor
  · intro i b hb he hs
    refine ⟨advanceBody (deltaTime * s.mAnimationSpeed) b, ?_, hstep b he hs⟩
    rw [hp, List.getElem?_map, hb, Option.map_some']
  · intro i j moons b hmoons hb he hs
    refine ⟨moons.map (advanceBody (deltaTime * s.mAnimationSpeed)),
      advanceBody (deltaTime * s.mAnimationSpeed) b, ?_, ?_, hstep b he hs⟩
    · rw [hm, List.getElem?_map, hmoons, Option.map_some']
    · rw [List.getElem?_map, hb, Option.map_some']

/-- C13 on a system of one planet with `e = 0` and `orbitSpeed = 1`, animating at speed 1:
`Update(2)` moves its orbitAngle from 0 to a strictly larger value. -/
theorem Update_orbitAngle_increases_witness :
    ∃ b' : PlanetData ℝ,
      (({ mPlanets := [⟨0, 0, 5, 1, 1, 2, 0, 0, 0⟩] } : SolarSystem ℝ).Update 2 ⟨0, 0⟩
        false).mPlanets[0]? = some b' ∧
      (0 : ℝ) < b'.orbitAngle :=
  (Update_orbitAngle_increases ({ mPlanets := [⟨0, 0, 5, 1, 1, 2, 0, 0, 0⟩] } : SolarSystem ℝ)
    2 ⟨0, 0⟩ false rfl (by norm_num) (by show (0 : ℝ) < 1.0; norm_num)).1 0
    ⟨0, 0, 5, 1, 1, 2, 0, 0, 0⟩ rfl rfl (by norm_num)

theorem angularVelocity_denominator_pos (e : ℝ) (h0 : -1 < e) (h1 : e < 1) :
    0 < (1 - e ^ 2) ^ (1.5 : ℝ) := by
  apply Real.rpow_pos_of_pos
  nlinarith

/-- C14: in exact real arithmetic, the angular velocity that `Update` evaluates is
`w(a) = orbitSpeed*(1 + e*cos(a))^2 / (1 - e^2)^1.5`; for `e = 0`, `w(a) = orbitSpeed` for every
orbit angle `a`; and for `0 < e < 1` and `orbitSpeed > 0`, `w(0) > w(pi)`. -/
theorem angularVelocity_periapsis_apoapsis :
    (∀ orbitSpeed e a : ℝ, angularVelocity orbitSpeed e a
      = orbitSpeed * (1 + e * Real.cos a) ^ 2 / (1 - e ^ 2) ^ (1.5 : ℝ)) ∧
    (∀ orbitSpeed a : ℝ, angularVelocity orbitSpeed 0 a = orbitSpeed) ∧
    (∀ orbitSpeed e : ℝ, 0 < e → e < 1 → 0 < orbitSpeed →
      angularVelocity orbitSpeed e Real.pi < angularVelocity orbitSpeed e 0) := by
  refine ⟨angularVelocity_real, ?_, ?_⟩
  · intro orbitSpeed a
    rw [angularVelocity_real]
    norm_num
  · intro orbitSpeed e he0 he1 hs
    rw [angularVelocity_real, angularVelocity_real, Real.cos_pi, Real.cos_zero]
    apply div_lt_div_of_pos_right _ (angularVelocity_denominator_pos e (by linarith) he1)
    nlinarith [mul_pos hs he0]

/-- C14 at `orbitSpeed = 1`, `e = 1/2`: the angular velocity at angle 0 exceeds the one at
angle pi. -/
theorem angularVelocity_periapsis_apoapsis_witness :
    angularVelocity (1 : ℝ) (1 / 2) Real.pi < angularVelocity (1 : ℝ) (1 / 2) 0 :=
  angularVelocity_periapsis_apoapsis.2.2 1 (1 / 2) (by norm_num) (by norm_num) (by norm_num)

end Animating

section Eccentricity

end Eccentricity

end SolarSystem

/-! ## Rotations and translations of a general matrix in exact real arithmetic -/

namespace glm

theorem normalize_Z_real : glm.normalize (⟨0.0, 0.0, 1.0⟩ : Vec3 ℝ) = ⟨0, 0, 1⟩ := by
  norm_num [glm.normalize, sqrt_real]

theorem rotate_Y_real (m : Mat4 ℝ) (angle : ℝ) :
    glm.rotate m angle ⟨0.0, 1.0, 0.0⟩
      = ⟨Vec4.add (Vec4.scale m.c0 (Real.cos angle)) (Vec4.scale m.c2 (-Real.sin angle)), m.c1,
          Vec4.add (Vec4.scale m.c0 (Real.sin angle)) (Vec4.scale m.c2 (Real.cos angle)),
          m.c3⟩ := by
  simp [glm.rotate, normalize_Y_real, Vec4.add, Vec4.scale, cos_real, sin_real]

theorem rotate_Z_real (m : Mat4 ℝ) (angle : ℝ) :
    glm.rotate m angle ⟨0.0, 0.0, 1.0⟩
      = ⟨Vec4.add (Vec4.scale m.c0 (Real.cos angle)) (Vec4.scale m.c1 (Real.sin angle)),
          Vec4.add (Vec4.scale m.c0 (-Real.sin angle)) (Vec4.scale m.c1 (Real.cos angle)),
          m.c2, m.c3⟩ := by
  simp [glm.rotate, normalize_Z_real, Vec4.add, Vec4.scale, cos_real, sin_real]

theorem translate_X_real (m : Mat4 ℝ) (d : ℝ) :
    glm.translate m ⟨d, 0.0, 0.0⟩ = ⟨m.c0, m.c1, m.c2, Vec4.add (Vec4.scale m.c0 d) m.c3⟩ := by
  norm_num [glm.translate, Vec4.add, Vec4.scale]

theorem mulVec_origin_real (m : Mat4 ℝ) : glm.mulVec m ⟨0.0, 0.0, 0.0, 1.0⟩ = m.c3 := by
  norm_num [glm.mulVec, Vec4.add, Vec4.scale]

end glm

/-! ## Claims about the transforms of SolarSystem::Render -/

namespace SolarSystem

theorem orbitTransform_real (orbitInclination semiMajorAxis eccentricity orbitAngle : ℝ) :
    orbitTransform orbitInclination semiMajorAxis eccentricity orbitAngle
      = glm.translate
          (glm.rotate (glm.rotate glm.mat4_one (glm.radians orbitInclination) ⟨0.0, 0.0, 1.0⟩)
            orbitAngle ⟨0.0, 1.0, 0.0⟩)
          ⟨semiMajorAxis * (1 - eccentricity ^ 2) / (1 + eccentricity * Real.cos orbitAngle),
            0.0, 0.0⟩ := by
  unfold orbitTransform
  simp only [cos_real]
  norm_num
  ring_nf

theorem orbitPosition_real (orbitInclination semiMajorAxis eccentricity orbitAngle : ℝ) :
    orbitPosition orbitInclination semiMajorAxis eccentricity orbitAngle
      = ⟨semiMajorAxis * (1 - eccentricity ^ 2) / (1 + eccentricity * Real.cos orbitAngle)
            * (Real.cos (orbitInclination * (Real.pi / 180)) * Real.cos orbitAngle),
          semiMajorAxis * (1 - eccentricity ^ 2) / (1 + eccentricity * Real.cos orbitAngle)
            * (Real.sin (orbitInclination * (Real.pi / 180)) * Real.cos orbitAngle),
          -(semiMajorAxis * (1 - eccentricity ^ 2) / (1 + eccentricity * Real.cos orbitAngle)
            * Real.sin orbitAngle)⟩ := by
  unfold orbitPosition
  rw [glm.mulVec_origin_real, orbitTransform_real, glm.translate_X_real, glm.rotate_Y_real,
    glm.rotate_Z_real]
  simp only [glm.vec3, glm.Vec4.add, glm.Vec4.scale, glm.mat4_one, glm.radians, pi_real,
    Vec3.mk.injEq]
  refine ⟨?_, ?_, ?_⟩ <;> ring

theorem orbitTransform_product_real (orbitInclination semiMajorAxis eccentricity orbitAngle : ℝ) :
    orbitTransform orbitInclination semiMajorAxis eccentricity orbitAngle
      = glm.mul
          (glm.mul (glm.rotate glm.mat4_one (glm.radians orbitInclination) ⟨0.0, 0.0, 1.0⟩)
            (glm.rotate glm.mat4_one orbitAngle ⟨0.0, 1.0, 0.0⟩))
          (glm.translate glm.mat4_one
            ⟨semiMajorAxis * (1 - eccentricity ^ 2) / (1 + eccentricity * Real.cos orbitAngle),
              0.0, 0.0⟩) := by
  rw [orbitTransform_real, glm.translate_X_real, glm.translate_X_real, glm.rotate_Y_real,
    glm.rotate_Y_real, glm.rotate_Z_real]
  simp only [glm.mul, glm.Vec4.add, glm.Vec4.scale, glm.mat4_one, Mat4.mk.injEq, Vec4.mk.injEq]
  norm_num

theorem orbitPosition_circular_real (r a : ℝ) :
    orbitPosition 0 r 0 a = ⟨r * Real.cos a, 0, -(r * Real.sin a)⟩ := by
  rw [orbitPosition_real]
  norm_num

/-- C16: in exact real arithmetic, for a planet with orbit radius 5, eccentricity 0, orbitSpeed 1
and zero orbit inclination, one animating `Update` whose scaled time step
`deltaTime*animationSpeed` is pi advances orbitAngle by exactly pi and keeps radius,
eccentricity and inclination; the world position `Rz(inclination)*Ry(orbitAngle)*T(distance,0,0)`
applied to the origin, as `Render` computes it for the EARTH target, is `(5,0,0)` at orbitAngle 0
and `(-5,0,0)` at orbitAngle pi, so the planet moves from the one to the other when it starts at
angle 0; and for eccentricity 0 and zero inclination it is `(r*cos(a), 0, -r*sin(a))` for every
orbit radius `r` and orbit angle `a`. -/
theorem orbit_end_to_end (s : SolarSystem ℝ) (deltaTime : ℝ) (cursorPosition : Vec2 ℝ)
    (leftButtonDown : Bool) (h : s.mIsAnimating = true)
    (ht : deltaTime * s.mAnimationSpeed = Real.pi) (i : Nat) (b : PlanetData ℝ)
    (hb : s.mPlanets[i]? = some b) (hr : b.orbitRadius = 5) (he : b.eccentricity = 0)
    (hs : b.orbitSpeed = 1) (hi : b.orbitInclination = 0) :
    (∃ b' : PlanetData ℝ,
      (s.Update deltaTime cursorPosition leftButtonDown).mPlanets[i]? = some b' ∧
      b'.orbitAngle = b.orbitAngle + Real.pi ∧
      b'.orbitRadius = 5 ∧ b'.eccentricity = 0 ∧ b'.orbitInclination = 0 ∧
      (b.orbitAngle = 0 →
        orbitPosition b.orbitInclination b.orbitRadius b.eccentricity b.orbitAngle
          = ⟨5, 0, 0⟩ ∧
        orbitPosition b'.orbitInclination b'.orbitRadius b'.eccentricity b'.orbitAngle
          = ⟨-5, 0, 0⟩)) ∧
    orbitPosition (0 : ℝ) 5 0 0 = ⟨5, 0, 0⟩ ∧
    orbitPosition (0 : ℝ) 5 0 Real.pi = ⟨-5, 0, 0⟩ ∧
    (∀ r a : ℝ, orbitPosition 0 r 0 a = ⟨r * Real.cos a, 0, -(r * Real.sin a)⟩) ∧
    (∀ inclination r e a : ℝ, orbitPosition inclination r e a
      = glm.vec3 (glm.mulVec
          (glm.mul
            (glm.mul (glm.rotate glm.mat4_one (glm.radians inclination) ⟨0.0, 0.0, 1.0⟩)
              (glm.rotate glm.mat4_one a ⟨0.0, 1.0, 0.0⟩))
            (glm.translate glm.mat4_one ⟨r * (1 - e ^ 2) / (1 + e * Real.cos a), 0.0, 0.0⟩))
          ⟨0.0, 0.0, 0.0, 1.0⟩)) ∧
    (∀ s' : SolarSystem ℝ, targetPos s' TurnTableCamera.TargetBody.EARTH
      = some (orbitPosition s'.mEarthOrbitInclination s'.mEarthOrbitSemiMajorAxis
          s'.mEarthOrbitEccentricity s'.mEarthOrbitAngle)) := by
  have h0 : orbitPosition (0 : ℝ) 5 0 0 = ⟨5, 0, 0⟩ := by
    rw [orbitPosition_circular_real]
    norm_num
  have hpi : orbitPosition (0 : ℝ) 5 0 Real.pi = ⟨-5, 0, 0⟩ := by
    rw [orbitPosition_circular_real]
    norm_num
  refine ⟨⟨advanceBody (deltaTime * s.mAnimationSpeed) b, ?_, ?_, hr, he, hi, ?_⟩, h0, hpi,
    orbitPosition_circular_real, ?_, fun _ => rfl⟩
  · rw [(Update_animating s deltaTime cursorPosition leftButtonDown h).1, List.getElem?_map, hb,
      Option.map_some']
  · rw [advanceBody_real, ht]
    simp only [he, hs]
    norm_num
  · intro ha
    have hangle : (advanceBody (deltaTime * s.mAnimationSpeed) b).orbitAngle = Real.pi := by
      rw [advanceBody_real, ht]
      simp only [he, hs, ha]
      norm_num
    have hfields : (advanceBody (deltaTime * s.mAnimationSpeed) b).orbitInclination = 0 ∧
        (advanceBody (deltaTime * s.mAnimationSpeed) b).orbitRadius = 5 ∧
        (advanceBody (deltaTime * s.mAnimationSpeed) b).eccentricity = 0 := ⟨hi, hr, he⟩
    rw [hangle, hfields.1, hfields.2.1, hfields.2.2, hi, hr, he, ha]
    exact ⟨h0, hpi⟩
  · intro inclination r e a
    unfold orbitPosition
    rw [orbitTransform_product_real]

/-- C16 on a system of one planet (radius 5, `e = 0`, `orbitSpeed = 1`, inclination 0, angle 0),
animating at speed 1: `Update(pi)` moves it to orbitAngle pi, where its world position is
`(-5, 0, 0)`. -/
theorem orbit_end_to_end_witness :
    ∃ b' : PlanetData ℝ,
      (({ mPlanets := [⟨0, 0, 5, 1, 1, 2, 0, 0, 0⟩] } : SolarSystem ℝ).Update Real.pi ⟨0, 0⟩
        false).mPlanets[0]? = some b' ∧
      b'.orbitAngle = 0 + Real.pi ∧
      orbitPosition b'.orbitInclination b'.orbitRadius b'.eccentricity b'.orbitAngle
        = ⟨-5, 0, 0⟩ := by
  obtain ⟨b', hb', hangle, _, _, _, hpos⟩ :=
    (orbit_end_to_end ({ mPlanets := [⟨0, 0, 5, 1, 1, 2, 0, 0, 0⟩] } : SolarSystem ℝ) Real.pi
      ⟨0, 0⟩ false rfl (by show Real.pi * (1.0 : ℝ) = Real.pi; norm_num) 0
      ⟨0, 0, 5, 1, 1, 2, 0, 0, 0⟩ rfl rfl rfl rfl rfl).1
  exact ⟨b', hb', hangle, (hpos rfl).2⟩

theorem moonDistance_real (s : SolarSystem ℝ) :
    moonDistance s = s.mMoonOrbitSemiMajorAxis * (1 - s.mMoonOrbitEccentricity ^ 2) /
      (1 + s.mMoonOrbitEccentricity * Real.cos s.mMoonOrbitAngle) := by
  unfold moonDistance
  simp only [cos_real]
  norm_num
  ring_nf

theorem earthOrbitModel_real (s : SolarSystem ℝ) :
    earthOrbitModel s
      = glm.mul
          (glm.mul (glm.rotate glm.mat4_one (glm.radians s.mEarthOrbitInclination) ⟨0.0, 0.0, 1.0⟩)
            (glm.rotate glm.mat4_one s.mEarthOrbitAngle ⟨0.0, 1.0, 0.0⟩))
          (glm.translate glm.mat4_one
            ⟨s.mEarthOrbitSemiMajorAxis * (1 - s.mEarthOrbitEccentricity ^ 2) /
              (1 + s.mEarthOrbitEccentricity * Real.cos s.mEarthOrbitAngle), 0.0, 0.0⟩) := by
  unfold earthOrbitModel
  exact orbitTransform_product_real _ _ _ _

theorem earthDistance_real (s : SolarSystem ℝ) :
    earthDistance s = s.mEarthOrbitSemiMajorAxis * (1 - s.mEarthOrbitEccentricity ^ 2) /
      (1 + s.mEarthOrbitEccentricity * Real.cos s.mEarthOrbitAngle) := by
  unfold earthDistance
  simp only [cos_real]
  norm_num
  ring_nf

theorem earthOrbitModel_columns_real (s : SolarSystem ℝ) :
    earthOrbitModel s
      = ⟨⟨Real.cos (glm.radians s.mEarthOrbitInclination) * Real.cos s.mEarthOrbitAngle,
            Real.sin (glm.radians s.mEarthOrbitInclination) * Real.cos s.mEarthOrbitAngle,
            -Real.sin s.mEarthOrbitAngle, 0⟩,
          ⟨-Real.sin (glm.radians s.mEarthOrbitInclination),
            Real.cos (glm.radians s.mEarthOrbitInclination), 0, 0⟩,
          ⟨Real.cos (glm.radians s.mEarthOrbitInclination) * Real.sin s.mEarthOrbitAngle,
            Real.sin (glm.radians s.mEarthOrbitInclination) * Real.sin s.mEarthOrbitAngle,
            Real.cos s.mEarthOrbitAngle, 0⟩,
          ⟨earthDistance s *
              (Real.cos (glm.radians s.mEarthOrbitInclination) * Real.cos s.mEarthOrbitAngle),
            earthDistance s *
              (Real.sin (glm.radians s.mEarthOrbitInclination) * Real.cos s.mEarthOrbitAngle),
            -(earthDistance s * Real.sin s.mEarthOrbitAngle), 1⟩⟩ := by
  rw [earthDistance_real]
  unfold earthOrbitModel
  rw [orbitTransform_real, glm.translate_X_real, glm.rotate_Y_real, glm.rotate_Z_real]
  simp only [glm.Vec4.add, glm.Vec4.scale, glm.mat4_one, Mat4.mk.injEq, Vec4.mk.injEq]
  norm_num
  refine ⟨?_, ?_, ?_⟩ <;> ring

theorem targetPos_EARTH_real (s : SolarSystem ℝ) :
    targetPos s TurnTableCamera.TargetBody.EARTH
      = some ⟨earthDistance s *
            (Real.cos (glm.radians s.mEarthOrbitInclination) * Real.cos s.mEarthOrbitAngle),
          earthDistance s *
            (Real.sin (glm.radians s.mEarthOrbitInclination) * Real.cos s.mEarthOrbitAngle),
          -(earthDistance s * Real.sin s.mEarthOrbitAngle)⟩ := by
  simp only [targetPos, glm.mulVec_origin_real, earthOrbitModel_columns_real, glm.vec3]

theorem targetPos_MOON_real (s : SolarSystem ℝ) :
    targetPos s TurnTableCamera.TargetBody.MOON
      = some ⟨earthDistance s *
              (Real.cos (glm.radians s.mEarthOrbitInclination) * Real.cos s.mEarthOrbitAngle) +
            moonDistance s * (Real.cos (glm.radians s.mEarthOrbitInclination) *
              (Real.cos s.mEarthOrbitAngle * Real.cos s.mMoonOrbitAngle -
                Real.sin s.mEarthOrbitAngle * Real.sin s.mMoonOrbitAngle)),
          earthDistance s *
              (Real.sin (glm.radians s.mEarthOrbitInclination) * Real.cos s.mEarthOrbitAngle) +
            moonDistance s * (Real.sin (glm.radians s.mEarthOrbitInclination) *
              (Real.cos s.mEarthOrbitAngle * Real.cos s.mMoonOrbitAngle -
                Real.sin s.mEarthOrbitAngle * Real.sin s.mMoonOrbitAngle)),
          -(earthDistance s * Real.sin s.mEarthOrbitAngle) -
            moonDistance s * (Real.sin s.mEarthOrbitAngle * Real.cos s.mMoonOrbitAngle +
              Real.cos s.mEarthOrbitAngle * Real.sin s.mMoonOrbitAngle)⟩ := by
  simp only [targetPos, glm.mulVec_origin_real, glm.translate_X_real, glm.rotate_Y_real,
    earthOrbitModel_columns_real, glm.vec3, glm.Vec4.add, glm.Vec4.scale, Option.some.injEq,
    Vec3.mk.injEq]
  refine ⟨?_, ?_, ?_⟩ <;> ring

theorem moonDistance_nonneg (s : SolarSystem ℝ) (he0 : 0 ≤ s.mMoonOrbitEccentricity)
    (he1 : s.mMoonOrbitEccentricity < 1) (ha : 0 ≤ s.mMoonOrbitSemiMajorAxis) :
    0 ≤ moonDistance s := by
  rw [moonDistance_real]
  have hcos := Real.neg_one_le_cos s.mMoonOrbitAngle
  have hden : 0 < 1 + s.mMoonOrbitEccentricity * Real.cos s.mMoonOrbitAngle := by nlinarith
  have hnum : 0 ≤ s.mMoonOrbitSemiMajorAxis * (1 - s.mMoonOrbitEccentricity ^ 2) := by
    apply mul_nonneg ha
    nlinarith
  exact div_nonneg hnum (le_of_lt hden)

theorem moonModel_origin_real (s : SolarSystem ℝ) :
    some (glm.vec3 (glm.mulVec (moonModel s) ⟨0.0, 0.0, 0.0, 1.0⟩))
      = targetPos s TurnTableCamera.TargetBody.MOON := by
  simp only [targetPos, moonModel, glm.mulVec_origin_real, glm.rotate_Y_real,
    glm.rotate_Z_real]

theorem earthModel_origin_real (s : SolarSystem ℝ) :
    some (glm.vec3 (glm.mulVec (earthModel s) ⟨0.0, 0.0, 0.0, 1.0⟩))
      = targetPos s TurnTableCamera.TargetBody.EARTH := by
  simp only [targetPos, earthModel, glm.mulVec_origin_real, glm.rotate_Y_real,
    glm.rotate_Z_real, glm.mul, glm.mat4_one, glm.vec3, glm.Vec4.add, glm.Vec4.scale,
    Option.some.injEq, Vec3.mk.injEq]
  norm_num

theorem moonModel_product_real (s : SolarSystem ℝ) :
    moonModel s
      = glm.mul (glm.mul (glm.mul (glm.mul (earthOrbitModel s)
            (glm.rotate glm.mat4_one s.mMoonOrbitAngle ⟨0.0, 1.0, 0.0⟩))
            (glm.translate glm.mat4_one ⟨moonDistance s, 0.0, 0.0⟩))
            (glm.rotate glm.mat4_one (glm.radians s.mMoonAxialTilt) ⟨0.0, 0.0, 1.0⟩))
          (glm.rotate glm.mat4_one s.mMoonRotationAngle ⟨0.0, 1.0, 0.0⟩) := by
  simp only [moonModel, glm.rotate_Y_real, glm.rotate_Z_real, glm.translate_X_real, glm.mul,
    glm.mulVec, glm.mat4_one, glm.Vec4.add, glm.Vec4.scale, Mat4.mk.injEq, Vec4.mk.injEq]
  norm_num

/-- C17: in exact real arithmetic, with `P = Rz(earthInclination)*Ry(earthOrbitAngle)*
T(earthDistance,0,0)` the Earth's orbital transform, the model matrix that `Render` draws the
Moon with is `P*Ry(moonOrbitAngle)*T(moonDistance,0,0)*Rz(moonAxialTilt)*Ry(moonRotationAngle)`,
where `moonDistance = a_m*(1 - e_m^2)/(1 + e_m*cos(moonOrbitAngle))`; the Moon's world position
(that matrix applied to the origin, which is also the MOON target of the camera) is `P` applied
to the point `Ry(moonOrbitAngle)*(moonDistance,0,0)`; and for `0 <= e_m < 1` and `a_m >= 0` the
distance between the Moon's and the Earth's world positions (the model matrices applied to the
origin, and likewise the MOON and EARTH targets) equals `moonDistance`, whatever the Earth's
parameters are. -/
theorem moon_relative_to_earth (s : SolarSystem ℝ) :
    moonModel s
      = glm.mul (glm.mul (glm.mul (glm.mul (earthOrbitModel s)
            (glm.rotate glm.mat4_one s.mMoonOrbitAngle ⟨0.0, 1.0, 0.0⟩))
            (glm.translate glm.mat4_one ⟨moonDistance s, 0.0, 0.0⟩))
            (glm.rotate glm.mat4_one (glm.radians s.mMoonAxialTilt) ⟨0.0, 0.0, 1.0⟩))
          (glm.rotate glm.mat4_one s.mMoonRotationAngle ⟨0.0, 1.0, 0.0⟩) ∧
    earthOrbitModel s
      = glm.mul
          (glm.mul (glm.rotate glm.mat4_one (glm.radians s.mEarthOrbitInclination) ⟨0.0, 0.0, 1.0⟩)
            (glm.rotate glm.mat4_one s.mEarthOrbitAngle ⟨0.0, 1.0, 0.0⟩))
          (glm.translate glm.mat4_one
            ⟨s.mEarthOrbitSemiMajorAxis * (1 - s.mEarthOrbitEccentricity ^ 2) /
              (1 + s.mEarthOrbitEccentricity * Real.cos s.mEarthOrbitAngle), 0.0, 0.0⟩) ∧
    moonDistance s = s.mMoonOrbitSemiMajorAxis * (1 - s.mMoonOrbitEccentricity ^ 2) /
      (1 + s.mMoonOrbitEccentricity * Real.cos s.mMoonOrbitAngle) ∧
    glm.vec3 (glm.mulVec (moonModel s) ⟨0.0, 0.0, 0.0, 1.0⟩)
      = glm.vec3 (glm.mulVec (earthOrbitModel s)
          (glm.mulVec (glm.rotate glm.mat4_one s.mMoonOrbitAngle ⟨0.0, 1.0, 0.0⟩)
            ⟨moonDistance s, 0, 0, 1⟩)) ∧
    targetPos s TurnTableCamera.TargetBody.MOON
      = some (glm.vec3 (glm.mulVec (earthOrbitModel s)
          (glm.mulVec (glm.rotate glm.mat4_one s.mMoonOrbitAngle ⟨0.0, 1.0, 0.0⟩)
            ⟨moonDistance s, 0, 0, 1⟩))) ∧
    (0 ≤ s.mMoonOrbitEccentricity → s.mMoonOrbitEccentricity < 1 →
      0 ≤ s.mMoonOrbitSemiMajorAxis →
      glm.length (glm.sub3 (glm.vec3 (glm.mulVec (moonModel s) ⟨0.0, 0.0, 0.0, 1.0⟩))
          (glm.vec3 (glm.mulVec (earthModel s) ⟨0.0, 0.0, 0.0, 1.0⟩)))
        = moonDistance s ∧
      ∀ pm pe : Vec3 ℝ, targetPos s TurnTableCamera.TargetBody.MOON = some pm →
        targetPos s TurnTableCamera.TargetBody.EARTH = some pe →
        glm.length (glm.sub3 pm pe) = moonDistance s) := by
  have htarget : targetPos s TurnTableCamera.TargetBody.MOON
      = some (glm.vec3 (glm.mulVec (earthOrbitModel s)
          (glm.mulVec (glm.rotate glm.mat4_one s.mMoonOrbitAngle ⟨0.0, 1.0, 0.0⟩)
            ⟨moonDistance s, 0, 0, 1⟩))) := by
    rw [targetPos_MOON_real, glm.rotate_Y_real, earthOrbitModel_columns_real]
    simp only [glm.mulVec, glm.vec3, glm.Vec4.add, glm.Vec4.scale, glm.mat4_one,
      Option.some.injEq, Vec3.mk.injEq]
    refine ⟨?_, ?_, ?_⟩ <;> ring
  have hdist : 0 ≤ s.mMoonOrbitEccentricity → s.mMoonOrbitEccentricity < 1 →
      0 ≤ s.mMoonOrbitSemiMajorAxis →
      ∀ pm pe : Vec3 ℝ, targetPos s TurnTableCamera.TargetBody.MOON = some pm →
        targetPos s TurnTableCamera.TargetBody.EARTH = some pe →
        glm.length (glm.sub3 pm pe) = moonDistance s := by
    intro he0 he1 ha pm pe hpm hpe
    rw [targetPos_MOON_real] at hpm
    rw [targetPos_EARTH_real] at hpe
    have hpm2 := Option.some.inj hpm
    have hpe2 := Option.some.inj hpe
    subst hpm2
    subst hpe2
    have hd := moonDistance_nonneg s he0 he1 ha
    have hi := Real.cos_sq_add_sin_sq (glm.radians s.mEarthOrbitInclination)
    have hea := Real.cos_sq_add_sin_sq s.mEarthOrbitAngle
    have hm := Real.cos_sq_add_sin_sq s.mMoonOrbitAngle
    simp only [glm.length, glm.sub3, sqrt_real]
    have hsq : ∀ (dE dM ci si ca sa cm sm : ℝ), ci ^ 2 + si ^ 2 = 1 → ca ^ 2 + sa ^ 2 = 1 →
        cm ^ 2 + sm ^ 2 = 1 →
        (dE * (ci * ca) + dM * (ci * (ca * cm - sa * sm)) - dE * (ci * ca)) *
            (dE * (ci * ca) + dM * (ci * (ca * cm - sa * sm)) - dE * (ci * ca)) +
          (dE * (si * ca) + dM * (si * (ca * cm - sa * sm)) - dE * (si * ca)) *
            (dE * (si * ca) + dM * (si * (ca * cm - sa * sm)) - dE * (si * ca)) +
          (-(dE * sa) - dM * (sa * cm + ca * sm) - -(dE * sa)) *
            (-(dE * sa) - dM * (sa * cm + ca * sm) - -(dE * sa)) = dM ^ 2 := by
      intro dE dM ci si ca sa cm sm h1 h2 h3
      linear_combination (dM ^ 2 * (ca * cm - sa * sm) ^ 2) * h1 +
        (dM ^ 2 * (cm ^ 2 + sm ^ 2)) * h2 + dM ^ 2 * h3
    rw [hsq _ _ _ _ _ _ _ _ hi hea hm]
    exact Real.sqrt_sq hd
  refine ⟨moonModel_product_real s, earthOrbitModel_real s, moonDistance_real s, ?_, htarget, ?_⟩
  · have h := (moonModel_origin_real s).trans htarget
    exact Option.some.inj h
  · intro he0 he1 ha
    exact ⟨hdist he0 he1 ha _ _ (moonModel_origin_real s).symm (earthModel_origin_real s).symm,
      hdist he0 he1 ha⟩

/-- C17 on the default members (`a_m = 1.5`, `e_m = 0`): the Moon's and the Earth's world
positions, taken from the model matrices that `Render` draws them with, are 1.5 apart. -/
theorem moon_relative_to_earth_witness :
    glm.length (glm.sub3
        (glm.vec3 (glm.mulVec (moonModel ({} : SolarSystem ℝ)) ⟨0.0, 0.0, 0.0, 1.0⟩))
        (glm.vec3 (glm.mulVec (earthModel ({} : SolarSystem ℝ)) ⟨0.0, 0.0, 0.0, 1.0⟩)))
      = 1.5 := by
  have hd : moonDistance ({} : SolarSystem ℝ) = 1.5 := by
    rw [moonDistance_real]
    show (1.5 : ℝ) * (1 - (0.0 : ℝ) ^ 2) / (1 + (0.0 : ℝ) * Real.cos (0.0 : ℝ)) = 1.5
    norm_num
  exact ((moon_relative_to_earth ({} : SolarSystem ℝ)).2.2.2.2.2
    (by show (0 : ℝ) ≤ 0.0; norm_num) (by show (0.0 : ℝ) < 1; norm_num)
    (by show (0 : ℝ) ≤ 1.5; norm_num)).1.trans hd

/-- C18: in exact real arithmetic, for every value of the members, the camera-follow target that
`Render` computes for `TargetBody::EARTH` is the Earth's model matrix applied to the origin
`(0,0,0,1)`, and the one it computes for `TargetBody::MOON` is the Moon's model matrix applied to
the origin: the axial-tilt and spin factors do not move the body's centre. -/
theorem target_is_model_origin (s : SolarSystem ℝ) :
    targetPos s TurnTableCamera.TargetBody.EARTH
      = some (glm.vec3 (glm.mulVec (earthModel s) ⟨0.0, 0.0, 0.0, 1.0⟩)) ∧
    targetPos s TurnTableCamera.TargetBody.MOON
      = some (glm.vec3 (glm.mulVec (moonModel s) ⟨0.0, 0.0, 0.0, 1.0⟩)) := by
  constructor
  · simp only [targetPos, earthModel, glm.mulVec_origin_real, glm.rotate_Y_real,
      glm.rotate_Z_real, glm.mul, glm.mat4_one, glm.vec3, glm.Vec4.add, glm.Vec4.scale,
      Option.some.injEq, Vec3.mk.injEq]
    norm_num
  · simp only [targetPos, moonModel, glm.mulVec_origin_real, glm.rotate_Y_real,
      glm.rotate_Z_real]

section FrameAdvance

end FrameAdvance

end SolarSystem

/-! ## Rounded `float` addition -/

theorem Binary32.log_eq (x : ℚ) (e : ℤ) (h0 : 0 < x) (h1 : (2 : ℚ) ^ e ≤ x)
    (h2 : x < (2 : ℚ) ^ (e + 1)) : Int.log 2 x = e := by
  apply le_antisymm
  · have h := (Int.lt_zpow_iff_log_lt (b := 2) (by norm_num) h0).mp (by exact_mod_cast h2)
    omega
  · exact (Int.zpow_le_iff_le_log (b := 2) (by norm_num) h0).mp (by exact_mod_cast h1)

theorem Binary32.round_down (x : ℚ) (e f : ℤ) (h0 : 0 < x) (h1 : (2 : ℚ) ^ e ≤ x)
    (h2 : x < (2 : ℚ) ^ (e + 1)) (hf : (f : ℚ) ≤ x / 2 ^ (e - 23))
    (hr : x / 2 ^ (e - 23) - f < 1 / 2) :
    Binary32.round x = f * 2 ^ (e - 23) := by
  have hlog : Int.log 2 |x| = e := by
    rw [abs_of_pos h0]
    exact Binary32.log_eq x e h0 h1 h2
  have hfloor : ⌊x / 2 ^ (e - 23)⌋ = f := by
    rw [Int.floor_eq_iff]
    constructor
    · exact hf
    · linarith
  unfold Binary32.round
  simp only [hlog, hfloor]
  rw [if_pos hr]

theorem Binary32.round_five : Binary32.round 5 = 5 := by
  rw [Binary32.round_down 5 2 10485760] <;> norm_num

theorem Binary32.round_five_absorbs : Binary32.round (1 / 1073741824 + 5) = 5 := by
  rw [Binary32.round_down (1 / 1073741824 + 5) 2 10485760] <;> norm_num

theorem Binary32.round_small : Binary32.round (1 / 1073741824) = 1 / 1073741824 := by
  rw [Binary32.round_down (1 / 1073741824) (-30) 8388608] <;> norm_num

theorem Binary32.round_zero : Binary32.round 0 = 0 := by
  simp [Binary32.round]

theorem Binary32.round_tenth :
    Binary32.round (13421773 / 134217728) = 13421773 / 134217728 := by
  rw [Binary32.round_down (13421773 / 134217728) (-4) 13421773] <;> norm_num

theorem Binary32.round_five_tenth :
    Binary32.round (13421773 / 134217728 + 5) = 10695475 / 2097152 := by
  rw [Binary32.round_down (13421773 / 134217728 + 5) 2 10695475] <;> norm_num

/-! ## TurnTableCamera: the dirty-flag cache -/

namespace TurnTableCamera

section Cache

variable {α : Type} [LinearOrderedField α] [FloatMath α]

theorem UpdateViewMatrix_dirty (M : Math α) (c : TurnTableCamera α) (h : c._isDirty = true) :
    UpdateViewMatrix M c
      = { c with
          _isDirty := false
          _position := computedPosition M c
          _viewMatrix := computedViewMatrix M c } := by
  unfold UpdateViewMatrix
  rw [if_pos (by rw [h]; rfl)]
  rfl

theorem UpdateViewMatrix_clean (M : Math α) (c : TurnTableCamera α) (h : c._isDirty = false) :
    UpdateViewMatrix M c = c := by
  unfold UpdateViewMatrix
  rw [if_neg (by rw [h]; decide)]

theorem UpdateViewMatrix_isDirty (M : Math α) (c : TurnTableCamera α) :
    (UpdateViewMatrix M c)._isDirty = false := by
  cases h : c._isDirty with
  | false => rw [UpdateViewMatrix_clean M c h]; exact h
  | true => rw [UpdateViewMatrix_dirty M c h]

theorem CacheValid_UpdateViewMatrix (M : Math α) (c : TurnTableCamera α)
    (h : CacheValid M c) : CacheValid M (UpdateViewMatrix M c) := by
  cases hd : c._isDirty with
  | false => rw [UpdateViewMatrix_clean M c hd]; exact h
  | true =>
    rw [UpdateViewMatrix_dirty M c hd]
    intro _
    exact ⟨rfl, rfl⟩

theorem CacheValid_call (M : Math α) (c : TurnTableCamera α) (k : Call α)
    (h : CacheValid M c) : CacheValid M (call M c k) := by
  cases k with
  | ChangeTheta d =>
    unfold call ChangeTheta
    simp only []
    split_ifs
    · intro hd
      exact Bool.noConfusion (show (true : Bool) = false from hd)
    · exact h
  | ChangePhi d =>
    unfold call ChangePhi
    simp only []
    split_ifs
    · intro hd
      exact Bool.noConfusion (show (true : Bool) = false from hd)
    · exact h
  | ChangeRadius d =>
    unfold call ChangeRadius
    simp only []
    split_ifs
    · intro hd
      exact Bool.noConfusion (show (true : Bool) = false from hd)
    · exact h
  | SetTargetBody b => exact h
  | SetTargetPosition p =>
    intro hd
    exact Bool.noConfusion (show (true : Bool) = false from hd)
  | UpdateTargetPosition p =>
    unfold call UpdateTargetPosition
    split_ifs
    · intro hd
      exact Bool.noConfusion (show (true : Bool) = false from hd)
    · exact h
  | ViewMatrix => exact CacheValid_UpdateViewMatrix M c h
  | Position => exact CacheValid_UpdateViewMatrix M c h

theorem CacheValid_calls (M : Math α) (cs : List (Call α)) (c : TurnTableCamera α)
    (h : CacheValid M c) : CacheValid M (calls M c cs) := by
  induction cs generalizing c with
  | nil => exact h
  | cons k cs ih => exact ih (call M c k) (CacheValid_call M c k h)

theorem CacheValid_ctor (M : Math α) (params : Params α) : CacheValid M (ctor params) := by
  intro hd
  exact Bool.noConfusion (show (true : Bool) = false from hd)

theorem computed_UpdateViewMatrix (M : Math α) (c : TurnTableCamera α) :
    computedViewMatrix M (UpdateViewMatrix M c) = computedViewMatrix M c ∧
      computedPosition M (UpdateViewMatrix M c) = computedPosition M c := by
  cases hd : c._isDirty with
  | false => rw [UpdateViewMatrix_clean M c hd]; exact ⟨rfl, rfl⟩
  | true => rw [UpdateViewMatrix_dirty M c hd]; exact ⟨rfl, rfl⟩

/-- C22: for every camera reachable from construction (any `Params`) by any sequence of calls of
the public member functions, the cache is not stale (when the dirty flag is false, the stored
view matrix and position are the values computed from the current members); `ViewMatrix()`
returns the look-at matrix computed from the current distance, theta, phi and last target
position and leaves these members unchanged; and a second `ViewMatrix()` call right after it
returns the identical matrix and leaves the whole camera unchanged. -/
theorem ViewMatrix_cache_correct {α : Type} [LinearOrderedField α] [FloatMath α] (M : Math α)
    (params : Params α) (cs : List (Call α)) :
    ((calls M (ctor params) cs)._isDirty = false →
      (calls M (ctor params) cs)._viewMatrix = computedViewMatrix M (calls M (ctor params) cs) ∧
      (calls M (ctor params) cs)._position = computedPosition M (calls M (ctor params) cs)) ∧
    ((calls M (ctor params) cs).ViewMatrix M).2
      = glm.lookAt (computedPosition M (calls M (ctor params) cs))
          (calls M (ctor params) cs).m_lastTargetPosition M.UpVec3 ∧
    (((calls M (ctor params) cs).ViewMatrix M).1._distance = (calls M (ctor params) cs)._distance ∧
      ((calls M (ctor params) cs).ViewMatrix M).1._theta = (calls M (ctor params) cs)._theta ∧
      ((calls M (ctor params) cs).ViewMatrix M).1._phi = (calls M (ctor params) cs)._phi ∧
      ((calls M (ctor params) cs).ViewMatrix M).1.m_lastTargetPosition
        = (calls M (ctor params) cs).m_lastTargetPosition) ∧
    ((((calls M (ctor params) cs).ViewMatrix M).1.ViewMatrix M).2
        = ((calls M (ctor params) cs).ViewMatrix M).2 ∧
      (((calls M (ctor params) cs).ViewMatrix M).1.ViewMatrix M).1
        = ((calls M (ctor params) cs).ViewMatrix M).1) := by
  have hvalid := CacheValid_calls M cs (ctor params) (CacheValid_ctor M params)
  generalize calls M (ctor params) cs = c at hvalid
  have hclean := UpdateViewMatrix_isDirty M c
  have hvalid' := CacheValid_UpdateViewMatrix M c hvalid hclean
  have hfields := UpdateViewMatrix_fields M c
  refine ⟨hvalid, ?_, ⟨hfields.2.2.1, hfields.2.1, hfields.1, hfields.2.2.2.2.2.2.2⟩, ?_⟩
  · show (UpdateViewMatrix M c)._viewMatrix = computedViewMatrix M c
    rw [hvalid'.1, (computed_UpdateViewMatrix M c).1]
  · show (UpdateViewMatrix M (UpdateViewMatrix M c))._viewMatrix
        = (UpdateViewMatrix M c)._viewMatrix ∧
      UpdateViewMatrix M (UpdateViewMatrix M c) = UpdateViewMatrix M c
    rw [UpdateViewMatrix_clean M _ hclean]
    exact ⟨rfl, rfl⟩

/-- C22 on the default camera after one `ViewMatrix()` call: the dirty flag is false and the
stored matrix is the one computed from the current members. -/
theorem ViewMatrix_cache_correct_witness :
    (calls ⟨⟨0, 1, 0⟩, ⟨1, 0, 0⟩, ⟨0, 0, 1⟩⟩ (ctor ({} : Params ℝ)) [Call.ViewMatrix])._isDirty
      = false ∧
    (calls ⟨⟨0, 1, 0⟩, ⟨1, 0, 0⟩, ⟨0, 0, 1⟩⟩ (ctor ({} : Params ℝ)) [Call.ViewMatrix])._viewMatrix
      = computedViewMatrix ⟨⟨0, 1, 0⟩, ⟨1, 0, 0⟩, ⟨0, 0, 1⟩⟩
          (calls ⟨⟨0, 1, 0⟩, ⟨1, 0, 0⟩, ⟨0, 0, 1⟩⟩ (ctor ({} : Params ℝ)) [Call.ViewMatrix]) :=
  ⟨rfl, ((ViewMatrix_cache_correct (⟨⟨0, 1, 0⟩, ⟨1, 0, 0⟩, ⟨0, 0, 1⟩⟩ : Math ℝ) {}
    [Call.ViewMatrix]).1 rfl).1⟩

/-- C23: `UpdateTargetPosition(p)` leaves the entire camera unchanged when the target body is
`NONE`; for any other target body it sets `m_lastTargetPosition`, the anchor that the view
computation reads, to `p` and sets the dirty flag, leaving every other member (distance, theta,
phi, the target body, the distance bounds, `m_targetPosition` and the cached matrix and position)
unchanged, so that the next `Position()` query returns the position computed around `p`. -/
theorem UpdateTargetPosition_effect {α : Type} [LinearOrderedField α] [FloatMath α] (M : Math α)
    (c : TurnTableCamera α) (p : Vec3 α) :
    (c.m_targetBody = TargetBody.NONE → c.UpdateTargetPosition p = c) ∧
    (c.m_targetBody ≠ TargetBody.NONE →
      c.UpdateTargetPosition p = { c with m_lastTargetPosition := p, _isDirty := true } ∧
      (c.UpdateTargetPosition p).m_lastTargetPosition = p ∧
      (c.UpdateTargetPosition p)._isDirty = true ∧
      (c.UpdateTargetPosition p)._distance = c._distance ∧
      (c.UpdateTargetPosition p)._theta = c._theta ∧
      (c.UpdateTargetPosition p)._phi = c._phi ∧
      (c.UpdateTargetPosition p).m_targetBody = c.m_targetBody ∧
      ((c.UpdateTargetPosition p).Position M).2
        = computedPosition M { c with m_lastTargetPosition := p }) := by
  constructor
  · intro h
    unfold UpdateTargetPosition
    rw [if_neg (not_not.mpr h)]
  · intro h
    have heq : c.UpdateTargetPosition p = { c with m_lastTargetPosition := p, _isDirty := true } := by
      unfold UpdateTargetPosition
      rw [if_pos h]
    refine ⟨heq, ?_, ?_, ?_, ?_, ?_, ?_, ?_⟩
    · rw [heq]
    · rw [heq]
    · rw [heq]
    · rw [heq]
    · rw [heq]
    · rw [heq]
    · show (UpdateViewMatrix M (c.UpdateTargetPosition p))._position = _
      rw [heq, UpdateViewMatrix_dirty M _ rfl]
      rfl

/-- C23 on the default camera: with the target body `NONE`, `UpdateTargetPosition((1, 2, 3))`
changes nothing; after `SetTargetBody(EARTH)` it sets the anchor to `(1, 2, 3)` and the dirty
flag. -/
theorem UpdateTargetPosition_effect_witness :
    (ctor_default : TurnTableCamera ℝ).UpdateTargetPosition ⟨1, 2, 3⟩ = ctor_default ∧
    (((ctor_default : TurnTableCamera ℝ).SetTargetBody TargetBody.EARTH).UpdateTargetPosition
        ⟨1, 2, 3⟩).m_lastTargetPosition = ⟨1, 2, 3⟩ ∧
    (((ctor_default : TurnTableCamera ℝ).SetTargetBody TargetBody.EARTH).UpdateTargetPosition
        ⟨1, 2, 3⟩)._isDirty = true :=
  ⟨(UpdateTargetPosition_effect (⟨⟨0, 1, 0⟩, ⟨1, 0, 0⟩, ⟨0, 0, 1⟩⟩ : Math ℝ) ctor_default
      ⟨1, 2, 3⟩).1 rfl,
    ((UpdateTargetPosition_effect (⟨⟨0, 1, 0⟩, ⟨1, 0, 0⟩, ⟨0, 0, 1⟩⟩ : Math ℝ)
      ((ctor_default : TurnTableCamera ℝ).SetTargetBody TargetBody.EARTH) ⟨1, 2, 3⟩).2
      (by decide)).2.1,
    ((UpdateTargetPosition_effect (⟨⟨0, 1, 0⟩, ⟨1, 0, 0⟩, ⟨0, 0, 1⟩⟩ : Math ℝ)
      ((ctor_default : TurnTableCamera ℝ).SetTargetBody TargetBody.EARTH) ⟨1, 2, 3⟩).2
      (by decide)).2.2.1⟩

theorem call_isDirty (M : Math α) (c : TurnTableCamera α) (k : Call α)
    (hk : k.isMutator = true) :
    (call M c k)._isDirty = (c._isDirty || setsDirty c k) := by
  cases k with
  | ChangeTheta d =>
    unfold call ChangeTheta setsDirty
    simp only []
    split_ifs with h
    · rw [decide_eq_true h, Bool.or_true]
    · rw [decide_eq_false h, Bool.or_false]
  | ChangePhi d =>
    unfold call ChangePhi setsDirty
    simp only []
    split_ifs with h
    · rw [decide_eq_true h, Bool.or_true]
    · rw [decide_eq_false h, Bool.or_false]
  | ChangeRadius d =>
    unfold call ChangeRadius setsDirty
    simp only []
    split_ifs with h
    · rw [decide_eq_true h, Bool.or_true]
    · rw [decide_eq_false h, Bool.or_false]
  | SetTargetBody b => simp [call, SetTargetBody, setsDirty]
  | SetTargetPosition p => simp [call, SetTargetPosition, setsDirty]
  | UpdateTargetPosition p =>
    unfold call UpdateTargetPosition setsDirty
    split_ifs with h
    · rw [decide_eq_true h, Bool.or_true]
    · rw [decide_eq_false h, Bool.or_false]
  | ViewMatrix => exact Bool.noConfusion hk
  | Position => exact Bool.noConfusion hk

theorem call_clean_fields (M : Math α) (c : TurnTableCamera α) (k : Call α)
    (hk : k.isMutator = true) (hclean : (call M c k)._isDirty = false) :
    (call M c k)._distance = c._distance ∧ (call M c k)._theta = c._theta ∧
      (call M c k)._phi = c._phi ∧ (call M c k).m_targetPosition = c.m_targetPosition ∧
      (call M c k).m_lastTargetPosition = c.m_lastTargetPosition := by
  cases k with
  | ChangeTheta d =>
    revert hclean
    unfold call ChangeTheta
    simp only []
    split_ifs with h
    · intro hd; exact False.elim hd
    · intro _; exact ⟨rfl, rfl, rfl, rfl, rfl⟩
  | ChangePhi d =>
    revert hclean
    unfold call ChangePhi
    simp only []
    split_ifs with h
    · intro hd; exact False.elim hd
    · intro _; exact ⟨rfl, rfl, rfl, rfl, rfl⟩
  | ChangeRadius d =>
    revert hclean
    unfold call ChangeRadius
    simp only []
    split_ifs with h
    · intro hd; exact False.elim hd
    · intro _; exact ⟨rfl, rfl, rfl, rfl, rfl⟩
  | SetTargetBody b => exact ⟨rfl, rfl, rfl, rfl, rfl⟩
  | SetTargetPosition p => exact Bool.noConfusion (show (true : Bool) = false from hclean)
  | UpdateTargetPosition p =>
    revert hclean
    unfold call UpdateTargetPosition
    split_ifs with h
    · intro hd; exact False.elim hd
    · intro _; exact ⟨rfl, rfl, rfl, rfl, rfl⟩
  | ViewMatrix => exact Bool.noConfusion hk
  | Position => exact Bool.noConfusion hk

theorem calls_isDirty (M : Math α) (ms : List (Call α)) (c : TurnTableCamera α)
    (hms : ∀ k ∈ ms, k.isMutator = true) :
    (calls M c ms)._isDirty = true ↔
      c._isDirty = true ∨
        ∃ pre k post, ms = pre ++ k :: post ∧ setsDirty (calls M c pre) k = true := by
  induction ms generalizing c with
  | nil =>
    constructor
    · intro h; exact Or.inl h
    · rintro (h | ⟨pre, k, post, h, _⟩)
      · exact h
      · exact absurd h (by simp)
  | cons m ms ih =>
    have hm : m.isMutator = true := hms m (List.mem_cons_self _ _)
    have hrest : ∀ k ∈ ms, k.isMutator = true := fun k hk => hms k (List.mem_cons_of_mem _ hk)
    show (calls M (call M c m) ms)._isDirty = true ↔ _
    rw [ih (call M c m) hrest, call_isDirty M c m hm, Bool.or_eq_true]
    constructor
    · rintro ((h | h) | ⟨pre, k, post, h, hs⟩)
      · exact Or.inl h
      · exact Or.inr ⟨[], m, ms, rfl, h⟩
      · exact Or.inr ⟨m :: pre, k, post, by rw [h]; rfl, hs⟩
    · rintro (h | ⟨pre, k, post, h, hs⟩)
      · exact Or.inl (Or.inl h)
      · cases pre with
        | nil =>
          have h1 : m = k := (List.cons.inj h).1
          rw [h1]
          exact Or.inl (Or.inr hs)
        | cons p pre =>
          have h1 : m = p := (List.cons.inj h).1
          have h2 : ms = pre ++ k :: post := (List.cons.inj h).2
          rw [h1]
          exact Or.inr ⟨pre, k, post, h2, hs⟩

theorem calls_clean_fields (M : Math α) (ms : List (Call α)) (c : TurnTableCamera α)
    (hms : ∀ k ∈ ms, k.isMutator = true) (hclean : (calls M c ms)._isDirty = false) :
    (calls M c ms)._distance = c._distance ∧ (calls M c ms)._theta = c._theta ∧
      (calls M c ms)._phi = c._phi ∧ (calls M c ms).m_targetPosition = c.m_targetPosition ∧
      (calls M c ms).m_lastTargetPosition = c.m_lastTargetPosition := by
  induction ms generalizing c with
  | nil => exact ⟨rfl, rfl, rfl, rfl, rfl⟩
  | cons m ms ih =>
    have hm : m.isMutator = true := hms m (List.mem_cons_self _ _)
    have hrest : ∀ k ∈ ms, k.isMutator = true := fun k hk => hms k (List.mem_cons_of_mem _ hk)
    have hclean' : (calls M (call M c m) ms)._isDirty = false := hclean
    have h1 := ih (call M c m) hrest hclean'
    have hmid : (call M c m)._isDirty = false := by
      cases hd : (call M c m)._isDirty with
      | false => rfl
      | true =>
        have := (calls_isDirty M ms (call M c m) hrest).mpr (Or.inl hd)
        rw [hclean'] at this
        exact Bool.noConfusion this
    have h2 := call_clean_fields M c m hm hmid
    show (calls M (call M c m) ms)._distance = _ ∧ (calls M (call M c m) ms)._theta = _ ∧
      (calls M (call M c m) ms)._phi = _ ∧ (calls M (call M c m) ms).m_targetPosition = _ ∧
      (calls M (call M c m) ms).m_lastTargetPosition = _
    exact ⟨h1.1.trans h2.1, h1.2.1.trans h2.2.1, h1.2.2.1.trans h2.2.2.1,
      h1.2.2.2.1.trans h2.2.2.2.1, h1.2.2.2.2.trans h2.2.2.2.2⟩

/-- C21, as stated, fails in the "only if" direction. On the default camera, after a first
`ViewMatrix()` query (which leaves the dirty flag false), the calls `ChangeTheta(1)`,
`ChangeTheta(-1)` leave distance, theta, phi and both target positions at the values they had at
the query, and yet the next query recomputes; the same holds for the calls
`SetTargetBody(SUN)`, `UpdateTargetPosition((0, 0, 0))`, which is what `Render` does on every
frame while the camera follows the Sun. -/
theorem recompute_without_change :
    ((ctor_default : TurnTableCamera ℝ).ViewMatrix ⟨⟨0, 1, 0⟩, ⟨1, 0, 0⟩, ⟨0, 0, 1⟩⟩).1._isDirty
      = false ∧
    (Recomputes (calls ⟨⟨0, 1, 0⟩, ⟨1, 0, 0⟩, ⟨0, 0, 1⟩⟩
        ((ctor_default : TurnTableCamera ℝ).ViewMatrix ⟨⟨0, 1, 0⟩, ⟨1, 0, 0⟩, ⟨0, 0, 1⟩⟩).1
        [Call.ChangeTheta 1, Call.ChangeTheta (-1)]) ∧
      (calls ⟨⟨0, 1, 0⟩, ⟨1, 0, 0⟩, ⟨0, 0, 1⟩⟩
        ((ctor_default : TurnTableCamera ℝ).ViewMatrix ⟨⟨0, 1, 0⟩, ⟨1, 0, 0⟩, ⟨0, 0, 1⟩⟩).1
        [Call.ChangeTheta 1, Call.ChangeTheta (-1)])
        = { ((ctor_default : TurnTableCamera ℝ).ViewMatrix
              ⟨⟨0, 1, 0⟩, ⟨1, 0, 0⟩, ⟨0, 0, 1⟩⟩).1 with _isDirty := true }) ∧
    (Recomputes (calls ⟨⟨0, 1, 0⟩, ⟨1, 0, 0⟩, ⟨0, 0, 1⟩⟩
        ((ctor_default : TurnTableCamera ℝ).ViewMatrix ⟨⟨0, 1, 0⟩, ⟨1, 0, 0⟩, ⟨0, 0, 1⟩⟩).1
        [Call.SetTargetBody TargetBody.SUN, Call.UpdateTargetPosition ⟨0.0, 0.0, 0.0⟩]) ∧
      (calls ⟨⟨0, 1, 0⟩, ⟨1, 0, 0⟩, ⟨0, 0, 1⟩⟩
        ((ctor_default : TurnTableCamera ℝ).ViewMatrix ⟨⟨0, 1, 0⟩, ⟨1, 0, 0⟩, ⟨0, 0, 1⟩⟩).1
        [Call.SetTargetBody TargetBody.SUN, Call.UpdateTargetPosition ⟨0.0, 0.0, 0.0⟩])
        = { ((ctor_default : TurnTableCamera ℝ).ViewMatrix
              ⟨⟨0, 1, 0⟩, ⟨1, 0, 0⟩, ⟨0, 0, 1⟩⟩).1 with
            _isDirty := true, m_targetBody := TargetBody.SUN }) := by
  have hcam := UpdateViewMatrix_dirty (⟨⟨0, 1, 0⟩, ⟨1, 0, 0⟩, ⟨0, 0, 1⟩⟩ : Math ℝ) ctor_default rfl
  have hview : ((ctor_default : TurnTableCamera ℝ).ViewMatrix ⟨⟨0, 1, 0⟩, ⟨1, 0, 0⟩, ⟨0, 0, 1⟩⟩).1
      = UpdateViewMatrix ⟨⟨0, 1, 0⟩, ⟨1, 0, 0⟩, ⟨0, 0, 1⟩⟩ ctor_default := rfl
  rw [hview, hcam]
  refine ⟨rfl, ⟨?_, ?_⟩, ⟨rfl, rfl⟩⟩
  · simp [Recomputes, calls, call, ChangeTheta, ctor_default, ctor]
  · simp [calls, call, ChangeTheta, ctor_default, ctor]

/-- C21 amended: the camera keeps a dirty flag, not the values of the last query. `Position()`
and `ViewMatrix()` leave the same camera, with the dirty flag false. After any sequence `ms` of
mutator calls (`ChangeTheta`, `ChangePhi`, `ChangeRadius`, `SetTargetBody`, `SetTargetPosition`,
`UpdateTargetPosition`) issued after a query, the next query recomputes the view matrix if and
only if at least one call of `ms` executed `_isDirty = true`, that is, was a `ChangeTheta`,
`ChangePhi` or `ChangeRadius` whose new value differed from the value at that moment, a
`SetTargetPosition`, or an `UpdateTargetPosition` made while the target body was not `NONE`. If
any of distance, theta, phi, `m_targetPosition` or `m_lastTargetPosition` differs from its value
at the first query, the next query recomputes. A query that recomputes stores and returns the
matrix computed from the current members and clears the flag; one that does not returns the
stored matrix and leaves the camera unchanged. -/
theorem recompute_iff_dirtying_call {α : Type} [LinearOrderedField α] [FloatMath α] (M : Math α)
    (c0 : TurnTableCamera α) (ms : List (Call α)) (hms : ∀ k ∈ ms, Call.isMutator k = true) :
    ((c0.Position M).1 = (c0.ViewMatrix M).1 ∧ ¬ Recomputes (c0.ViewMatrix M).1) ∧
    (Recomputes (calls M (c0.ViewMatrix M).1 ms) ↔
      ∃ pre k post, ms = pre ++ k :: post ∧
        setsDirty (calls M (c0.ViewMatrix M).1 pre) k = true) ∧
    (((calls M (c0.ViewMatrix M).1 ms)._distance ≠ (c0.ViewMatrix M).1._distance ∨
        (calls M (c0.ViewMatrix M).1 ms)._theta ≠ (c0.ViewMatrix M).1._theta ∨
        (calls M (c0.ViewMatrix M).1 ms)._phi ≠ (c0.ViewMatrix M).1._phi ∨
        (calls M (c0.ViewMatrix M).1 ms).m_targetPosition
          ≠ (c0.ViewMatrix M).1.m_targetPosition ∨
        (calls M (c0.ViewMatrix M).1 ms).m_lastTargetPosition
          ≠ (c0.ViewMatrix M).1.m_lastTargetPosition) →
      Recomputes (calls M (c0.ViewMatrix M).1 ms)) ∧
    (Recomputes (calls M (c0.ViewMatrix M).1 ms) →
      (calls M (c0.ViewMatrix M).1 ms).ViewMatrix M
        = ({ calls M (c0.ViewMatrix M).1 ms with
              _isDirty := false
              _position := computedPosition M (calls M (c0.ViewMatrix M).1 ms)
              _viewMatrix := computedViewMatrix M (calls M (c0.ViewMatrix M).1 ms) },
            computedViewMatrix M (calls M (c0.ViewMatrix M).1 ms))) ∧
    (¬ Recomputes (calls M (c0.ViewMatrix M).1 ms) →
      (calls M (c0.ViewMatrix M).1 ms).ViewMatrix M
        = (calls M (c0.ViewMatrix M).1 ms, (calls M (c0.ViewMatrix M).1 ms)._viewMatrix)) := by
  have hclean : (c0.ViewMatrix M).1._isDirty = false := UpdateViewMatrix_isDirty M c0
  have hfirst : (c0.Position M).1 = (c0.ViewMatrix M).1 ∧ ¬ Recomputes (c0.ViewMatrix M).1 := by
    refine ⟨rfl, ?_⟩
    show ¬ (c0.ViewMatrix M).1._isDirty = true
    rw [hclean]
    exact Bool.false_ne_true
  refine ⟨hfirst, ?_⟩
  generalize (c0.ViewMatrix M).1 = c1 at hclean
  have hiff := calls_isDirty M ms c1 hms
  refine ⟨?_, ?_, ?_, ?_⟩
  · show (calls M c1 ms)._isDirty = true ↔ _
    rw [hiff, hclean]
    constructor
    · rintro (h | h)
      · exact Bool.noConfusion h
      · exact h
    · exact Or.inr
  · intro hne
    show (calls M c1 ms)._isDirty = true
    cases hd : (calls M c1 ms)._isDirty with
    | true => rfl
    | false =>
      exfalso
      have hf := calls_clean_fields M ms c1 hms hd
      rcases hne with h | h | h | h | h
      · exact h hf.1
      · exact h hf.2.1
      · exact h hf.2.2.1
      · exact h hf.2.2.2.1
      · exact h hf.2.2.2.2
  · intro hr
    show (UpdateViewMatrix M (calls M c1 ms), (UpdateViewMatrix M (calls M c1 ms))._viewMatrix) = _
    rw [UpdateViewMatrix_dirty M _ hr]
  · intro hr
    have hd : (calls M c1 ms)._isDirty = false := by
      cases hd : (calls M c1 ms)._isDirty with
      | true => exact absurd hd hr
      | false => rfl
    show (UpdateViewMatrix M (calls M c1 ms), (UpdateViewMatrix M (calls M c1 ms))._viewMatrix) = _
    rw [UpdateViewMatrix_clean M _ hd]

/-- C21 amended, on the default camera after a first query: `SetTargetBody(EARTH)` followed by
`UpdateTargetPosition((1, 0, 0))` are mutators, and the next query recomputes exactly when one
of them executed `_isDirty = true`. -/
theorem recompute_iff_dirtying_call_witness :
    (∀ k ∈ [Call.SetTargetBody TargetBody.EARTH, Call.UpdateTargetPosition (⟨1, 0, 0⟩ : Vec3 ℝ)],
      Call.isMutator k = true) ∧
    (Recomputes (calls ⟨⟨0, 1, 0⟩, ⟨1, 0, 0⟩, ⟨0, 0, 1⟩⟩
        ((ctor_default : TurnTableCamera ℝ).ViewMatrix ⟨⟨0, 1, 0⟩, ⟨1, 0, 0⟩, ⟨0, 0, 1⟩⟩).1
        [Call.SetTargetBody TargetBody.EARTH, Call.UpdateTargetPosition ⟨1, 0, 0⟩]) ↔
      ∃ pre k post,
        [Call.SetTargetBody TargetBody.EARTH, Call.UpdateTargetPosition (⟨1, 0, 0⟩ : Vec3 ℝ)]
          = pre ++ k :: post ∧
        setsDirty (calls ⟨⟨0, 1, 0⟩, ⟨1, 0, 0⟩, ⟨0, 0, 1⟩⟩
          ((ctor_default : TurnTableCamera ℝ).ViewMatrix
            ⟨⟨0, 1, 0⟩, ⟨1, 0, 0⟩, ⟨0, 0, 1⟩⟩).1 pre) k = true) :=
  ⟨by simp [Call.isMutator],
    (recompute_iff_dirtying_call ⟨⟨0, 1, 0⟩, ⟨1, 0, 0⟩, ⟨0, 0, 1⟩⟩ ctor_default
      [Call.SetTargetBody TargetBody.EARTH, Call.UpdateTargetPosition ⟨1, 0, 0⟩]
      (by simp [Call.isMutator])).2.1⟩

theorem Position_of_CacheValid {α : Type} [LinearOrderedField α] [FloatMath α] (M : Math α)
    (c : TurnTableCamera α) (h : CacheValid M c) :
    (c.Position M).2 = computedPosition M c := by
  show (UpdateViewMatrix M c)._position = _
  cases hd : c._isDirty with
  | false =>
    rw [UpdateViewMatrix_clean M c hd]
    exact (h hd).2
  | true => rw [UpdateViewMatrix_dirty M c hd]

theorem Position_default_following (L : Vec3 ℝ) :
    ((calls ⟨⟨0.0, 1.0, 0.0⟩, ⟨1.0, 0.0, 0.0⟩, ⟨0.0, 0.0, 1.0⟩⟩ (ctor ({} : Params ℝ))
        [Call.SetTargetBody TargetBody.EARTH, Call.UpdateTargetPosition L]).Position
        ⟨⟨0.0, 1.0, 0.0⟩, ⟨1.0, 0.0, 0.0⟩, ⟨0.0, 0.0, 1.0⟩⟩).2
      = glm.add3 L ⟨0, 0, 5⟩ := by
  have h := UpdateViewMatrix_dirty
    (⟨⟨0.0, 1.0, 0.0⟩, ⟨1.0, 0.0, 0.0⟩, ⟨0.0, 0.0, 1.0⟩⟩ : Math ℝ)
    (calls ⟨⟨0.0, 1.0, 0.0⟩, ⟨1.0, 0.0, 0.0⟩, ⟨0.0, 0.0, 1.0⟩⟩ (ctor ({} : Params ℝ))
      [Call.SetTargetBody TargetBody.EARTH, Call.UpdateTargetPosition L]) rfl
  have hstate : calls (⟨⟨0.0, 1.0, 0.0⟩, ⟨1.0, 0.0, 0.0⟩, ⟨0.0, 0.0, 1.0⟩⟩ : Math ℝ)
      (ctor ({} : Params ℝ)) [Call.SetTargetBody TargetBody.EARTH, Call.UpdateTargetPosition L]
      = { ctor ({} : Params ℝ) with
          m_targetBody := TargetBody.EARTH, m_lastTargetPosition := L } := rfl
  show (UpdateViewMatrix _ _)._position = _
  rw [h]
  show computedPosition _ _ = _
  rw [hstate]
  simp only [computedPosition, ctor, glm.rotate_one_Y_real, glm.rotate_one_X_real, glm.mul,
    glm.mulVec, glm.vec4, glm.vec3, glm.scale3, glm.add3, glm.Vec4.add, glm.Vec4.scale,
    Real.cos_zero, Real.sin_zero]
  norm_num

/-- C25, as stated, fails in `float`: the sum `m_lastTargetPosition + offset` of
`UpdateViewMatrix` is rounded. For the default camera (distance 5, theta = phi = 0, forward
vector `(0, 0, 1)`) that follows a body anchored at `L`, `Position()` is `L + (0, 0, 5)`, an
offset that is computed without rounding. In `float`, with the anchors `(0, 0, 0)` and
`(0, 0, 0.1f)`, where `0.1f = 13421773 * 2^-27`, the two results of `Position()` are `(0, 0, 5)`
and `(0, 0, 10695475 * 2^-21)`, which differ by `209715 * 2^-21`, not by `0.1f`. With the
anchors `(0, 0, 0)` and `(0, 0, 2^-30)` both results are `(0, 0, 5)`: they do not differ at all
although the offset `(0, 0, 2^-30)` is not zero. -/
theorem Position_rounding_absorbs_offset :
    (∀ L : Vec3 ℝ,
      ((calls ⟨⟨0.0, 1.0, 0.0⟩, ⟨1.0, 0.0, 0.0⟩, ⟨0.0, 0.0, 1.0⟩⟩ (ctor ({} : Params ℝ))
          [Call.SetTargetBody TargetBody.EARTH, Call.UpdateTargetPosition L]).Position
          ⟨⟨0.0, 1.0, 0.0⟩, ⟨1.0, 0.0, 0.0⟩, ⟨0.0, 0.0, 1.0⟩⟩).2
        = glm.add3 L ⟨0, 0, 5⟩) ∧
    glm.add3 (⟨⟨0⟩, ⟨0⟩, ⟨0⟩⟩ : Vec3 Binary32) ⟨⟨0⟩, ⟨0⟩, ⟨5⟩⟩
      = ⟨⟨0⟩, ⟨0⟩, ⟨5⟩⟩ ∧
    (glm.add3 (⟨⟨0⟩, ⟨0⟩, ⟨0⟩⟩ : Vec3 Binary32) ⟨⟨0⟩, ⟨0⟩, ⟨13421773 / 134217728⟩⟩
        = ⟨⟨0⟩, ⟨0⟩, ⟨13421773 / 134217728⟩⟩ ∧
      glm.add3 (⟨⟨0⟩, ⟨0⟩, ⟨13421773 / 134217728⟩⟩ : Vec3 Binary32) ⟨⟨0⟩, ⟨0⟩, ⟨5⟩⟩
        = ⟨⟨0⟩, ⟨0⟩, ⟨10695475 / 2097152⟩⟩ ∧
      (10695475 / 2097152 : ℚ) - 5 = 209715 / 2097152 ∧
      (209715 / 2097152 : ℚ) ≠ 13421773 / 134217728) ∧
    (glm.add3 (⟨⟨0⟩, ⟨0⟩, ⟨0⟩⟩ : Vec3 Binary32) ⟨⟨0⟩, ⟨0⟩, ⟨1 / 1073741824⟩⟩
        = ⟨⟨0⟩, ⟨0⟩, ⟨1 / 1073741824⟩⟩ ∧
      (⟨⟨0⟩, ⟨0⟩, ⟨1 / 1073741824⟩⟩ : Vec3 Binary32) ≠ ⟨⟨0⟩, ⟨0⟩, ⟨0⟩⟩ ∧
      glm.add3 (⟨⟨0⟩, ⟨0⟩, ⟨1 / 1073741824⟩⟩ : Vec3 Binary32) ⟨⟨0⟩, ⟨0⟩, ⟨5⟩⟩
        = ⟨⟨0⟩, ⟨0⟩, ⟨5⟩⟩) := by
  have hadd : ∀ a b : Binary32, a + b = ⟨Binary32.round (a.val + b.val)⟩ := fun _ _ => rfl
  refine ⟨Position_default_following, ?_, ⟨?_, ?_, ?_, ?_⟩, ⟨?_, ?_, ?_⟩⟩
  · simp only [glm.add3, hadd, add_zero, zero_add, Binary32.round_zero, Binary32.round_five]
  · simp only [glm.add3, hadd, add_zero, zero_add, Binary32.round_zero, Binary32.round_tenth]
  · simp only [glm.add3, hadd, add_zero, zero_add, Binary32.round_zero,
      Binary32.round_five_tenth]
  · norm_num
  · norm_num
  · simp only [glm.add3, hadd, add_zero, zero_add, Binary32.round_zero, Binary32.round_small]
  · intro h
    have hz : (1 / 1073741824 : ℚ) = 0 := congrArg Binary32.val (congrArg Vec3.z h)
    norm_num at hz
  · simp only [glm.add3, hadd, add_zero, zero_add, Binary32.round_zero,
      Binary32.round_five_absorbs]

/-- C25 amended: `GetPosition()` always returns
`(distance*sin(phi)*cos(theta), distance*cos(phi), distance*sin(phi)*sin(theta))`, whatever the
target members, the dirty flag and the cache hold. For two cameras `c1`, `c2`, each reachable
from construction by calls of the public member functions (queried or not), with the same
distance, theta and phi and whose last target positions differ by a non-zero offset `o`:
`GetPosition()` returns the same point in both; `Position()` returns, in each, the camera's own
last target position plus one and the same offset vector; and, the arithmetic being exact (any
ordered field), `Position()` differs by exactly `o`, so that `GetPosition()` and `Position()`
do not agree in both. -/
theorem GetPosition_ignores_target {α : Type} [LinearOrderedField α] [FloatMath α] (M : Math α)
    (params1 params2 : Params α) (cs1 cs2 : List (Call α)) (c1 c2 : TurnTableCamera α)
    (o : Vec3 α)
    (hc1 : c1 = calls M (ctor params1) cs1) (hc2 : c2 = calls M (ctor params2) cs2)
    (hdistance : c2._distance = c1._distance) (htheta : c2._theta = c1._theta)
    (hphi : c2._phi = c1._phi)
    (hanchor : c2.m_lastTargetPosition = glm.add3 c1.m_lastTargetPosition o)
    (ho : o ≠ ⟨0, 0, 0⟩) :
    (∀ c : TurnTableCamera α, c.GetPosition
      = ⟨c._distance * FloatMath.sin c._phi * FloatMath.cos c._theta,
         c._distance * FloatMath.cos c._phi,
         c._distance * FloatMath.sin c._phi * FloatMath.sin c._theta⟩) ∧
    (∀ (c : TurnTableCamera α) (p q : Vec3 α) (b : TargetBody) (d : Bool) (vm : Mat4 α)
        (pos : Vec3 α),
      GetPosition { c with m_targetPosition := q, m_targetBody := b, m_lastTargetPosition := p,
                           _isDirty := d, _viewMatrix := vm, _position := pos }
        = c.GetPosition) ∧
    c2.GetPosition = c1.GetPosition ∧
    ((c1.Position M).2
        = glm.add3 c1.m_lastTargetPosition
            (glm.scale3 (glm.vec3 (glm.mulVec
              (glm.mul (glm.rotate glm.mat4_one c1._theta M.UpVec3)
                (glm.rotate glm.mat4_one c1._phi M.RightVec3))
              (glm.vec4 M.ForwardVec3 0.0))) c1._distance) ∧
      (c2.Position M).2
        = glm.add3 c2.m_lastTargetPosition
            (glm.scale3 (glm.vec3 (glm.mulVec
              (glm.mul (glm.rotate glm.mat4_one c1._theta M.UpVec3)
                (glm.rotate glm.mat4_one c1._phi M.RightVec3))
              (glm.vec4 M.ForwardVec3 0.0))) c1._distance)) ∧
    (c2.Position M).2 = glm.add3 (c1.Position M).2 o ∧
    ¬ (c1.GetPosition = (c1.Position M).2 ∧ c2.GetPosition = (c2.Position M).2) := by
  have hv1 : CacheValid M c1 := by
    rw [hc1]; exact CacheValid_calls M cs1 (ctor params1) (CacheValid_ctor M params1)
  have hv2 : CacheValid M c2 := by
    rw [hc2]; exact CacheValid_calls M cs2 (ctor params2) (CacheValid_ctor M params2)
  have hp1 : (c1.Position M).2 = computedPosition M c1 := Position_of_CacheValid M c1 hv1
  have hp2 : (c2.Position M).2
      = glm.add3 c2.m_lastTargetPosition
          (glm.scale3 (glm.vec3 (glm.mulVec
            (glm.mul (glm.rotate glm.mat4_one c1._theta M.UpVec3)
              (glm.rotate glm.mat4_one c1._phi M.RightVec3))
            (glm.vec4 M.ForwardVec3 0.0))) c1._distance) := by
    rw [Position_of_CacheValid M c2 hv2, ← htheta, ← hphi, ← hdistance]
    rfl
  have hget : c2.GetPosition = c1.GetPosition := by
    unfold GetPosition
    rw [hdistance, htheta, hphi]
  have hpos : (c2.Position M).2 = glm.add3 (c1.Position M).2 o := by
    rw [hp2, hp1, hanchor]
    simp only [computedPosition, glm.add3, Vec3.mk.injEq]
    refine ⟨?_, ?_, ?_⟩ <;> ring
  refine ⟨fun _ => rfl, fun _ _ _ _ _ _ _ => rfl, hget, ⟨hp1, hp2⟩, hpos, ?_⟩
  rintro ⟨h1, h2⟩
  rw [hget, h1] at h2
  rw [hpos] at h2
  apply ho
  have hx : (c1.Position M).2.x = (c1.Position M).2.x + o.x := congrArg Vec3.x h2
  have hy : (c1.Position M).2.y = (c1.Position M).2.y + o.y := congrArg Vec3.y h2
  have hz : (c1.Position M).2.z = (c1.Position M).2.z + o.z := congrArg Vec3.z h2
  obtain ⟨ox, oy, oz⟩ := o
  have e1 : ox = 0 := by linarith
  have e2 : oy = 0 := by linarith
  have e3 : oz = 0 := by linarith
  rw [e1, e2, e3]

/-- C25 amended, on two default cameras that follow the Earth, anchored at the origin and at
`(1, 0, 0)`, the first just queried with `ViewMatrix()` and the second with `Position()`:
`GetPosition()` agrees, and in exact arithmetic `Position()` differs by `(1, 0, 0)`. -/
theorem GetPosition_ignores_target_witness :
    (calls (⟨⟨0, 1, 0⟩, ⟨1, 0, 0⟩, ⟨0, 0, 1⟩⟩ : Math ℝ) (ctor {})
        [Call.SetTargetBody TargetBody.EARTH,
          Call.UpdateTargetPosition (glm.add3 ⟨0, 0, 0⟩ ⟨1, 0, 0⟩), Call.Position])._isDirty
      = false ∧
    (calls (⟨⟨0, 1, 0⟩, ⟨1, 0, 0⟩, ⟨0, 0, 1⟩⟩ : Math ℝ) (ctor {})
        [Call.SetTargetBody TargetBody.EARTH,
          Call.UpdateTargetPosition (glm.add3 ⟨0, 0, 0⟩ ⟨1, 0, 0⟩), Call.Position]).GetPosition
      = (calls (⟨⟨0, 1, 0⟩, ⟨1, 0, 0⟩, ⟨0, 0, 1⟩⟩ : Math ℝ) (ctor {})
        [Call.SetTargetBody TargetBody.EARTH, Call.UpdateTargetPosition ⟨0, 0, 0⟩,
          Call.ViewMatrix]).GetPosition ∧
    ((calls (⟨⟨0, 1, 0⟩, ⟨1, 0, 0⟩, ⟨0, 0, 1⟩⟩ : Math ℝ) (ctor {})
        [Call.SetTargetBody TargetBody.EARTH,
          Call.UpdateTargetPosition (glm.add3 ⟨0, 0, 0⟩ ⟨1, 0, 0⟩), Call.Position]).Position
          ⟨⟨0, 1, 0⟩, ⟨1, 0, 0⟩, ⟨0, 0, 1⟩⟩).2
      = glm.add3 ((calls (⟨⟨0, 1, 0⟩, ⟨1, 0, 0⟩, ⟨0, 0, 1⟩⟩ : Math ℝ) (ctor {})
        [Call.SetTargetBody TargetBody.EARTH, Call.UpdateTargetPosition ⟨0, 0, 0⟩,
          Call.ViewMatrix]).Position ⟨⟨0, 1, 0⟩, ⟨1, 0, 0⟩, ⟨0, 0, 1⟩⟩).2 ⟨1, 0, 0⟩ := by
  have h := GetPosition_ignores_target (⟨⟨0, 1, 0⟩, ⟨1, 0, 0⟩, ⟨0, 0, 1⟩⟩ : Math ℝ) {} {}
    [Call.SetTargetBody TargetBody.EARTH, Call.UpdateTargetPosition ⟨0, 0, 0⟩, Call.ViewMatrix]
    [Call.SetTargetBody TargetBody.EARTH,
      Call.UpdateTargetPosition (glm.add3 ⟨0, 0, 0⟩ ⟨1, 0, 0⟩), Call.Position]
    _ _ ⟨1, 0, 0⟩ rfl rfl rfl rfl rfl rfl (fun h0 => one_ne_zero (congrArg Vec3.x h0))
  exact ⟨rfl, h.2.2.1, h.2.2.2.2.1⟩

end Cache

end TurnTableCamera

end SolarSystem
